import Mathlib

/-!
# FreeBSD native target of GDB (`gdb/fbsd-nat.c`): wait / resume engine

A shallow embedding of the native wait/resume engine of `fbsd-nat.c`.
The engine is C code that talks to the kernel (`ptrace`, `waitpid`,
`sysctl`) and to the target beneath it (`super_wait`, `super_resume`).
Those collaborators are not part of the sources: they are the fields of
`target_env`, an arbitrary deterministic environment over a state type
`σ`.  Every call the engine makes is also appended to a log
(`World.calls`), so that the order of the requests can be stated.

The configuration modelled is the one with `PT_LWPINFO`, `TDP_RFPPWAIT`,
`PL_FLAG_EXEC`, `HAVE_KINFO_GETVMMAP` and `PT_LWP_EVENTS` defined; the functions
that exist only without `PT_LWP_EVENTS` (`fbsd_add_threads`, the polling
`fbsd_update_thread_list`) are embedded next to their counterparts.

The file also embeds the installation of the engine (`fbsd_nat_add_target`),
the enumeration of the memory regions (`fbsd_find_memory_regions`), the
register transfer of `arm-fbsd-nat.c`, and the Target Stack of the spec.
-/

namespace Gdb

/-! ## Data model -/

/-- Modelled from the spec: the thread identifier `ptid_t` of `common/ptid.h`
(absent from the sources): process id, lightweight-thread id, sub-id. -/
structure ptid_t where
  pid : Int
  lwp : Int
  tid : Int
  deriving DecidableEq, Repr

/-- Modelled from the spec: `ptid_build` of `common/ptid.c`. -/
def ptid_build (pid lwp tid : Int) : ptid_t := ⟨pid, lwp, tid⟩

/-- Modelled from the spec: `pid_to_ptid` of `common/ptid.c`, the process-only
identifier (thread id 0). -/
def pid_to_ptid (pid : Int) : ptid_t := ptid_build pid 0 0

/-- Modelled from the spec: `ptid_get_pid` of `common/ptid.c`. -/
def ptid_get_pid (p : ptid_t) : Int := p.pid

/-- Modelled from the spec: `ptid_get_lwp` of `common/ptid.c`. -/
def ptid_get_lwp (p : ptid_t) : Int := p.lwp

/-- Modelled from the spec: `ptid_lwp_p` of `common/ptid.c`; a thread id of 0
means "process-wide, not yet thread-qualified". -/
def ptid_lwp_p (p : ptid_t) : Bool := p.lwp != 0

/-- Modelled from the spec: the kinds of `struct target_waitstatus`
(`target/waitstatus.h`, absent from the sources). -/
inductive target_waitkind where
  | EXITED | STOPPED | SIGNALLED | LOADED | FORKED | VFORKED | EXECD
  | VFORK_DONE | SYSCALL_ENTRY | SYSCALL_RETURN | SPURIOUS | IGNORE
  | NO_HISTORY | NO_RESUMED
  deriving DecidableEq, Repr

/-- Modelled from the spec: the `value` union of `struct target_waitstatus`. -/
inductive waitstatus_value where
  | integer (n : Int)
  | sig (s : Int)
  | related_pid (p : ptid_t)
  | execd_pathname (path : String)
  | syscall_number (n : Int)
  deriving DecidableEq, Repr

/-- Modelled from the spec: `struct target_waitstatus`. -/
structure target_waitstatus where
  kind : target_waitkind
  value : waitstatus_value
  deriving DecidableEq, Repr

/-- The fields of the kernel's `struct ptrace_lwpinfo` that the engine reads. -/
structure ptrace_lwpinfo where
  pl_lwpid : Int
  pl_flags : Nat
  pl_child_pid : Int
  deriving DecidableEq, Repr

/-- The field of the kernel's `struct kinfo_proc` that the engine reads. -/
structure kinfo_proc where
  ki_flag : Nat
  deriving DecidableEq, Repr

/-- Modelled from the spec: flag bits of `pl_flags`, from the kernel header
`sys/ptrace.h` (absent from the sources); the values are FreeBSD's. -/
def PL_FLAG_SA : Nat := 0x01
/-- Modelled from the spec: the exec flag of `sys/ptrace.h`. -/
def PL_FLAG_EXEC : Nat := 0x10
/-- Modelled from the spec: the fork-completion flag of `sys/ptrace.h`. -/
def PL_FLAG_FORKED : Nat := 0x40
/-- Modelled from the spec: the new-child flag of `sys/ptrace.h`. -/
def PL_FLAG_CHILD : Nat := 0x80
/-- Modelled from the spec: the thread-born flag of `sys/ptrace.h`. -/
def PL_FLAG_BORN : Nat := 0x100
/-- Modelled from the spec: the thread-exited flag of `sys/ptrace.h`. -/
def PL_FLAG_EXITED : Nat := 0x200
/-- Modelled from the spec: the vfork-pending process flag of `sys/proc.h`. -/
def P_PPWAIT : Nat := 0x00000010

/-- The C test `flags & mask` used as a condition. -/
def flag_set (flags mask : Nat) : Bool := (flags &&& mask) != 0

/-- The `ptrace` requests the engine and the architecture code issue. -/
inductive ptrace_request where
  | PT_LWPINFO | PT_GETNUMLWPS | PT_GETLWPLIST | PT_SUSPEND | PT_RESUME
  | PT_DETACH | PT_FOLLOW_FORK | PT_LWP_EVENTS | PT_GETREGS | PT_SETREGS
  deriving DecidableEq, Repr

/-- One call made by the engine to the kernel or to the target beneath. -/
inductive Call where
  | ptrace (request : ptrace_request) (pid : Int) (addr : Int) (data : Int)
  | waitpid (pid : Int) (options : Int)
  | sysctl_kern_proc_pid (pid : Int)
  | sysctl_kern_proc_pathname (pid : Int)
  | readlink_proc_exe (pid : Int)
  | super_wait (ptid : ptid_t) (options : Int)
  | super_resume (ptid : ptid_t) (step : Int) (signo : Int)
  | kinfo_getvmmap (pid : Int)
  deriving DecidableEq, Repr

/-- The collaborators of the engine: the kernel's process-trace interface and
the operations of the target beneath, as a deterministic environment over the
state `σ`.  `none` is the failing return (`-1`) of a kernel call. -/
structure target_env (σ : Type) where
  /-- The call `ptrace (PT_LWPINFO, id, &pl, sizeof pl)`. -/
  ptrace_lwpinfo : σ → Int → Option ptrace_lwpinfo
  /-- The call `ptrace (PT_GETNUMLWPS, pid, NULL, 0)`. -/
  ptrace_getnumlwps : σ → Int → Option Nat
  /-- The call `ptrace (PT_GETLWPLIST, pid, lwps, nlwps)`. -/
  ptrace_getlwplist : σ → Int → Nat → Option (List Int)
  /-- A state-changing request `ptrace (request, pid, addr, data)`. -/
  ptrace_set : σ → ptrace_request → Int → Int → Int → Option σ
  /-- The call `waitpid (pid, &status, options)`: `none` when it never returns,
  otherwise the returned pid (`-1` on failure) and the next state. -/
  waitpid : σ → Int → Int → Option (Int × σ)
  /-- The call `sysctl` on `KERN_PROC_PID`. -/
  sysctl_kern_proc_pid : σ → Int → Option kinfo_proc
  /-- The call `sysctl` on `KERN_PROC_PATHNAME`. -/
  sysctl_kern_proc_pathname : σ → Int → Option String
  /-- The call `readlink ("/proc/PID/exe")`. -/
  readlink_proc_exe : σ → Int → Option String
  /-- The wait operation of the target beneath: `none` when it never returns
  (nothing to deliver), otherwise the responsible ptid, the raw status and the
  next state. -/
  super_wait : σ → ptid_t → Int → Option (ptid_t × target_waitstatus × σ)
  /-- The resume operation of the target beneath; `none` when it raises. -/
  super_resume : σ → ptid_t → Int → Int → Option σ
  /-- The matching rule `ptid_match (ptid, filter)` of `common/ptid.c`. -/
  ptid_match : ptid_t → ptid_t → Bool

/-- The part of `struct thread_info` the engine uses. -/
structure thread_info where
  ptid : ptid_t
  deriving DecidableEq, Repr

/-- The state the engine runs in: the environment's state, the log of calls
made so far (oldest first), and the globals of the debugger that the engine
reads and writes. -/
structure World (σ : Type) where
  kern : σ
  calls : List Call
  thread_list : List thread_info
  inferior_ptid : ptid_t
  fbsd_pending_children : List Int
  deriving DecidableEq

/-- The origin of an error raised during an operation: the failing call that
`perror_with_name` names, the target beneath, or the thread table. -/
inductive failed_call where
  | ptrace | waitpid | sysctl | super_resume | unknown_thread | kinfo_getvmmap
  deriving DecidableEq, Repr

/-- How a run of an operation ends. -/
inductive Outcome (α : Type) where
  /-- The operation returned normally. -/
  | ok (a : α)
  /-- An error was raised by `perror_with_name`. -/
  | error (call : failed_call)
  /-- A `gdb_assert` failed. -/
  | assert_fail
  /-- A blocking primitive never returned. -/
  | blocked
  /-- A null pointer was dereferenced. -/
  | null_deref
  /-- The bound on loop iterations of the model was reached. -/
  | out_of_fuel
  deriving DecidableEq, Repr

/-- Computations of the engine: state passing with abrupt termination. -/
def M (σ α : Type) : Type := World σ → Outcome α × World σ

/-- Sequencing: the continuation runs only after a normal return. -/
def M.bind {σ α β : Type} (m : M σ α) (f : α → M σ β) : M σ β := fun w =>
  match m w with
  | (Outcome.ok a, w1) => f a w1
  | (Outcome.error e, w1) => (Outcome.error e, w1)
  | (Outcome.assert_fail, w1) => (Outcome.assert_fail, w1)
  | (Outcome.blocked, w1) => (Outcome.blocked, w1)
  | (Outcome.null_deref, w1) => (Outcome.null_deref, w1)
  | (Outcome.out_of_fuel, w1) => (Outcome.out_of_fuel, w1)

instance {σ : Type} : Monad (M σ) where
  pure a := fun w => (Outcome.ok a, w)
  bind := M.bind

/-- The macro `gdb_assert (cond)`. -/
def gdb_assert {σ : Type} (cond : Bool) : M σ Unit := fun w =>
  if cond then (Outcome.ok (), w) else (Outcome.assert_fail, w)

/-- The call `perror_with_name (name)`. -/
def perror_with_name {σ α : Type} (call : failed_call) : M σ α := fun w =>
  (Outcome.error call, w)

/-- Read a global of the debugger. -/
def get_world {σ : Type} : M σ (World σ) := fun w => (Outcome.ok w, w)

/-! ## Kernel calls and the target beneath -/

/-- A state-changing call `ptrace (request, pid, addr, data)`: the C return
value, `0` or `-1`. -/
def ptrace {σ : Type} (env : target_env σ) (request : ptrace_request)
    (pid addr data : Int) : M σ Int := fun w =>
  match env.ptrace_set w.kern request pid addr data with
  | some k =>
      (Outcome.ok 0,
        { w with kern := k, calls := w.calls ++ [Call.ptrace request pid addr data] })
  | none =>
      (Outcome.ok (-1), { w with calls := w.calls ++ [Call.ptrace request pid addr data] })

/-- The call `ptrace (PT_LWPINFO, id, &pl, sizeof pl)`: `none` is the return
value `-1`. -/
def ptrace_lwpinfo_call {σ : Type} (env : target_env σ) (id : Int) :
    M σ (Option ptrace_lwpinfo) := fun w =>
  (Outcome.ok (env.ptrace_lwpinfo w.kern id),
    { w with calls := w.calls ++ [Call.ptrace ptrace_request.PT_LWPINFO id 0 0] })

/-- The call `waitpid (pid, &status, options)`. -/
def waitpid {σ : Type} (env : target_env σ) (pid options : Int) : M σ Int := fun w =>
  match env.waitpid w.kern pid options with
  | some (r, k) =>
      (Outcome.ok r, { w with kern := k, calls := w.calls ++ [Call.waitpid pid options] })
  | none => (Outcome.blocked, { w with calls := w.calls ++ [Call.waitpid pid options] })

/-- The call through the saved pointer `super_wait`. -/
def super_wait {σ : Type} (env : target_env σ) (ptid : ptid_t) (target_options : Int) :
    M σ (ptid_t × target_waitstatus) := fun w =>
  match env.super_wait w.kern ptid target_options with
  | some (wptid, ourstatus, k) =>
      (Outcome.ok (wptid, ourstatus),
        { w with kern := k, calls := w.calls ++ [Call.super_wait ptid target_options] })
  | none =>
      (Outcome.blocked, { w with calls := w.calls ++ [Call.super_wait ptid target_options] })

/-- The call through the saved pointer `super_resume`. -/
def super_resume {σ : Type} (env : target_env σ) (ptid : ptid_t) (step signo : Int) :
    M σ Unit := fun w =>
  match env.super_resume w.kern ptid step signo with
  | some k =>
      (Outcome.ok (),
        { w with kern := k, calls := w.calls ++ [Call.super_resume ptid step signo] })
  | none =>
      (Outcome.error failed_call.super_resume,
        { w with calls := w.calls ++ [Call.super_resume ptid step signo] })

/-! ## The thread table (`thread.c`) -/

/-- Modelled from the spec: `in_thread_list` of `thread.c` (absent from the
sources): is there a thread-table entry for this identifier. -/
def in_thread_list {σ : Type} (ptid : ptid_t) : M σ Bool := fun w =>
  (Outcome.ok (w.thread_list.any (fun tp => tp.ptid = ptid)), w)

/-- Modelled from the spec: `add_thread` of `thread.c` (absent from the
sources): a thread record is created on first observation. -/
def add_thread {σ : Type} (ptid : ptid_t) : M σ Unit := fun w =>
  (Outcome.ok (), { w with thread_list := ⟨ptid⟩ :: w.thread_list })

/-- Modelled from the spec: `delete_thread` of `thread.c` (absent from the
sources): the thread-table entry of the identifier is removed. -/
def delete_thread {σ : Type} (ptid : ptid_t) : M σ Unit := fun w =>
  (Outcome.ok (), { w with thread_list := w.thread_list.filter (fun tp => tp.ptid ≠ ptid) })

/-- Modelled from the spec: `thread_change_ptid` of `thread.c` (absent from the
sources): the entry of `old_ptid` is reassigned to `new_ptid`, and so is
`inferior_ptid` when it is `old_ptid`; an identifier absent from the thread
table is an `UnknownThreadError`, the table being left unmodified. -/
def thread_change_ptid {σ : Type} (old_ptid new_ptid : ptid_t) : M σ Unit := fun w =>
  if w.thread_list.any (fun tp => tp.ptid = old_ptid) then
    (Outcome.ok (),
      { w with
        thread_list :=
          w.thread_list.map (fun tp => if tp.ptid = old_ptid then ⟨new_ptid⟩ else tp),
        inferior_ptid := if w.inferior_ptid = old_ptid then new_ptid else w.inferior_ptid })
  else (Outcome.error failed_call.unknown_thread, w)

/-- The loop of `iterate_over_threads` of `thread.c` over the entries of the
table: the callback is called on each entry until it returns nonzero. -/
def iterate_threads_from {σ : Type} (callback : thread_info → M σ Int) :
    List thread_info → M σ (Option thread_info)
  | [] => pure none
  | tp :: next => do
      let r ← callback tp
      if r ≠ 0 then pure (some tp) else iterate_threads_from callback next

/-- Modelled from the spec: `iterate_over_threads` of `thread.c` (absent from
the sources), over the whole thread table. -/
def iterate_over_threads {σ : Type} (callback : thread_info → M σ Int) :
    M σ (Option thread_info) := fun w =>
  iterate_threads_from callback w.thread_list w

/-! ## Resume -/

/-- The function `resume_one_thread_cb`.  The local `request` is computed and
never used: the call passes the constant `PT_SUSPEND`. -/
def resume_one_thread_cb {σ : Type} (env : target_env σ) (tp : thread_info)
    (ptid : ptid_t) : M σ Int :=
  if ptid_get_pid tp.ptid ≠ ptid_get_pid ptid then pure 0
  else do
    let _request :=
      if ptid_get_lwp tp.ptid = ptid_get_lwp ptid then ptrace_request.PT_RESUME
      else ptrace_request.PT_SUSPEND
    let r ← ptrace env ptrace_request.PT_SUSPEND (ptid_get_lwp tp.ptid) 0 0
    if r = -1 then perror_with_name failed_call.ptrace else pure 0

/-- The function `resume_all_threads_cb`. -/
def resume_all_threads_cb {σ : Type} (env : target_env σ) (tp : thread_info)
    (filter : ptid_t) : M σ Int :=
  if !env.ptid_match tp.ptid filter then pure 0
  else if !ptid_lwp_p tp.ptid then pure 0
  else do
    let r ← ptrace env ptrace_request.PT_RESUME (ptid_get_lwp tp.ptid) 0 0
    if r = -1 then perror_with_name failed_call.ptrace else pure 0

/-- The function `fbsd_resume`. -/
def fbsd_resume {σ : Type} (env : target_env σ) (ptid : ptid_t) (step signo : Int) :
    M σ Unit := do
  let ptid1 ←
    if ptid_lwp_p ptid then do
      let _ ← iterate_over_threads (fun tp => resume_one_thread_cb env tp ptid)
      pure ptid
    else do
      let _ ← iterate_over_threads (fun tp => resume_all_threads_cb env tp ptid)
      let w ← get_world
      pure w.inferior_ptid
  super_resume env ptid1 step signo

/-! ## The Pending-Fork Registry -/

/-- The function `fbsd_remember_child`: a new entry at the head of the list
`fbsd_pending_children`. -/
def fbsd_remember_child {σ : Type} (pid : Int) : M σ Unit := fun w =>
  (Outcome.ok (), { w with fbsd_pending_children := pid :: w.fbsd_pending_children })

/-- The loop of `fbsd_is_child_pending`: the list without its first entry for
`pid`, or `none` when there is no such entry. -/
def unlink_child (pid : Int) : List Int → Option (List Int)
  | [] => none
  | child :: next =>
      if child = pid then some next
      else match unlink_child pid next with
        | some l => some (child :: l)
        | none => none

/-- The function `fbsd_is_child_pending`. -/
def fbsd_is_child_pending {σ : Type} (pid : Int) : M σ Int := fun w =>
  match unlink_child pid w.fbsd_pending_children with
  | some l => (Outcome.ok 1, { w with fbsd_pending_children := l })
  | none => (Outcome.ok 0, w)

/-! ## Wait -/

/-- The function `fbsd_fetch_kinfo_proc`. -/
def fbsd_fetch_kinfo_proc {σ : Type} (env : target_env σ) (pid : Int) :
    M σ kinfo_proc := fun w =>
  match env.sysctl_kern_proc_pid w.kern pid with
  | some kp => (Outcome.ok kp, { w with calls := w.calls ++ [Call.sysctl_kern_proc_pid pid] })
  | none =>
      (Outcome.error failed_call.sysctl,
        { w with calls := w.calls ++ [Call.sysctl_kern_proc_pid pid] })

/-- The function `fbsd_pid_to_exec_file` (with `KERN_PROC_PATHNAME`): the path
of the `sysctl`, else the target of the `/proc` link, else `NULL`. -/
def fbsd_pid_to_exec_file {σ : Type} (env : target_env σ) (pid : Int) :
    M σ (Option String) := fun w =>
  match env.sysctl_kern_proc_pathname w.kern pid with
  | some buf =>
      (Outcome.ok (some buf),
        { w with calls := w.calls ++ [Call.sysctl_kern_proc_pathname pid] })
  | none =>
      (Outcome.ok (env.readlink_proc_exe w.kern pid),
        { w with calls := w.calls
            ++ [Call.sysctl_kern_proc_pathname pid, Call.readlink_proc_exe pid] })

/-- The function `xstrdup`: its argument is dereferenced. -/
def xstrdup {σ : Type} (s : Option String) : M σ String := fun w =>
  match s with
  | some str => (Outcome.ok str, w)
  | none => (Outcome.null_deref, w)

/-- The call `ptrace (PT_GETNUMLWPS, pid, NULL, 0)`. -/
def ptrace_getnumlwps_call {σ : Type} (env : target_env σ) (pid : Int) :
    M σ (Option Nat) := fun w =>
  (Outcome.ok (env.ptrace_getnumlwps w.kern pid),
    { w with calls := w.calls ++ [Call.ptrace ptrace_request.PT_GETNUMLWPS pid 0 0] })

/-- The call `ptrace (PT_GETLWPLIST, pid, lwps, nlwps)`. -/
def ptrace_getlwplist_call {σ : Type} (env : target_env σ) (pid : Int) (nlwps : Nat) :
    M σ (Option (List Int)) := fun w =>
  (Outcome.ok (env.ptrace_getlwplist w.kern pid nlwps),
    { w with calls := w.calls ++ [Call.ptrace ptrace_request.PT_GETLWPLIST pid 0 nlwps] })

/-- The first loop of `fbsd_switch_to_threaded`: the trace information of each
listed LWP. -/
def fetch_lwpinfos {σ : Type} (env : target_env σ) :
    List Int → M σ (List ptrace_lwpinfo)
  | [] => pure []
  | lwp :: rest => do
      let r ← ptrace_lwpinfo_call env lwp
      match r with
      | none => perror_with_name failed_call.ptrace
      | some pl => do
          let pls ← fetch_lwpinfos env rest
          pure (pl :: pls)

/-- The C expression `flags & mask != 0`, in which `!=` binds tighter than
`&`: the flags are masked with the truth value (0 or 1) of `mask != 0`. -/
def and_of_ne (flags mask : Nat) : Nat := flags &&& (if mask != 0 then 1 else 0)

/-- The candidate loop of `fbsd_switch_to_threaded`. -/
def switch_candidate_loop {σ : Type} (pid : Int) :
    List (Int × ptrace_lwpinfo) → M σ Unit
  | [] => pure ()
  | (lwp, pl) :: rest =>
      let ptid := ptid_build pid lwp 0
      if and_of_ne pl.pl_flags (PL_FLAG_BORN ||| PL_FLAG_EXITED) != 0 then
        switch_candidate_loop pid rest
      else do
        let b ← in_thread_list ptid
        gdb_assert (!b)
        let w ← get_world
        thread_change_ptid w.inferior_ptid ptid

/-- The last loop of `fbsd_switch_to_threaded`. -/
def switch_add_loop {σ : Type} (pid : Int) :
    List (Int × ptrace_lwpinfo) → M σ Unit
  | [] => pure ()
  | (lwp, pl) :: rest =>
      let ptid := ptid_build pid lwp 0
      if and_of_ne pl.pl_flags PL_FLAG_EXITED != 0 then
        switch_add_loop pid rest
      else do
        let w ← get_world
        if !ptid_lwp_p w.inferior_ptid then do
          let b ← in_thread_list ptid
          gdb_assert (!b)
          thread_change_ptid w.inferior_ptid ptid
        else do
          let b ← in_thread_list ptid
          if !b then add_thread ptid else pure ()
        switch_add_loop pid rest

/-- The function `fbsd_switch_to_threaded`.  (The allocation of `pl` names an
undeclared `nwlps`; it is read as `nlwps`.) -/
def fbsd_switch_to_threaded {σ : Type} (env : target_env σ) (pid : Int) : M σ Unit := do
  let nlwps ← ptrace_getnumlwps_call env pid
  match nlwps with
  | none => perror_with_name failed_call.ptrace
  | some n => do
      let r ← ptrace_getlwplist_call env pid n
      match r with
      | none => perror_with_name failed_call.ptrace
      | some lwps => do
          let pl ← fetch_lwpinfos env lwps
          switch_candidate_loop pid (lwps.zip pl)
          switch_add_loop pid (lwps.zip pl)

/-- The function `fbsd_wait`.  The first argument bounds the number of
iterations of the `while (1)` loop. -/
def fbsd_wait {σ : Type} (env : target_env σ) :
    Nat → ptid_t → Int → M σ (ptid_t × target_waitstatus)
  | 0, _, _ => fun w => (Outcome.out_of_fuel, w)
  | fuel + 1, ptid, target_options => do
      let (wptid, ourstatus) ← super_wait env ptid target_options
      if ourstatus.kind = target_waitkind.STOPPED then do
        let pid := ptid_get_pid wptid
        let r ← ptrace_lwpinfo_call env pid
        match r with
        | none => perror_with_name failed_call.ptrace
        | some pl =>
          if flag_set pl.pl_flags PL_FLAG_FORKED then do
            let child := pl.pl_child_pid
            let ourstatus1 : target_waitstatus :=
              { kind := target_waitkind.FORKED,
                value := waitstatus_value.related_pid (pid_to_ptid child) }
            /- Make sure the other end of the fork is stopped too. -/
            let pending ← fbsd_is_child_pending child
            if pending = 0 then do
              let pid1 ← waitpid env child 0
              if pid1 = -1 then perror_with_name failed_call.waitpid
              else do
                gdb_assert (pid1 == child)
                let r1 ← ptrace_lwpinfo_call env child
                match r1 with
                | none => perror_with_name failed_call.ptrace
                | some pl1 => gdb_assert (flag_set pl1.pl_flags PL_FLAG_CHILD)
            else pure ()
            /- For vfork, the child process will have the P_PPWAIT flag set. -/
            let kp ← fbsd_fetch_kinfo_proc env child
            if flag_set kp.ki_flag P_PPWAIT then
              pure (wptid, { ourstatus1 with kind := target_waitkind.VFORKED })
            else pure (wptid, ourstatus1)
          else if flag_set pl.pl_flags PL_FLAG_CHILD then do
            /- Remember that this child forked, but do not report it until the
               parent reports its corresponding fork event. -/
            fbsd_remember_child (ptid_get_pid wptid)
            fbsd_wait env fuel ptid target_options
          else if flag_set pl.pl_flags PL_FLAG_EXEC then do
            let file ← fbsd_pid_to_exec_file env pid
            let path ← xstrdup file
            pure (wptid, { kind := target_waitkind.EXECD,
                           value := waitstatus_value.execd_pathname path })
          else if flag_set pl.pl_flags PL_FLAG_BORN then do
            let w ← get_world
            if ptid_lwp_p w.inferior_ptid then do
              let ptid1 := ptid_build pid pl.pl_lwpid 0
              let b ← in_thread_list ptid1
              gdb_assert (!b)
              add_thread ptid1
            else fbsd_switch_to_threaded env pid
            pure (wptid, { ourstatus with kind := target_waitkind.IGNORE })
          else if flag_set pl.pl_flags PL_FLAG_EXITED then do
            let ptid1 := ptid_build pid pl.pl_lwpid 0
            let b ← in_thread_list ptid1
            gdb_assert b
            delete_thread ptid1
            pure (wptid, { ourstatus with kind := target_waitkind.IGNORE })
          else pure (wptid, ourstatus)
      else pure (wptid, ourstatus)

/-! ## Thread list, attach and fork following -/

/-- The function `fbsd_thread_alive` (with `PL_FLAG_EXITED`). -/
def fbsd_thread_alive {σ : Type} (env : target_env σ) (ptid : ptid_t) : M σ Int :=
  if ptid_lwp_p ptid then do
    let r ← ptrace_lwpinfo_call env (ptid_get_lwp ptid)
    match r with
    | none => pure 0
    | some pl => if flag_set pl.pl_flags PL_FLAG_EXITED then pure 0 else pure 1
  else pure 1

/-- The loop of `prune_threads` of `thread.c` over the entries of the table:
an entry that the target's `to_thread_alive` (here `fbsd_thread_alive`) reports
dead is deleted. -/
def prune_threads_from {σ : Type} (env : target_env σ) : List thread_info → M σ Unit
  | [] => pure ()
  | tp :: next => do
      let alive ← fbsd_thread_alive env tp.ptid
      if alive = 0 then do
        delete_thread tp.ptid
        prune_threads_from env next
      else prune_threads_from env next

/-- Modelled from the spec: `prune_threads` of `thread.c` (absent from the
sources), over the whole thread table. -/
def prune_threads {σ : Type} (env : target_env σ) : M σ Unit := fun w =>
  prune_threads_from env w.thread_list w

/-- The loop of `fbsd_add_threads` over the LWP ids the kernel listed. -/
def add_threads_loop {σ : Type} (pid : Int) : List Int → M σ Unit
  | [] => pure ()
  | lwp :: rest => do
      let ptid := ptid_build pid lwp 0
      let w ← get_world
      /- If this inferior is not using LWP ptids, use the first LWP as the
         main thread. -/
      if !ptid_lwp_p w.inferior_ptid then do
        let b ← in_thread_list ptid
        gdb_assert (!b)
        thread_change_ptid w.inferior_ptid ptid
        add_threads_loop pid rest
      else do
        let b ← in_thread_list ptid
        if !b then do
          gdb_assert (ptid_lwp_p w.inferior_ptid)
          add_thread ptid
          add_threads_loop pid rest
        else add_threads_loop pid rest

/-- The function `fbsd_add_threads` (the variant without `PT_LWP_EVENTS`). -/
def fbsd_add_threads {σ : Type} (env : target_env σ) (pid : Int) (nlwps : Nat) :
    M σ Unit := do
  let r ← ptrace_getlwplist_call env pid nlwps
  match r with
  | none => perror_with_name failed_call.ptrace
  | some lwps => add_threads_loop pid lwps

/-- The function `fbsd_update_thread_list`, without `PT_LWP_EVENTS` (polling).
The value of the macro `target_has_execution` (a query of the target stack,
absent from the sources) is the argument `target_has_execution`. -/
def fbsd_update_thread_list_polling {σ : Type} (env : target_env σ)
    (target_has_execution : Bool) : M σ Unit := do
  let w ← get_world
  let pid := ptid_get_pid w.inferior_ptid
  gdb_assert (!target_has_execution)
  prune_threads env
  let r ← ptrace_getnumlwps_call env pid
  match r with
  | none => perror_with_name failed_call.ptrace
  | some nlwps => do
      let w1 ← get_world
      /- Leave single-threaded processes with a non-threaded ptid alone. -/
      if nlwps = 1 ∧ ptid_lwp_p w1.inferior_ptid = false then pure ()
      else fbsd_add_threads env pid nlwps

/-- The function `fbsd_enable_follow_fork`. -/
def fbsd_enable_follow_fork {σ : Type} (env : target_env σ) (pid : Int) : M σ Unit := do
  let r ← ptrace env ptrace_request.PT_FOLLOW_FORK pid 0 1
  if r = -1 then perror_with_name failed_call.ptrace else pure ()

/-- The function `fbsd_enable_lwp_events`. -/
def fbsd_enable_lwp_events {σ : Type} (env : target_env σ) (pid : Int) : M σ Unit := do
  let r ← ptrace env ptrace_request.PT_LWP_EVENTS pid 0 1
  if r = -1 then perror_with_name failed_call.ptrace else pure ()

/-- The function `fbsd_post_startup_inferior`. -/
def fbsd_post_startup_inferior {σ : Type} (env : target_env σ) (pid : ptid_t) :
    M σ Unit := do
  fbsd_enable_follow_fork env (ptid_get_pid pid)
  fbsd_enable_lwp_events env (ptid_get_pid pid)

/-- The function `fbsd_post_attach` (with `PT_LWP_EVENTS`). -/
def fbsd_post_attach {σ : Type} (env : target_env σ) (pid : Int) : M σ Unit := do
  fbsd_enable_follow_fork env pid
  fbsd_enable_lwp_events env pid
  /- Add threads for other LWPs when attaching to a threaded process. -/
  let r ← ptrace_getnumlwps_call env pid
  match r with
  | none => perror_with_name failed_call.ptrace
  | some nlwps => if nlwps > 1 then fbsd_switch_to_threaded env pid else pure ()

/-- Modelled from the spec: `inferior_thread` of `thread.c` (absent from the
sources): the thread-table entry of `inferior_ptid`; an identifier absent from
the thread table is an `UnknownThreadError`. -/
def inferior_thread {σ : Type} : M σ thread_info := fun w =>
  match w.thread_list.find? (fun tp => tp.ptid = w.inferior_ptid) with
  | some tp => (Outcome.ok tp, w)
  | none => (Outcome.error failed_call.unknown_thread, w)

/-- The function `fbsd_follow_fork`.  The member
`pending_follow.value.related_pid` of a thread, which the modelled record does
not carry, is read through `pending_related_pid`. -/
def fbsd_follow_fork {σ : Type} (env : target_env σ)
    (pending_related_pid : thread_info → ptid_t) (follow_child detach_fork : Int) :
    M σ Int :=
  if follow_child = 0 then do
    let tp ← inferior_thread
    let child_pid := ptid_get_pid (pending_related_pid tp)
    /- Breakpoints have already been detached from the child by infrun.c. -/
    let r ← ptrace env ptrace_request.PT_DETACH child_pid 1 0
    if r = -1 then perror_with_name failed_call.ptrace else pure 0
  else pure 0

/-- The fields of the kernel's `struct kinfo_vmentry` that
`fbsd_find_memory_regions` reads; `kve_start` and `kve_end` are `uint64_t`. -/
structure kinfo_vmentry where
  kve_start : Nat
  kve_end : Nat
  kve_protection : Nat
  kve_flags : Nat
  kve_type : Int
  deriving DecidableEq, Repr

/-- Modelled from the spec: the protection bits of a VM map entry, from the
kernel header `sys/user.h` (absent from the sources); the values are
FreeBSD's. -/
def KVME_PROT_READ : Nat := 0x00000001
/-- Modelled from the spec: the write permission bit of `sys/user.h`. -/
def KVME_PROT_WRITE : Nat := 0x00000002
/-- Modelled from the spec: the execute permission bit of `sys/user.h`. -/
def KVME_PROT_EXEC : Nat := 0x00000004
/-- Modelled from the spec: the no-core-dump flag of `sys/user.h`. -/
def KVME_FLAG_NOCOREDUMP : Nat := 0x00000004
/-- Modelled from the spec: the entry type "default" of `sys/user.h`. -/
def KVME_TYPE_DEFAULT : Int := 1
/-- Modelled from the spec: the entry type "vnode" of `sys/user.h`. -/
def KVME_TYPE_VNODE : Int := 2
/-- Modelled from the spec: the entry type "swap" of `sys/user.h`. -/
def KVME_TYPE_SWAP : Int := 3
/-- Modelled from the spec: the entry type "physical" of `sys/user.h`. -/
def KVME_TYPE_PHYS : Int := 5

/-- The arguments of one call of the callback `func` of
`fbsd_find_memory_regions`, the last one (`obfd`) apart. -/
structure memory_region where
  start : Nat
  size : Nat
  read : Nat
  write : Nat
  exec : Nat
  modified : Nat
  deriving DecidableEq, Repr

/-- The subtraction of `uint64_t` values. -/
def uint64_sub (a b : Nat) : Nat := (a % 2 ^ 64 + 2 ^ 64 - b % 2 ^ 64) % 2 ^ 64

/-- The loop of `fbsd_find_memory_regions` over the VM map entries.  The state
is the object `obfd` the callback works on and the entries announced on
`gdb_stdout` (one "Save segment" line each, when `info_verbose`).  The value the
callback returns is not looked at. -/
def find_memory_regions_loop {β : Type} (info_verbose : Bool)
    (func : memory_region → β → Int × β) :
    List kinfo_vmentry → β × List kinfo_vmentry → β × List kinfo_vmentry
  | [], s => s
  | kve :: rest, (obfd, out) =>
      /- Skip unreadable segments and those where MAP_NOCORE has been set. -/
      if !flag_set kve.kve_protection KVME_PROT_READ
          || flag_set kve.kve_flags KVME_FLAG_NOCOREDUMP then
        find_memory_regions_loop info_verbose func rest (obfd, out)
      /- Skip segments with an invalid type. -/
      else if kve.kve_type ≠ KVME_TYPE_DEFAULT ∧ kve.kve_type ≠ KVME_TYPE_VNODE
          ∧ kve.kve_type ≠ KVME_TYPE_SWAP ∧ kve.kve_type ≠ KVME_TYPE_PHYS then
        find_memory_regions_loop info_verbose func rest (obfd, out)
      else
        let size := uint64_sub kve.kve_end kve.kve_start
        let out1 := if info_verbose then out ++ [kve] else out
        let r := func
          { start := kve.kve_start, size := size,
            read := kve.kve_protection &&& KVME_PROT_READ,
            write := kve.kve_protection &&& KVME_PROT_WRITE,
            exec := kve.kve_protection &&& KVME_PROT_EXEC,
            modified := 1 } obfd
        find_memory_regions_loop info_verbose func rest (r.2, out1)

/-- The function `fbsd_find_memory_regions` (with `HAVE_KINFO_GETVMMAP`).  The
library call `kinfo_getvmmap (pid, &nitems)` is the argument `kinfo_getvmmap`,
`none` being its `NULL` return.  The result is the returned value, the object
`obfd` after the calls of `func`, and the entries announced on `gdb_stdout`.
The size is handed over as computed (the parameter type `unsigned long` is
taken to hold it). -/
def fbsd_find_memory_regions {σ β : Type}
    (kinfo_getvmmap : σ → Int → Option (List kinfo_vmentry)) (info_verbose : Bool)
    (func : memory_region → β → Int × β) (obfd : β) :
    M σ (Int × β × List kinfo_vmentry) := fun w =>
  let pid := ptid_get_pid w.inferior_ptid
  match kinfo_getvmmap w.kern pid with
  | none =>
      (Outcome.error failed_call.kinfo_getvmmap,
        { w with calls := w.calls ++ [Call.kinfo_getvmmap pid] })
  | some vmentl =>
      let r := find_memory_regions_loop info_verbose func vmentl (obfd, [])
      (Outcome.ok (0, r.1, r.2), { w with calls := w.calls ++ [Call.kinfo_getvmmap pid] })

/-! ## Installation (`fbsd_nat_add_target`) -/

/-- A function pointer held by a member of `struct target_ops`: the address of
a function of `fbsd-nat.c` or of `arm-fbsd-nat.c`, or of a function of another
file, known by its name. -/
inductive target_method where
  | fbsd_pid_to_exec_file | fbsd_find_memory_regions | fbsd_thread_alive
  | fbsd_pid_to_str | fbsd_update_thread_list | fbsd_resume | fbsd_wait
  | fbsd_post_startup_inferior | fbsd_post_attach | fbsd_follow_fork
  | fbsd_insert_fork_catchpoint | fbsd_remove_fork_catchpoint
  | fbsd_insert_vfork_catchpoint | fbsd_remove_vfork_catchpoint
  | fbsd_insert_exec_catchpoint | fbsd_remove_exec_catchpoint
  | armfbsd_fetch_inferior_registers | armfbsd_store_inferior_registers
  | other (name : String)
  deriving DecidableEq, Repr

/-- The record `struct target_ops` of the sources of `fbsd-nat.c`, as the table
of its function-pointer members, by member name. -/
def target_ops : Type := String → target_method

/-- The assignment `t->member = f`. -/
def target_ops.set (t : target_ops) (member : String) (f : target_method) : target_ops :=
  fun m => if m = member then f else t m

/-- The file-scope pointers `super_resume` and `super_wait` of `fbsd-nat.c`,
and the list of all possible targets that `add_target` maintains. -/
structure nat_globals where
  super_resume : target_method
  super_wait : target_method
  targets : List target_ops

/-- Modelled from the spec: `add_target` of `target.c` (absent from the
sources), which adds a target to the list of all possible targets. -/
def add_target (t : target_ops) (g : nat_globals) : nat_globals :=
  { g with targets := t :: g.targets }

/-- The function `fbsd_nat_add_target`. -/
def fbsd_nat_add_target (t : target_ops) (g : nat_globals) : target_ops × nat_globals :=
  let t := t.set "to_pid_to_exec_file" target_method.fbsd_pid_to_exec_file
  let t := t.set "to_find_memory_regions" target_method.fbsd_find_memory_regions
  let t := t.set "to_thread_alive" target_method.fbsd_thread_alive
  let t := t.set "to_pid_to_str" target_method.fbsd_pid_to_str
  let t := t.set "to_update_thread_list" target_method.fbsd_update_thread_list
  let g := { g with super_resume := t "to_resume" }
  let t := t.set "to_resume" target_method.fbsd_resume
  let g := { g with super_wait := t "to_wait" }
  let t := t.set "to_wait" target_method.fbsd_wait
  let t := t.set "to_post_startup_inferior" target_method.fbsd_post_startup_inferior
  let t := t.set "to_post_attach" target_method.fbsd_post_attach
  let t := t.set "to_follow_fork" target_method.fbsd_follow_fork
  let t := t.set "to_insert_fork_catchpoint" target_method.fbsd_insert_fork_catchpoint
  let t := t.set "to_remove_fork_catchpoint" target_method.fbsd_remove_fork_catchpoint
  let t := t.set "to_insert_vfork_catchpoint" target_method.fbsd_insert_vfork_catchpoint
  let t := t.set "to_remove_vfork_catchpoint" target_method.fbsd_remove_vfork_catchpoint
  let t := t.set "to_insert_exec_catchpoint" target_method.fbsd_insert_exec_catchpoint
  let t := t.set "to_remove_exec_catchpoint" target_method.fbsd_remove_exec_catchpoint
  (t, add_target t g)

/-- The environment of the engine once `super_resume` and `super_wait` are
set: a call through one of the two pointers runs the function the pointer
holds, whose behaviour on the state beneath is given by `resume_of` and
`wait_of`. -/
def env_of_globals {σ : Type} (env : target_env σ)
    (resume_of : target_method → σ → ptid_t → Int → Int → Option σ)
    (wait_of :
      target_method → σ → ptid_t → Int → Option (ptid_t × target_waitstatus × σ))
    (g : nat_globals) : target_env σ :=
  { env with super_resume := resume_of g.super_resume, super_wait := wait_of g.super_wait }

/-! ## ARM registers (`arm-fbsd-nat.c`) -/

/-- Modelled from the spec: the register numbers of `arm-tdep.h` (absent from
the sources): the first integer register. -/
def ARM_A1_REGNUM : Int := 0
/-- Modelled from the spec: the stack pointer, `arm-tdep.h`. -/
def ARM_SP_REGNUM : Int := 13
/-- Modelled from the spec: the link register, `arm-tdep.h`. -/
def ARM_LR_REGNUM : Int := 14
/-- Modelled from the spec: the program counter, `arm-tdep.h`. -/
def ARM_PC_REGNUM : Int := 15
/-- Modelled from the spec: the program status register, `arm-tdep.h`. -/
def ARM_PS_REGNUM : Int := 25

/-- The kernel's register block `struct reg` of `machine/reg.h` (the type
`gregset_t`): the array `r[13]` and four more words of 32 bits. -/
structure gregset_t where
  r : List Nat
  r_sp : Nat
  r_lr : Nat
  r_pc : Nat
  r_cpsr : Nat
  deriving DecidableEq, Repr

/-- The function `ptrace_pid` (with `__FreeBSD__`). -/
def ptrace_pid (ptid : ptid_t) : Int :=
  let pid := ptid_get_lwp ptid
  if pid = 0 then ptid_get_pid ptid else pid

/-- The call `regcache_raw_supply (regcache, regnum, buf)` on a register cache
seen as the raw contents of each register. -/
def regcache_raw_supply (regcache : Int → Nat) (regnum : Int) (buf : Nat) : Int → Nat :=
  fun i => if i = regnum then buf else regcache i

/-- The first loop of `arm_supply_gregset`, from register `r` on, `count`
registers. -/
def supply_integer_registers (gregset : gregset_t) (regnum : Int) :
    Nat → Int → (Int → Nat) → (Int → Nat)
  | 0, _, regcache => regcache
  | count + 1, r, regcache =>
      if r = regnum ∨ regnum = -1 then
        supply_integer_registers gregset regnum count (r + 1)
          (regcache_raw_supply regcache r (gregset.r.getD r.toNat 0))
      else supply_integer_registers gregset regnum count (r + 1) regcache

/-- The function `arm_supply_gregset`.  The method `gdbarch_addr_bits_remove`
of the architecture (absent from the sources) and the variable `arm_apcs_32`
are arguments. -/
def arm_supply_gregset (arm_apcs_32 : Bool) (gdbarch_addr_bits_remove : Nat → Nat)
    (regcache : Int → Nat) (gregset : gregset_t) (regnum : Int) : Int → Nat :=
  /- Integer registers. -/
  let c1 := supply_integer_registers gregset regnum (ARM_SP_REGNUM - ARM_A1_REGNUM).toNat
    ARM_A1_REGNUM regcache
  let c2 := if regnum = ARM_SP_REGNUM ∨ regnum = -1 then
    regcache_raw_supply c1 ARM_SP_REGNUM gregset.r_sp else c1
  let c3 := if regnum = ARM_LR_REGNUM ∨ regnum = -1 then
    regcache_raw_supply c2 ARM_LR_REGNUM gregset.r_lr else c2
  let c4 := if regnum = ARM_PC_REGNUM ∨ regnum = -1 then
    regcache_raw_supply c3 ARM_PC_REGNUM (gdbarch_addr_bits_remove gregset.r_pc) else c3
  if regnum = ARM_PS_REGNUM ∨ regnum = -1 then
    if arm_apcs_32 then regcache_raw_supply c4 ARM_PS_REGNUM gregset.r_cpsr
    else regcache_raw_supply c4 ARM_PS_REGNUM gregset.r_pc
  else c4

/-- The first loop of `armbsd_collect_gregset`, from register `r` on, `count`
registers: `regcache_raw_collect` copies the raw contents of the register into
its slot. -/
def collect_integer_registers (regcache : Int → Nat) (regnum : Int) :
    Nat → Int → gregset_t → gregset_t
  | 0, _, gregset => gregset
  | count + 1, r, gregset =>
      if regnum = r ∨ regnum = -1 then
        collect_integer_registers regcache regnum count (r + 1)
          { gregset with r := gregset.r.set r.toNat (regcache r) }
      else collect_integer_registers regcache regnum count (r + 1) gregset

/-- The function `armbsd_collect_gregset`.  The method
`gdbarch_addr_bits_remove` of the architecture (absent from the sources) and
the variable `arm_apcs_32` are arguments; `psr_val` and `r_pc` are words of 32
bits. -/
def armbsd_collect_gregset (arm_apcs_32 : Bool) (gdbarch_addr_bits_remove : Nat → Nat)
    (regcache : Int → Nat) (gregset : gregset_t) (regnum : Int) : gregset_t :=
  let g1 := collect_integer_registers regcache regnum (ARM_SP_REGNUM - ARM_A1_REGNUM).toNat
    ARM_A1_REGNUM gregset
  let g2 := if regnum = ARM_SP_REGNUM ∨ regnum = -1 then
    { g1 with r_sp := regcache ARM_SP_REGNUM } else g1
  let g3 := if regnum = ARM_LR_REGNUM ∨ regnum = -1 then
    { g2 with r_lr := regcache ARM_LR_REGNUM } else g2
  let g4 := if regnum = ARM_PC_REGNUM ∨ regnum = -1 then
    { g3 with r_pc := regcache ARM_PC_REGNUM } else g3
  if regnum = ARM_PS_REGNUM ∨ regnum = -1 then
    if arm_apcs_32 then { g4 with r_cpsr := regcache ARM_PS_REGNUM }
    else
      let psr_val := regcache ARM_PS_REGNUM
      let psr_val := (psr_val ^^^ gdbarch_addr_bits_remove psr_val) % 2 ^ 32
      let r_pc := gdbarch_addr_bits_remove g4.r_pc % 2 ^ 32
      { g4 with r_pc := r_pc ||| psr_val }
  else g4

/-- The function `fill_gregset`. -/
def fill_gregset (arm_apcs_32 : Bool) (gdbarch_addr_bits_remove : Nat → Nat)
    (regcache : Int → Nat) (gregsetp : gregset_t) (regnum : Int) : gregset_t :=
  armbsd_collect_gregset arm_apcs_32 gdbarch_addr_bits_remove regcache gregsetp regnum

/-- The function `armfbsd_fetch_inferior_registers`: the register cache after
the call.  The kernel call `ptrace (PT_GETREGS, pid, &regs, 0)` is the argument
`ptrace_getregs`, `none` being its failing return. -/
def armfbsd_fetch_inferior_registers {σ : Type} (ptrace_getregs : σ → Int → Option gregset_t)
    (arm_apcs_32 : Bool) (gdbarch_addr_bits_remove : Nat → Nat)
    (regcache : Int → Nat) (regno : Int) : M σ (Int → Nat) := fun w =>
  let pid := ptrace_pid w.inferior_ptid
  match ptrace_getregs w.kern pid with
  | none =>
      (Outcome.error failed_call.ptrace,
        { w with calls := w.calls ++ [Call.ptrace ptrace_request.PT_GETREGS pid 0 0] })
  | some regs =>
      (Outcome.ok (arm_supply_gregset arm_apcs_32 gdbarch_addr_bits_remove regcache regs regno),
        { w with calls := w.calls ++ [Call.ptrace ptrace_request.PT_GETREGS pid 0 0] })

/-- The function `armfbsd_store_inferior_registers`.  The kernel calls
`ptrace (PT_GETREGS, pid, &regs, 0)` and `ptrace (PT_SETREGS, pid, &regs, 0)`
are the arguments `ptrace_getregs` and `ptrace_setregs`, `none` being the
failing return. -/
def armfbsd_store_inferior_registers {σ : Type}
    (ptrace_getregs : σ → Int → Option gregset_t)
    (ptrace_setregs : σ → Int → gregset_t → Option σ)
    (arm_apcs_32 : Bool) (gdbarch_addr_bits_remove : Nat → Nat)
    (regcache : Int → Nat) (regno : Int) : M σ Unit := fun w =>
  let pid := ptrace_pid w.inferior_ptid
  match ptrace_getregs w.kern pid with
  | none =>
      (Outcome.error failed_call.ptrace,
        { w with calls := w.calls ++ [Call.ptrace ptrace_request.PT_GETREGS pid 0 0] })
  | some regs =>
      let regs1 := fill_gregset arm_apcs_32 gdbarch_addr_bits_remove regcache regs regno
      match ptrace_setregs w.kern pid regs1 with
      | none =>
          (Outcome.error failed_call.ptrace,
            { w with calls := w.calls ++
                [Call.ptrace ptrace_request.PT_GETREGS pid 0 0,
                 Call.ptrace ptrace_request.PT_SETREGS pid 0 0] })
      | some k =>
          (Outcome.ok (),
            { w with
              kern := k,
              calls := w.calls ++
                [Call.ptrace ptrace_request.PT_GETREGS pid 0 0,
                 Call.ptrace ptrace_request.PT_SETREGS pid 0 0] })

/-! ## The Target Stack -/

/-- Modelled from the spec: the strata of a Target Node,
`enum{File,Process,Thread,Record,Arch}`; higher strata are consulted first. -/
inductive stratum where
  | File | Process | Thread | Record | Arch
  deriving DecidableEq, Repr

/-- Modelled from the spec: the priority of a stratum. -/
def stratum.rank : stratum → Nat
  | stratum.File => 0
  | stratum.Process => 1
  | stratum.Thread => 2
  | stratum.Record => 3
  | stratum.Arch => 4

/-- Modelled from the spec: a Target Node, `{stratum, beneath}`, with the name
that identifies it; `beneath` is the optional reference to the node directly
below it (`none`: the no-op base). -/
structure target_node where
  name : String
  stratum : stratum
  beneath : Option String
  deriving DecidableEq, Repr

/-- Modelled from the spec: the structural errors of the Target Stack. -/
inductive stack_error where
  | DuplicateStratumError | NotPushedError
  deriving DecidableEq, Repr

/-- Modelled from the spec: the relinking of neighbours, after which every
node references the node directly below it. -/
def relink : List target_node → List target_node
  | [] => []
  | [n] => [{ n with beneath := none }]
  | n :: m :: rest => { n with beneath := some m.name } :: relink (m :: rest)

/-- Modelled from the spec: the insertion of a node at its stratum, in a stack
ordered by stratum, highest first. -/
def insert_at_stratum (node : target_node) : List target_node → List target_node
  | [] => [node]
  | n :: rest =>
      if n.stratum.rank < node.stratum.rank then node :: n :: rest
      else n :: insert_at_stratum node rest

/-- Modelled from the spec: `push_target` of `target.c` (absent from the
sources; `target.h` has its declaration), the `push(node)` of the Target Stack:
it "inserts a node at its stratum, replacing nothing if the stratum slot is
empty, and fails with a `DuplicateStratumError` if already occupied". -/
def push_target (node : target_node) (stack : List target_node) :
    Except stack_error Unit × List target_node :=
  if stack.any (fun n => n.stratum = node.stratum) then
    (Except.error stack_error.DuplicateStratumError, stack)
  else (Except.ok (), relink (insert_at_stratum node stack))

/-- Modelled from the spec: `unpush_target` of `target.c` (absent from the
sources; `target.h` has its declaration), the `pop(node)` of the Target Stack:
it "removes it and relinks neighbors so `beneath` references stay valid; fails
with `NotPushedError` if absent". -/
def unpush_target (node : target_node) (stack : List target_node) :
    Except stack_error Unit × List target_node :=
  if stack.any (fun n => n.name = node.name) then
    (Except.ok (), relink (stack.filter (fun n => n.name ≠ node.name)))
  else (Except.error stack_error.NotPushedError, stack)

/-- Modelled from the spec: `find(stratum)` of the Target Stack, "the node at
that stratum or none". -/
def find_target_at (s : stratum) (stack : List target_node) : Option target_node :=
  stack.find? (fun n => n.stratum = s)

/-! ## A simulated kernel

A small concrete environment, used to run the engine on explicit inputs. -/

/-- One stop the simulated kernel reports: the responsible ptid, the raw wait
status and the trace information of the stopped thread. -/
structure raw_stop where
  wptid : ptid_t
  status : target_waitstatus
  pl : ptrace_lwpinfo
  deriving DecidableEq, Repr

/-- The state of the simulated kernel: the stops not yet reported to a wait,
in delivery order; the stops already reported, most recent first; the pids
whose process flags have `P_PPWAIT`; the LWP ids of the traced process. -/
structure sim_kernel where
  pending : List raw_stop
  reported : List raw_stop
  vforked : List Int
  lwps : List Int
  deriving DecidableEq, Repr

/-- The first element satisfying `p`, and the list without it. -/
def take_first {α : Type} (p : α → Bool) : List α → Option (α × List α)
  | [] => none
  | a :: l =>
      if p a then some (a, l)
      else match take_first p l with
        | some (b, l1) => some (b, a :: l1)
        | none => none

/-- The identifier `minus_one_ptid`, the filter that matches everything. -/
def minus_one_ptid : ptid_t := ptid_build (-1) 0 0

/-- The matching rule of the simulated environment: `minus_one_ptid` matches
everything, a process-only filter matches the identifiers of its process, any
other filter matches itself only. -/
def sim_ptid_match (ptid filter : ptid_t) : Bool :=
  if filter = minus_one_ptid then true
  else if filter.lwp = 0 ∧ filter.tid = 0 ∧ ptid.pid = filter.pid then true
  else ptid = filter

/-- The simulated environment: every stop is delivered to one wait, in order;
the state-changing `ptrace` requests fail for the ids listed in `failing`. -/
def sim_env_failing (failing : List Int) : target_env sim_kernel where
  ptrace_lwpinfo k id :=
    (k.reported.find? (fun r => r.wptid.pid == id || r.wptid.lwp == id)).map (fun r => r.pl)
  ptrace_getnumlwps k _ := some k.lwps.length
  ptrace_getlwplist k _ n := some (k.lwps.take n)
  ptrace_set k _ id _ _ := if id ∈ failing then none else some k
  waitpid k pid _ :=
    match take_first (fun r => r.wptid.pid == pid) k.pending with
    | some (r, rest) => some (pid, { k with pending := rest, reported := r :: k.reported })
    | none => none
  sysctl_kern_proc_pid k pid := some ⟨if pid ∈ k.vforked then P_PPWAIT else 0⟩
  sysctl_kern_proc_pathname _ _ := none
  readlink_proc_exe _ _ := none
  super_wait k filter _ :=
    match take_first (fun r => sim_ptid_match r.wptid filter) k.pending with
    | some (r, rest) =>
        some (r.wptid, r.status, { k with pending := rest, reported := r :: k.reported })
    | none => none
  super_resume k _ _ _ := some k
  ptid_match := sim_ptid_match

/-- The simulated environment in which no `ptrace` request fails. -/
def sim_env : target_env sim_kernel := sim_env_failing []

/-- A plain `STOPPED` status (signal 5). -/
def sim_stopped : target_waitstatus := ⟨target_waitkind.STOPPED, waitstatus_value.sig 5⟩

/-- The fork-stop of the new child, pid 20: `PL_FLAG_CHILD`. -/
def sim_child_stop : raw_stop := ⟨⟨20, 0, 0⟩, sim_stopped, ⟨200, PL_FLAG_CHILD, 0⟩⟩

/-- The fork-completion stop of the parent, pid 10: `PL_FLAG_FORKED`, naming
the child 20. -/
def sim_parent_stop : raw_stop := ⟨⟨10, 0, 0⟩, sim_stopped, ⟨100, PL_FLAG_FORKED, 20⟩⟩

/-- A world whose kernel has the given stops to report; the debugger knows the
single-threaded process 10, and the registry is empty. -/
def sim_world_of (stops : List raw_stop) : World sim_kernel where
  kern := ⟨stops, [], [], []⟩
  calls := []
  thread_list := [⟨⟨10, 0, 0⟩⟩]
  inferior_ptid := ⟨10, 0, 0⟩
  fbsd_pending_children := []

/-- The kernel delivers the child's stop before the parent's. -/
def sim_world_child_first : World sim_kernel :=
  sim_world_of [sim_child_stop, sim_parent_stop]

/-- The kernel delivers the parent's stop before the child's. -/
def sim_world_parent_first : World sim_kernel :=
  sim_world_of [sim_parent_stop, sim_child_stop]

/-- A simulated kernel with nothing to report. -/
def sim_idle : sim_kernel := ⟨[], [], [], []⟩

/-- A world with one process (pid 1) of two threads (LWPs 100 and 101) and a
single-threaded process (pid 2); the current thread is LWP 100 of pid 1. -/
def sim_world_threads : World sim_kernel where
  kern := sim_idle
  calls := []
  thread_list := [⟨⟨1, 100, 0⟩⟩, ⟨⟨1, 101, 0⟩⟩, ⟨⟨2, 0, 0⟩⟩]
  inferior_ptid := ⟨1, 100, 0⟩
  fbsd_pending_children := []

/-- A stop of LWP 101 of process 10 with `PL_FLAG_BORN`. -/
def sim_born_stop : raw_stop := ⟨⟨10, 100, 0⟩, sim_stopped, ⟨101, PL_FLAG_BORN, 0⟩⟩

/-- A world in which the debugger knows thread 100 of process 10 and the
kernel has the birth of LWP 101 to report. -/
def sim_world_born : World sim_kernel where
  kern := ⟨[sim_born_stop], [], [], [100, 101]⟩
  calls := []
  thread_list := [⟨⟨10, 100, 0⟩⟩]
  inferior_ptid := ⟨10, 100, 0⟩
  fbsd_pending_children := []

/-- The simulated environment, with the trace information of the individual
LWPs: a lookup by process id answers with the stop last reported for the
process, a lookup by LWP id with the entry of `infos` for that LWP. -/
def sim_env_lwp (infos : List ptrace_lwpinfo) : target_env sim_kernel :=
  { sim_env with
    ptrace_lwpinfo := fun k id =>
      match sim_env.ptrace_lwpinfo k id with
      | some pl => some pl
      | none => infos.find? (fun pl => pl.pl_lwpid == id) }

/-- The simulated environment in which the executable path of every process
is `path`. -/
def sim_env_exec (path : String) : target_env sim_kernel :=
  { sim_env with sysctl_kern_proc_pathname := fun _ _ => some path }

/-- A stop of process 10 with `PL_FLAG_EXEC`. -/
def sim_exec_stop : raw_stop := ⟨⟨10, 0, 0⟩, sim_stopped, ⟨100, PL_FLAG_EXEC, 0⟩⟩

/-- A stop of process 10 with no event flag. -/
def sim_plain_stop : raw_stop := ⟨⟨10, 0, 0⟩, sim_stopped, ⟨100, 0, 0⟩⟩

/-- A stop of LWP 101 of process 10 with `PL_FLAG_EXITED`. -/
def sim_exited_stop : raw_stop := ⟨⟨10, 100, 0⟩, sim_stopped, ⟨101, PL_FLAG_EXITED, 0⟩⟩

/-- A world in which the debugger knows threads 100 and 101 of process 10 and
the kernel has the exit of LWP 101 to report. -/
def sim_world_exited : World sim_kernel where
  kern := ⟨[sim_exited_stop], [], [], [100]⟩
  calls := []
  thread_list := [⟨⟨10, 101, 0⟩⟩, ⟨⟨10, 100, 0⟩⟩]
  inferior_ptid := ⟨10, 100, 0⟩
  fbsd_pending_children := []

/-- The worlds of a vfork: as `sim_world_of`, the child 20 having `P_PPWAIT`. -/
def sim_world_vfork (stops : List raw_stop) : World sim_kernel :=
  { sim_world_of stops with kern := ⟨stops, [], [20], []⟩ }

/-- A single-threaded process 10, attached, with one LWP and nothing to
report. -/
def sim_world_single : World sim_kernel where
  kern := ⟨[], [], [], [100]⟩
  calls := []
  thread_list := [⟨⟨10, 0, 0⟩⟩]
  inferior_ptid := ⟨10, 0, 0⟩
  fbsd_pending_children := []

/-- The thread-created stop of an LWP of process 10, reported with the
process-only ptid. -/
def sim_born_stop_of (lwp : Int) : raw_stop :=
  ⟨⟨10, 0, 0⟩, sim_stopped, ⟨lwp, PL_FLAG_BORN, 0⟩⟩

/-- The trace information of the LWPs of process 10: the main thread 100 and
the newborn threads 101 and 102. -/
def sim_infos_born : List ptrace_lwpinfo :=
  [⟨100, 0, 0⟩, ⟨101, PL_FLAG_BORN, 0⟩, ⟨102, PL_FLAG_BORN, 0⟩]

/-- A world in which the debugger knows process 10 by its process-only ptid;
the kernel lists the LWPs 100, 101 and 102 and has the births of 101 and of 102
to report. -/
def sim_world_first_born : World sim_kernel where
  kern := ⟨[sim_born_stop_of 101, sim_born_stop_of 102], [], [], [100, 101, 102]⟩
  calls := []
  thread_list := [⟨⟨10, 0, 0⟩⟩]
  inferior_ptid := ⟨10, 0, 0⟩
  fbsd_pending_children := []

/-! ## Auxiliary definitions of the statements -/

/-- The shape shared by the two per-thread callbacks of `fbsd_resume`: one
request for the LWP of each selected thread, and an error when it fails. -/
def request_cb {σ : Type} (env : target_env σ) (request : ptrace_request)
    (sel : thread_info → Bool) (tp : thread_info) : M σ Int :=
  if sel tp then do
    let r ← ptrace env request (ptid_get_lwp tp.ptid) 0 0
    if r = -1 then perror_with_name failed_call.ptrace else pure 0
  else pure 0

/-- The log entry of the per-thread request for a thread. -/
def request_of (request : ptrace_request) (tp : thread_info) : Call :=
  Call.ptrace request tp.ptid.lwp 0 0

/-- The status `fbsd_wait` reports for a fork: `VFORKED` when the child's
process flags have `P_PPWAIT`, else `FORKED`, with the child as related pid. -/
def fork_status (kp : kinfo_proc) (child : Int) : target_waitstatus :=
  { kind := if flag_set kp.ki_flag P_PPWAIT then target_waitkind.VFORKED
      else target_waitkind.FORKED,
    value := waitstatus_value.related_pid (pid_to_ptid child) }

/-- The thread-table update of the thread-created and thread-exited branches
of `fbsd_wait`, for the stop of process `pid` with trace information `pl`. -/
def thread_event_update {σ : Type} (env : target_env σ) (pid : Int)
    (pl : ptrace_lwpinfo) : M σ Unit :=
  if flag_set pl.pl_flags PL_FLAG_BORN then do
    let w ← get_world
    if ptid_lwp_p w.inferior_ptid then do
      let b ← in_thread_list (ptid_build pid pl.pl_lwpid 0)
      gdb_assert (!b)
      add_thread (ptid_build pid pl.pl_lwpid 0)
    else fbsd_switch_to_threaded env pid
  else do
    let b ← in_thread_list (ptid_build pid pl.pl_lwpid 0)
    gdb_assert b
    delete_thread (ptid_build pid pl.pl_lwpid 0)

/-- A computation that never calls the wait primitive and never runs into the
iteration bound. -/
def quiet {σ α : Type} (m : M σ α) : Prop :=
  ∀ w : World σ, (m w).1 ≠ Outcome.out_of_fuel ∧
    ∃ made : List Call, (m w).2.calls = w.calls ++ made ∧
      ∀ p o, Call.super_wait p o ∉ made

/-- The answer of `fbsd_thread_alive` as a function of the kernel state: a
process-only identifier is alive; an LWP is alive when its trace information
can be read and has no `PL_FLAG_EXITED`. -/
def alive_test {σ : Type} (env : target_env σ) (k : σ) (ptid : ptid_t) : Bool :=
  if ptid_lwp_p ptid then
    match env.ptrace_lwpinfo k ptid.lwp with
    | none => false
    | some pl => !flag_set pl.pl_flags PL_FLAG_EXITED
  else true

/-- The table after entering, one by one and at the head, the identifiers of
the list that have no entry yet. -/
def add_missing : List ptid_t → List thread_info → List thread_info
  | [], t => t
  | p :: rest, t =>
      if t.any (fun tp => tp.ptid = p) then add_missing rest t
      else add_missing rest (⟨p⟩ :: t)

/-- The trace information of each LWP of a list, when every lookup
succeeds. -/
def lwpinfos {σ : Type} (env : target_env σ) (k : σ) :
    List Int → Option (List ptrace_lwpinfo)
  | [] => some []
  | lwp :: rest =>
      match env.ptrace_lwpinfo k lwp with
      | none => none
      | some pl =>
          match lwpinfos env k rest with
          | none => none
          | some pls => some (pl :: pls)

/-- The LWP at which the candidate loop of `fbsd_switch_to_threaded` stops:
the first one that its test does not skip. -/
def first_candidate : List (Int × ptrace_lwpinfo) → Option Int
  | [] => none
  | (lwp, pl) :: rest =>
      if and_of_ne pl.pl_flags (PL_FLAG_BORN ||| PL_FLAG_EXITED) != 0 then first_candidate rest
      else some lwp

/-- The identifiers that the last loop of `fbsd_switch_to_threaded` does not
skip. -/
def switch_kept (pid : Int) : List (Int × ptrace_lwpinfo) → List ptid_t
  | [] => []
  | (lwp, pl) :: rest =>
      if and_of_ne pl.pl_flags PL_FLAG_EXITED != 0 then switch_kept pid rest
      else ptid_build pid lwp 0 :: switch_kept pid rest

/-! ## Auxiliary definitions: failures, the registry, fixtures -/

/-- The kernel state after the per-thread requests for the selected threads of
a list, in order, when every one of them succeeds. -/
def requests_ok {σ : Type} (env : target_env σ) (request : ptrace_request)
    (sel : thread_info → Bool) : List thread_info → σ → Option σ
  | [], k => some k
  | tp :: next, k =>
      if sel tp then
        match env.ptrace_set k request tp.ptid.lwp 0 0 with
        | some k1 => requests_ok env request sel next k1
        | none => none
      else requests_ok env request sel next k

/-- The enumeration of `fbsd_switch_to_threaded` as a function of the kernel
state: the LWP ids and their trace information, or `none` when one of the
kernel calls (count, list, one of the lookups) fails. -/
def enumerate_lwps {σ : Type} (env : target_env σ) (k : σ) (pid : Int) :
    Option (List Int × List ptrace_lwpinfo) :=
  match env.ptrace_getnumlwps k pid with
  | none => none
  | some n =>
      match env.ptrace_getlwplist k pid n with
      | none => none
      | some lwps =>
          match lwpinfos env k lwps with
          | none => none
          | some pls => some (lwps, pls)

/-- One call on the Pending-Fork Registry. -/
inductive registry_op where
  | remember (pid : Int)
  | is_pending (pid : Int)
  deriving DecidableEq, Repr

/-- The answers of `fbsd_is_child_pending` along a sequence of calls of
`fbsd_remember_child` and `fbsd_is_child_pending`. -/
def registry_answers {σ : Type} : List registry_op → World σ → List Int
  | [], _ => []
  | registry_op.remember pid :: rest, w =>
      registry_answers rest (fbsd_remember_child pid w).2
  | registry_op.is_pending pid :: rest, w =>
      match (fbsd_is_child_pending pid w).1 with
      | Outcome.ok r => r :: registry_answers rest (fbsd_is_child_pending pid w).2
      | _ => registry_answers rest (fbsd_is_child_pending pid w).2

/-- The registry in the words of the spec, "a small owned mapping (process id
→ boolean)": the empty mapping. -/
def spec_mapping_empty : Int → Bool := fun _ => false

/-- The registry in the words of the spec: the ordinary insert of a mapping. -/
def spec_mapping_insert (pid : Int) (m : Int → Bool) : Int → Bool :=
  fun q => if q = pid then true else m q

/-- The registry in the words of the spec: the ordinary test-and-remove of a
mapping. -/
def spec_mapping_test_and_remove (pid : Int) (m : Int → Bool) : Bool × (Int → Bool) :=
  (m pid, fun q => if q = pid then false else m q)

/-- The answers of the mapping of the spec along a sequence of calls. -/
def spec_mapping_answers : List registry_op → (Int → Bool) → List Int
  | [], _ => []
  | registry_op.remember pid :: rest, m =>
      spec_mapping_answers rest (spec_mapping_insert pid m)
  | registry_op.is_pending pid :: rest, m =>
      (if (spec_mapping_test_and_remove pid m).1 then 1 else 0)
        :: spec_mapping_answers rest (spec_mapping_test_and_remove pid m).2

/-- No call of the sequence remembers a pid that is in the registry at that
moment: every pid is consumed before it is remembered again. -/
def remembers_fresh : List registry_op → List Int → Bool
  | [], _ => true
  | registry_op.remember pid :: rest, l =>
      !l.contains pid && remembers_fresh rest (pid :: l)
  | registry_op.is_pending pid :: rest, l =>
      match unlink_child pid l with
      | some l1 => remembers_fresh rest l1
      | none => remembers_fresh rest l

/-- A world in which the debugger knows process 10 by its process-only ptid
and the kernel lists the LWPs 100, 101 and 102, with nothing to report. -/
def sim_world_attached : World sim_kernel where
  kern := ⟨[], [], [], [100, 101, 102]⟩
  calls := []
  thread_list := [⟨⟨10, 0, 0⟩⟩]
  inferior_ptid := ⟨10, 0, 0⟩
  fbsd_pending_children := []

/-- The VM map of the simulated process: a readable and executable text
segment, a segment flagged no-core-dump, an unreadable guard, a device mapping
and a writable swap-backed segment. -/
def sim_vmmap : List kinfo_vmentry :=
  [⟨0x10000, 0x20000, 5, 0, 2⟩, ⟨0x20000, 0x30000, 3, 4, 1⟩,
   ⟨0x30000, 0x31000, 0, 0, 1⟩,
   ⟨0x40000, 0x50000, 3, 0, 4⟩, ⟨0x50000, 0x58000, 3, 0, 3⟩]

/-- A callback that records the regions it is called with. -/
def record_region (region : memory_region) (obfd : List memory_region) :
    Int × List memory_region :=
  (0, obfd ++ [region])

/-- The request `fbsd_resume` issues per thread: `PT_SUSPEND` for a specific
ptid, `PT_RESUME` for a wildcard. -/
def resume_request (ptid : ptid_t) : ptrace_request :=
  if ptid_lwp_p ptid then ptrace_request.PT_SUSPEND else ptrace_request.PT_RESUME

/-- The threads for which `fbsd_resume` issues its per-thread request: those
of the process of a specific ptid; the LWP-qualified ones that match a
wildcard. -/
def resume_selected {σ : Type} (env : target_env σ) (ptid : ptid_t) : thread_info → Bool :=
  if ptid_lwp_p ptid then (fun tp : thread_info => tp.ptid.pid == ptid.pid)
  else (fun tp : thread_info => env.ptid_match tp.ptid ptid && ptid_lwp_p tp.ptid)

/-- The test of `fbsd_find_memory_regions` on a VM map entry: readable, not
flagged no-core-dump, and of type default, vnode, swap or physical. -/
def region_saved (kve : kinfo_vmentry) : Bool :=
  flag_set kve.kve_protection KVME_PROT_READ
    && !flag_set kve.kve_flags KVME_FLAG_NOCOREDUMP
    && (kve.kve_type == KVME_TYPE_DEFAULT || kve.kve_type == KVME_TYPE_VNODE
      || kve.kve_type == KVME_TYPE_SWAP || kve.kve_type == KVME_TYPE_PHYS)

/-- The arguments with which the callback is called for a VM map entry. -/
def region_of (kve : kinfo_vmentry) : memory_region :=
  { start := kve.kve_start, size := uint64_sub kve.kve_end kve.kve_start,
    read := kve.kve_protection &&& KVME_PROT_READ,
    write := kve.kve_protection &&& KVME_PROT_WRITE,
    exec := kve.kve_protection &&& KVME_PROT_EXEC,
    modified := 1 }

/-- The call `kinfo_getvmmap` of the simulated kernel: the map `sim_vmmap`. -/
def sim_getvmmap (_k : sim_kernel) (_pid : Int) : Option (List kinfo_vmentry) :=
  some sim_vmmap

/-- The method `gdbarch_addr_bits_remove` of ARM in 26-bit mode: the address
bits of the program counter word. -/
def addr_bits_26 (val : Nat) : Nat := val &&& 0x03fffffc

/-- A simulated kernel for the register requests: the state is the register
block of the traced thread. -/
def sim_getregs (k : gregset_t) (_pid : Int) : Option gregset_t := some k

/-- The request `PT_SETREGS` of the simulated kernel: the block is stored. -/
def sim_setregs (_k : gregset_t) (_pid : Int) (regs : gregset_t) : Option gregset_t :=
  some regs

/-- A register block in 26-bit mode: the word of the program counter holds
the address `0x8000`, the flag N and the mode bits 3. -/
def sim_regs_26 : gregset_t :=
  ⟨[0, 1, 2, 3, 4, 5, 6, 7, 8, 9, 10, 11, 12], 0x7000, 0x8100, 0x80008003, 0⟩

/-- A world of the simulated register kernel: thread 100 of process 10. -/
def sim_world_regs (regs : gregset_t) : World gregset_t where
  kern := regs
  calls := []
  thread_list := [⟨⟨10, 100, 0⟩⟩]
  inferior_ptid := ⟨10, 100, 0⟩
  fbsd_pending_children := []

/-- A target as `inf_ptrace_target` hands it over: every member holds the
function of the layer beneath of that name. -/
def sim_beneath_target : target_ops := fun member => target_method.other member

/-- The simulated behaviour of the resume functions: the one of the layer
beneath leaves the state as it is; no other returns. -/
def sim_resume_of (f : target_method) (k : sim_kernel) (_ptid : ptid_t)
    (_step _signo : Int) : Option sim_kernel :=
  if f = target_method.other "to_resume" then some k else none

/-- The simulated behaviour of the wait functions: the one of the layer
beneath is the wait of `sim_env`; no other returns. -/
def sim_wait_of (f : target_method) (k : sim_kernel) (ptid : ptid_t) (options : Int) :
    Option (ptid_t × target_waitstatus × sim_kernel) :=
  if f = target_method.other "to_wait" then sim_env.super_wait k ptid options else none

/-- A stack with a file node below a process node. -/
def sim_stack : List target_node :=
  [⟨"native", stratum.Process, some "exec"⟩, ⟨"exec", stratum.File, none⟩]

/-! ## Basic facts about the computations -/

theorem pure_run {σ α : Type} (a : α) (w : World σ) :
    (pure a : M σ α) w = (Outcome.ok a, w) := rfl

theorem bind_run {σ α β : Type} (m : M σ α) (f : α → M σ β) (w : World σ) :
    (m >>= f) w = M.bind m f w := rfl

theorem bind_ok {σ α β : Type} (m : M σ α) (f : α → M σ β) (w w1 : World σ) (a : α)
    (h : m w = (Outcome.ok a, w1)) : (m >>= f) w = f a w1 := by
  simp [bind_run, M.bind, h]

theorem resume_one_thread_cb_eq {σ : Type} (env : target_env σ) (ptid : ptid_t) :
    (fun tp => resume_one_thread_cb env tp ptid)
      = request_cb env ptrace_request.PT_SUSPEND (fun tp => tp.ptid.pid == ptid.pid) := by
  funext tp
  by_cases h : tp.ptid.pid = ptid.pid <;>
    simp [resume_one_thread_cb, request_cb, ptid_get_pid, h]

theorem resume_all_threads_cb_eq {σ : Type} (env : target_env σ) (filter : ptid_t) :
    (fun tp => resume_all_threads_cb env tp filter)
      = request_cb env ptrace_request.PT_RESUME
          (fun tp => env.ptid_match tp.ptid filter && ptid_lwp_p tp.ptid) := by
  funext tp
  cases h1 : env.ptid_match tp.ptid filter <;> cases h2 : ptid_lwp_p tp.ptid <;>
    simp [resume_all_threads_cb, request_cb, h1, h2]

theorem request_cb_skip {σ : Type} (env : target_env σ) (request : ptrace_request)
    (sel : thread_info → Bool) (tp : thread_info) (w : World σ) (h : sel tp = false) :
    request_cb env request sel tp w = (Outcome.ok 0, w) := by
  simp [request_cb, h, pure_run]

theorem request_cb_ok {σ : Type} (env : target_env σ) (request : ptrace_request)
    (sel : thread_info → Bool) (tp : thread_info) (w : World σ) (k : σ)
    (h : sel tp = true) (hk : env.ptrace_set w.kern request tp.ptid.lwp 0 0 = some k) :
    request_cb env request sel tp w
      = (Outcome.ok 0, { w with kern := k, calls := w.calls ++ [request_of request tp] }) := by
  simp [request_cb, h, bind_run, M.bind, ptrace, ptid_get_lwp, hk, pure_run, request_of]

theorem request_cb_fail {σ : Type} (env : target_env σ) (request : ptrace_request)
    (sel : thread_info → Bool) (tp : thread_info) (w : World σ)
    (h : sel tp = true) (hk : env.ptrace_set w.kern request tp.ptid.lwp 0 0 = none) :
    request_cb env request sel tp w
      = (Outcome.error failed_call.ptrace,
          { w with calls := w.calls ++ [request_of request tp] }) := by
  simp [request_cb, h, bind_run, M.bind, ptrace, ptid_get_lwp, hk, perror_with_name,
    request_of]

/-- What a walk over the thread table with a per-thread request callback does:
the requests issued are those of an initial segment of the selected threads, in
table order; the walk ends normally exactly when the segment is the whole list,
and otherwise with the error of the last request issued.  The debugger's
globals are not written. -/
theorem iterate_request_cb {σ : Type} (env : target_env σ) (request : ptrace_request)
    (sel : thread_info → Bool) (l : List thread_info) (w : World σ) :
    ∃ issued rest, l.filter sel = issued ++ rest ∧
      (iterate_threads_from (request_cb env request sel) l w).2.calls
        = w.calls ++ issued.map (request_of request) ∧
      (iterate_threads_from (request_cb env request sel) l w).2.thread_list = w.thread_list ∧
      (iterate_threads_from (request_cb env request sel) l w).2.inferior_ptid
        = w.inferior_ptid ∧
      (iterate_threads_from (request_cb env request sel) l w).2.fbsd_pending_children
        = w.fbsd_pending_children ∧
      (((iterate_threads_from (request_cb env request sel) l w).1 = Outcome.ok none
          ∧ rest = [])
        ∨ ((iterate_threads_from (request_cb env request sel) l w).1
            = Outcome.error failed_call.ptrace ∧ issued ≠ [])) ∧
      ((∀ s id, env.ptrace_set s request id 0 0 ≠ none) →
        (iterate_threads_from (request_cb env request sel) l w).1 = Outcome.ok none) := by
  induction l generalizing w with
  | nil =>
      refine ⟨[], [], ?_⟩
      simp [iterate_threads_from, pure_run]
  | cons tp next ih =>
      cases hs : sel tp with
      | false =>
          have hstep : iterate_threads_from (request_cb env request sel) (tp :: next) w
              = iterate_threads_from (request_cb env request sel) next w := by
            simp [iterate_threads_from, bind_ok _ _ w w 0 (request_cb_skip env request sel tp w hs)]
          obtain ⟨issued, rest, h1, h2⟩ := ih w
          refine ⟨issued, rest, ?_, ?_⟩
          · simp [List.filter, hs, h1]
          · rw [hstep]; exact h2
      | true =>
          cases hk : env.ptrace_set w.kern request tp.ptid.lwp 0 0 with
          | none =>
              have hstep : iterate_threads_from (request_cb env request sel) (tp :: next) w
                  = (Outcome.error failed_call.ptrace,
                      { w with calls := w.calls ++ [request_of request tp] }) := by
                simp [iterate_threads_from, bind_run, M.bind,
                  request_cb_fail env request sel tp w hs hk]
              refine ⟨[tp], next.filter sel, ?_, ?_⟩
              · simp [List.filter, hs]
              · rw [hstep]
                refine ⟨by simp, rfl, rfl, rfl, Or.inr ⟨rfl, by simp⟩, ?_⟩
                intro hall
                exact absurd hk (hall _ _)
          | some k =>
              have hstep : iterate_threads_from (request_cb env request sel) (tp :: next) w
                  = iterate_threads_from (request_cb env request sel) next
                      { w with kern := k, calls := w.calls ++ [request_of request tp] } := by
                simp [iterate_threads_from,
                  bind_ok _ _ w _ 0 (request_cb_ok env request sel tp w k hs hk)]
              obtain ⟨issued, rest, h1, h2, h3, h4, h5, h6, h7⟩ :=
                ih { w with kern := k, calls := w.calls ++ [request_of request tp] }
              refine ⟨tp :: issued, rest, ?_, ?_⟩
              · simp [List.filter, hs, h1]
              · rw [hstep]
                refine ⟨by simp [h2], h3, h4, h5, ?_, h7⟩
                rcases h6 with h6 | h6
                · exact Or.inl h6
                · exact Or.inr ⟨h6.1, by simp⟩

/-- The run of `fbsd_resume` in terms of the walk over the thread table: the
walk, then `super_resume` if the walk ended normally. -/
theorem fbsd_resume_run {σ : Type} (env : target_env σ) (ptid : ptid_t) (step signo : Int)
    (w : World σ) :
    ∃ request sel issued tail,
      (request = (if ptid_lwp_p ptid then ptrace_request.PT_SUSPEND
        else ptrace_request.PT_RESUME)) ∧
      (sel = (if ptid_lwp_p ptid then (fun tp : thread_info => tp.ptid.pid == ptid.pid)
        else (fun tp : thread_info => env.ptid_match tp.ptid ptid && ptid_lwp_p tp.ptid))) ∧
      (fbsd_resume env ptid step signo w).2.calls
        = w.calls ++ issued.map (request_of request) ++ tail ∧
      (∃ rest, w.thread_list.filter sel = issued ++ rest ∧
        (tail = [Call.super_resume (if ptid_lwp_p ptid then ptid else w.inferior_ptid)
            step signo] → rest = [])) ∧
      ((tail = [] ∧ (fbsd_resume env ptid step signo w).1 = Outcome.error failed_call.ptrace)
        ∨ tail = [Call.super_resume (if ptid_lwp_p ptid then ptid else w.inferior_ptid)
            step signo]) ∧
      ((∀ s id, env.ptrace_set s request id 0 0 ≠ none) →
        tail = [Call.super_resume (if ptid_lwp_p ptid then ptid else w.inferior_ptid)
            step signo]) := by
  cases hp : ptid_lwp_p ptid with
  | true =>
      obtain ⟨issued, rest, h1, h2, h3, h4, h5, h6, h7⟩ :=
        iterate_request_cb env ptrace_request.PT_SUSPEND
          (fun tp => tp.ptid.pid == ptid.pid) w.thread_list w
      rw [← resume_one_thread_cb_eq] at h2 h3 h4 h5 h6 h7
      cases hr : iterate_threads_from (fun tp => resume_one_thread_cb env tp ptid)
          w.thread_list w with
      | mk o w1 =>
        rw [hr] at h2 h3 h4 h5 h6 h7
        simp only at h2 h3 h4 h5 h6 h7
        rcases h6 with ⟨ho, hrest⟩ | ⟨ho, _⟩
        · refine ⟨_, _, issued, [Call.super_resume ptid step signo], rfl, rfl, ?_,
            ⟨rest, h1, ?_⟩, ?_, ?_⟩
          · subst ho
            simp only [fbsd_resume, hp, bind_run, M.bind, iterate_over_threads, hr, if_true,
              pure_run, super_resume]
            cases env.super_resume w1.kern ptid step signo <;> simp [h2]
          · intro _; exact hrest
          · right; simp
          · intro _; simp
        · refine ⟨_, _, issued, [], rfl, rfl, ?_, ⟨rest, h1, ?_⟩, ?_, ?_⟩
          · subst ho
            simp [fbsd_resume, hp, bind_run, M.bind, iterate_over_threads, hr, h2]
          · intro hc; simp at hc
          · left
            subst ho
            simp [fbsd_resume, hp, bind_run, M.bind, iterate_over_threads, hr]
          · intro hall
            have := h7 hall
            rw [ho] at this
            cases this
  | false =>
      obtain ⟨issued, rest, h1, h2, h3, h4, h5, h6, h7⟩ :=
        iterate_request_cb env ptrace_request.PT_RESUME
          (fun tp => env.ptid_match tp.ptid ptid && ptid_lwp_p tp.ptid) w.thread_list w
      rw [← resume_all_threads_cb_eq] at h2 h3 h4 h5 h6 h7
      cases hr : iterate_threads_from (fun tp => resume_all_threads_cb env tp ptid)
          w.thread_list w with
      | mk o w1 =>
        rw [hr] at h2 h3 h4 h5 h6 h7
        simp only at h2 h3 h4 h5 h6 h7
        rcases h6 with ⟨ho, hrest⟩ | ⟨ho, _⟩
        · refine ⟨_, _, issued, [Call.super_resume w.inferior_ptid step signo], rfl, rfl, ?_,
            ⟨rest, h1, ?_⟩, ?_, ?_⟩
          · subst ho
            simp only [fbsd_resume, hp, bind_run, M.bind, iterate_over_threads, hr,
              Bool.false_eq_true, if_false, pure_run, super_resume, get_world, h4]
            cases env.super_resume w1.kern w.inferior_ptid step signo <;> simp [h2]
          · intro _; exact hrest
          · right; simp
          · intro _; simp
        · refine ⟨_, _, issued, [], rfl, rfl, ?_, ⟨rest, h1, ?_⟩, ?_, ?_⟩
          · subst ho
            simp [fbsd_resume, hp, bind_run, M.bind, iterate_over_threads, hr, h2]
          · intro hc; simp at hc
          · left
            subst ho
            simp [fbsd_resume, hp, bind_run, M.bind, iterate_over_threads, hr]
          · intro hall
            have := h7 hall
            rw [ho] at this
            cases this

/-! ## Wait: fork reconciliation -/

theorem unlink_child_head (pid : Int) (l : List Int) :
    unlink_child pid (pid :: l) = some l := by
  simp [unlink_child]

theorem unlink_child_not_mem (pid : Int) (l : List Int) (h : pid ∉ l) :
    unlink_child pid l = none := by
  induction l with
  | nil => rfl
  | cons c next ih =>
      have hc : c ≠ pid := fun e => h (by simp [e])
      have hn : pid ∉ next := fun e => h (by simp [e])
      simp [unlink_child, hc, ih hn]

/-- The run of `fbsd_wait` when the child's stop is delivered first and the
parent's fork-completion stop second. -/
theorem fbsd_wait_child_first_run {σ : Type} (env : target_env σ) (w : World σ)
    (ptid : ptid_t) (opts : Int) (cptid pptid : ptid_t) (st1 st2 : target_waitstatus)
    (k1 k2 : σ) (pl1 pl2 : ptrace_lwpinfo) (kp : kinfo_proc)
    (hw1 : env.super_wait w.kern ptid opts = some (cptid, st1, k1))
    (hst1 : st1.kind = target_waitkind.STOPPED)
    (hpl1 : env.ptrace_lwpinfo k1 cptid.pid = some pl1)
    (hnf : flag_set pl1.pl_flags PL_FLAG_FORKED = false)
    (hch : flag_set pl1.pl_flags PL_FLAG_CHILD = true)
    (hw2 : env.super_wait k1 ptid opts = some (pptid, st2, k2))
    (hst2 : st2.kind = target_waitkind.STOPPED)
    (hpl2 : env.ptrace_lwpinfo k2 pptid.pid = some pl2)
    (hf : flag_set pl2.pl_flags PL_FLAG_FORKED = true)
    (hchild : pl2.pl_child_pid = cptid.pid)
    (hkp : env.sysctl_kern_proc_pid k2 cptid.pid = some kp) (fuel : Nat) :
    fbsd_wait env (fuel + 2) ptid opts w
      = (Outcome.ok (pptid, fork_status kp cptid.pid),
          { w with
            kern := k2,
            calls := w.calls ++
              [Call.super_wait ptid opts,
               Call.ptrace ptrace_request.PT_LWPINFO cptid.pid 0 0,
               Call.super_wait ptid opts,
               Call.ptrace ptrace_request.PT_LWPINFO pptid.pid 0 0,
               Call.sysctl_kern_proc_pid cptid.pid] }) := by
  cases hv : flag_set kp.ki_flag P_PPWAIT <;>
    simp [fbsd_wait, bind_run, M.bind, super_wait, hw1, hst1, ptrace_lwpinfo_call, hpl1,
      ptid_get_pid, hnf, hch, fbsd_remember_child, hw2, hst2, hpl2, hf, hchild,
      fbsd_is_child_pending, unlink_child_head, fbsd_fetch_kinfo_proc, hkp, pure_run,
      fork_status, hv]

/-- The run of `fbsd_wait` when the parent's fork-completion stop is delivered
first and the nested wait then reports the child, stopped with the child
flag. -/
theorem fbsd_wait_parent_first_run {σ : Type} (env : target_env σ) (w : World σ)
    (ptid : ptid_t) (opts : Int) (pptid : ptid_t) (st : target_waitstatus)
    (k1 k2 : σ) (pl plc : ptrace_lwpinfo) (kp : kinfo_proc)
    (hw1 : env.super_wait w.kern ptid opts = some (pptid, st, k1))
    (hst : st.kind = target_waitkind.STOPPED)
    (hpl : env.ptrace_lwpinfo k1 pptid.pid = some pl)
    (hf : flag_set pl.pl_flags PL_FLAG_FORKED = true)
    (hnot : pl.pl_child_pid ∉ w.fbsd_pending_children)
    (hne : pl.pl_child_pid ≠ -1)
    (hwp : env.waitpid k1 pl.pl_child_pid 0 = some (pl.pl_child_pid, k2))
    (hplc : env.ptrace_lwpinfo k2 pl.pl_child_pid = some plc)
    (hch : flag_set plc.pl_flags PL_FLAG_CHILD = true)
    (hkp : env.sysctl_kern_proc_pid k2 pl.pl_child_pid = some kp) (fuel : Nat) :
    fbsd_wait env (fuel + 1) ptid opts w
      = (Outcome.ok (pptid, fork_status kp pl.pl_child_pid),
          { w with
            kern := k2,
            calls := w.calls ++
              [Call.super_wait ptid opts,
               Call.ptrace ptrace_request.PT_LWPINFO pptid.pid 0 0,
               Call.waitpid pl.pl_child_pid 0,
               Call.ptrace ptrace_request.PT_LWPINFO pl.pl_child_pid 0 0,
               Call.sysctl_kern_proc_pid pl.pl_child_pid] }) := by
  cases hv : flag_set kp.ki_flag P_PPWAIT <;>
    simp [fbsd_wait, bind_run, M.bind, super_wait, hw1, hst, ptrace_lwpinfo_call, hpl,
      ptid_get_pid, hf, fbsd_is_child_pending, unlink_child_not_mem _ _ hnot, waitpid, hwp,
      hne, gdb_assert, hplc, hch, fbsd_fetch_kinfo_proc, hkp, pure_run, fork_status, hv]


/-! ## Resume: the claims -/

/-- C5: for every thread table and every specific (LWP-qualified) target
ptid, the calls `fbsd_resume` makes are `PT_SUSPEND` requests for threads of the
table that have the target's process id (none for a thread of another
process), followed by the call of `super_resume`.  When `super_resume` is
invoked, every thread with the target's process id and a different LWP id has
had its suspend request issued before it; and it is invoked whenever no suspend
request fails (otherwise the operation stops at the failing request). -/
theorem fbsd_resume_suspends_other_threads {σ : Type} (env : target_env σ) (w : World σ)
    (ptid : ptid_t) (step signo : Int) (hspec : ptid_lwp_p ptid = true) :
    ∃ (issued : List thread_info) (tail : List Call),
      (fbsd_resume env ptid step signo w).2.calls
        = w.calls ++ issued.map (request_of ptrace_request.PT_SUSPEND) ++ tail ∧
      (∀ tp ∈ issued, tp ∈ w.thread_list ∧ tp.ptid.pid = ptid.pid) ∧
      ((tail = [] ∧ (fbsd_resume env ptid step signo w).1 = Outcome.error failed_call.ptrace)
        ∨ tail = [Call.super_resume ptid step signo]) ∧
      (tail = [Call.super_resume ptid step signo] →
        ∀ tp ∈ w.thread_list, tp.ptid.pid = ptid.pid → tp.ptid.lwp ≠ ptid.lwp →
          tp ∈ issued) ∧
      ((∀ s id, env.ptrace_set s ptrace_request.PT_SUSPEND id 0 0 ≠ none) →
        tail = [Call.super_resume ptid step signo]) := by
  obtain ⟨request, sel, issued, tail, hreq, hsel, hcalls, ⟨rest, hfil, hrest⟩, htail,
    hprog⟩ :=
    fbsd_resume_run env ptid step signo w
  simp only [hspec, if_true] at hreq hsel hrest htail hprog
  subst hreq hsel
  have hmem : ∀ tp ∈ issued, tp ∈ w.thread_list ∧ tp.ptid.pid = ptid.pid := by
    intro tp htp
    have : tp ∈ w.thread_list.filter (fun tp => tp.ptid.pid == ptid.pid) := by
      rw [hfil]; exact List.mem_append_left _ htp
    simpa [List.mem_filter] using this
  refine ⟨issued, tail, hcalls, hmem, htail, ?_, hprog⟩
  · intro ht tp htp hpid _
    have hr := hrest ht
    subst hr
    have : tp ∈ w.thread_list.filter (fun tp => tp.ptid.pid == ptid.pid) := by
      simp [List.mem_filter, htp, hpid]
    simpa [hfil] using this

theorem fbsd_resume_suspends_other_threads_witness :
    ptid_lwp_p ⟨1, 101, 0⟩ = true ∧
    ∃ (issued : List thread_info) (tail : List Call),
      (fbsd_resume sim_env ⟨1, 101, 0⟩ 0 0 sim_world_threads).2.calls
        = sim_world_threads.calls ++ issued.map (request_of ptrace_request.PT_SUSPEND)
            ++ tail ∧
      (∀ tp ∈ issued, tp ∈ sim_world_threads.thread_list ∧ tp.ptid.pid = (1 : Int)) ∧
      ((tail = [] ∧ (fbsd_resume sim_env ⟨1, 101, 0⟩ 0 0 sim_world_threads).1
          = Outcome.error failed_call.ptrace)
        ∨ tail = [Call.super_resume ⟨1, 101, 0⟩ 0 0]) ∧
      (tail = [Call.super_resume ⟨1, 101, 0⟩ 0 0] →
        ∀ tp ∈ sim_world_threads.thread_list, tp.ptid.pid = (1 : Int) →
          tp.ptid.lwp ≠ (101 : Int) → tp ∈ issued) ∧
      ((∀ s id, sim_env.ptrace_set s ptrace_request.PT_SUSPEND id 0 0 ≠ none) →
        tail = [Call.super_resume ⟨1, 101, 0⟩ 0 0]) :=
  ⟨by decide,
    fbsd_resume_suspends_other_threads sim_env sim_world_threads ⟨1, 101, 0⟩ 0 0 (by decide)⟩

/-- C6: on a process with threads 100 and 101, resuming the specific thread
100 issues a `PT_SUSPEND` request for LWP 100 itself: the target thread is
suspended like its sibling, and no `PT_RESUME` request is issued at all. -/
theorem fbsd_resume_suspends_target_thread :
    (fbsd_resume sim_env ⟨1, 100, 0⟩ 0 0 sim_world_threads).2.calls
      = [Call.ptrace ptrace_request.PT_SUSPEND 100 0 0,
         Call.ptrace ptrace_request.PT_SUSPEND 101 0 0,
         Call.super_resume ⟨1, 100, 0⟩ 0 0] ∧
    (fbsd_resume sim_env ⟨1, 100, 0⟩ 0 0 sim_world_threads).1 = Outcome.ok () := by
  decide

/-- C7, as stated, fails: resuming the specific thread (pid 1, LWP 100)
calls `super_resume` with the LWP-qualified ptid itself, which is not the
process-only identifier of pid 1, and never with the process-only one. -/
theorem fbsd_resume_specific_not_process_only :
    ptid_lwp_p ⟨1, 100, 0⟩ = true ∧
    (fbsd_resume sim_env ⟨1, 100, 0⟩ 0 0 sim_world_threads).2.calls.getLast?
      = some (Call.super_resume ⟨1, 100, 0⟩ 0 0) ∧
    (⟨1, 100, 0⟩ : ptid_t) ≠ pid_to_ptid 1 ∧
    Call.super_resume (pid_to_ptid 1) 0 0
      ∉ (fbsd_resume sim_env ⟨1, 100, 0⟩ 0 0 sim_world_threads).2.calls := by
  decide

/-- C7, amended: for every specific (LWP-qualified) target ptid, every call of
`super_resume` that `fbsd_resume` makes has exactly the ptid it was given, with
step and signal unchanged; there is at most one, it is the last call made, and
it is made whenever no suspend request fails. -/
theorem fbsd_resume_specific_passes_ptid {σ : Type} (env : target_env σ) (w : World σ)
    (ptid : ptid_t) (step signo : Int) (hspec : ptid_lwp_p ptid = true) :
    ∃ (made : List Call),
      (fbsd_resume env ptid step signo w).2.calls = w.calls ++ made ∧
      (∀ p st sg, Call.super_resume p st sg ∈ made →
        p = ptid ∧ st = step ∧ sg = signo) ∧
      ((∀ s id, env.ptrace_set s ptrace_request.PT_SUSPEND id 0 0 ≠ none) →
        made.getLast? = some (Call.super_resume ptid step signo)) := by
  obtain ⟨request, sel, issued, tail, hreq, hsel, hcalls, _, htail, hprog⟩ :=
    fbsd_resume_run env ptid step signo w
  simp only [hspec, if_true] at hreq hsel htail hprog
  subst hreq hsel
  refine ⟨issued.map (request_of ptrace_request.PT_SUSPEND) ++ tail, ?_, ?_, ?_⟩
  · simpa [List.append_assoc] using hcalls
  · intro p st sg hmem
    rcases List.mem_append.mp hmem with h | h
    · simp [request_of] at h
    · rcases htail with ht | ht
      · simp [ht.1] at h
      · simpa [ht] using h
  · intro hall
    simp [hprog hall]

theorem fbsd_resume_specific_passes_ptid_witness :
    ptid_lwp_p ⟨1, 101, 0⟩ = true ∧
    ∃ (made : List Call),
      (fbsd_resume sim_env ⟨1, 101, 0⟩ 1 5 sim_world_threads).2.calls
        = sim_world_threads.calls ++ made ∧
      (∀ p st sg, Call.super_resume p st sg ∈ made →
        p = ⟨1, 101, 0⟩ ∧ st = (1 : Int) ∧ sg = (5 : Int)) ∧
      ((∀ s id, sim_env.ptrace_set s ptrace_request.PT_SUSPEND id 0 0 ≠ none) →
        made.getLast? = some (Call.super_resume ⟨1, 101, 0⟩ 1 5)) :=
  ⟨by decide,
    fbsd_resume_specific_passes_ptid sim_env sim_world_threads ⟨1, 101, 0⟩ 1 5 (by decide)⟩

/-- C8: for every thread table and every wildcard filter (thread id 0), the
per-thread requests `fbsd_resume` makes are `PT_RESUME` requests for threads of
the table that match the filter and have a nonzero LWP id; no call it makes is
a `PT_SUSPEND` request.  When `super_resume` is reached the threads resumed are
exactly the matching threads with a nonzero LWP id, in table order, and it is
reached whenever no resume request fails. -/
theorem fbsd_resume_wildcard_resumes_matching {σ : Type} (env : target_env σ)
    (w : World σ) (filter : ptid_t) (step signo : Int)
    (hwild : ptid_lwp_p filter = false) :
    ∃ (issued : List thread_info) (tail : List Call),
      (fbsd_resume env filter step signo w).2.calls
        = w.calls ++ issued.map (request_of ptrace_request.PT_RESUME) ++ tail ∧
      (∀ tp ∈ issued, tp ∈ w.thread_list ∧ env.ptid_match tp.ptid filter = true
        ∧ tp.ptid.lwp ≠ 0) ∧
      (∀ c ∈ issued.map (request_of ptrace_request.PT_RESUME) ++ tail,
        ∀ id a d, c ≠ Call.ptrace ptrace_request.PT_SUSPEND id a d) ∧
      ((tail = [] ∧ (fbsd_resume env filter step signo w).1
          = Outcome.error failed_call.ptrace)
        ∨ tail = [Call.super_resume w.inferior_ptid step signo]) ∧
      (tail = [Call.super_resume w.inferior_ptid step signo] →
        issued = w.thread_list.filter
          (fun tp => env.ptid_match tp.ptid filter && ptid_lwp_p tp.ptid)) ∧
      ((∀ s id, env.ptrace_set s ptrace_request.PT_RESUME id 0 0 ≠ none) →
        tail = [Call.super_resume w.inferior_ptid step signo]) := by
  obtain ⟨request, sel, issued, tail, hreq, hsel, hcalls, ⟨rest, hfil, hrest⟩, htail,
    hprog⟩ :=
    fbsd_resume_run env filter step signo w
  simp only [hwild, Bool.false_eq_true, if_false] at hreq hsel hrest htail hprog
  subst hreq hsel
  have htl : tail = [] ∨ tail = [Call.super_resume w.inferior_ptid step signo] := by
    rcases htail with h | h
    · exact Or.inl h.1
    · exact Or.inr h
  refine ⟨issued, tail, hcalls, ?_, ?_, htail, ?_, hprog⟩
  · intro tp htp
    have : tp ∈ w.thread_list.filter
        (fun tp => env.ptid_match tp.ptid filter && ptid_lwp_p tp.ptid) := by
      rw [hfil]; exact List.mem_append_left _ htp
    simpa [List.mem_filter, ptid_lwp_p, and_assoc] using this
  · intro c hc id a d heq
    subst heq
    rcases List.mem_append.mp hc with h | h
    · simp [request_of] at h
    · rcases htl with ht | ht <;> simp [ht] at h
  · intro ht
    have hr := hrest ht
    subst hr
    simpa using hfil.symm

theorem fbsd_resume_wildcard_resumes_matching_witness :
    ptid_lwp_p (pid_to_ptid 1) = false ∧
    ∃ (issued : List thread_info) (tail : List Call),
      (fbsd_resume sim_env (pid_to_ptid 1) 0 0 sim_world_threads).2.calls
        = sim_world_threads.calls ++ issued.map (request_of ptrace_request.PT_RESUME)
            ++ tail ∧
      (∀ tp ∈ issued, tp ∈ sim_world_threads.thread_list
        ∧ sim_env.ptid_match tp.ptid (pid_to_ptid 1) = true ∧ tp.ptid.lwp ≠ 0) ∧
      (∀ c ∈ issued.map (request_of ptrace_request.PT_RESUME) ++ tail,
        ∀ id a d, c ≠ Call.ptrace ptrace_request.PT_SUSPEND id a d) ∧
      ((tail = [] ∧ (fbsd_resume sim_env (pid_to_ptid 1) 0 0 sim_world_threads).1
          = Outcome.error failed_call.ptrace)
        ∨ tail = [Call.super_resume sim_world_threads.inferior_ptid 0 0]) ∧
      (tail = [Call.super_resume sim_world_threads.inferior_ptid 0 0] →
        issued = sim_world_threads.thread_list.filter
          (fun tp => sim_env.ptid_match tp.ptid (pid_to_ptid 1) && ptid_lwp_p tp.ptid)) ∧
      ((∀ s id, sim_env.ptrace_set s ptrace_request.PT_RESUME id 0 0 ≠ none) →
        tail = [Call.super_resume sim_world_threads.inferior_ptid 0 0]) :=
  ⟨by decide,
    fbsd_resume_wildcard_resumes_matching sim_env sim_world_threads (pid_to_ptid 1) 0 0
      (by decide)⟩

/-- C9, as stated, fails: with the wildcard filter of pid 1 and the current
thread being LWP 100 of pid 1, `super_resume` is called with the identifier of
that one thread, not with the filter. -/
theorem fbsd_resume_wildcard_not_filter :
    ptid_lwp_p (pid_to_ptid 1) = false ∧
    (fbsd_resume sim_env (pid_to_ptid 1) 0 0 sim_world_threads).2.calls
      = [Call.ptrace ptrace_request.PT_RESUME 100 0 0,
         Call.ptrace ptrace_request.PT_RESUME 101 0 0,
         Call.super_resume ⟨1, 100, 0⟩ 0 0] ∧
    ptid_lwp_p ⟨1, 100, 0⟩ = true ∧
    (⟨1, 100, 0⟩ : ptid_t) ≠ pid_to_ptid 1 := by
  decide

/-- C9, amended: for every wildcard filter, every call of `super_resume` that
`fbsd_resume` makes has the value of `inferior_ptid` (the current thread of
the debugger) as its identifier, whatever the filter, with step and signal
unchanged; there is at most one, after the per-thread resume requests, and it
is made whenever no resume request fails. -/
theorem fbsd_resume_wildcard_passes_inferior_ptid {σ : Type} (env : target_env σ)
    (w : World σ) (filter : ptid_t) (step signo : Int)
    (hwild : ptid_lwp_p filter = false) :
    ∃ (made : List Call),
      (fbsd_resume env filter step signo w).2.calls = w.calls ++ made ∧
      (∀ p st sg, Call.super_resume p st sg ∈ made →
        p = w.inferior_ptid ∧ st = step ∧ sg = signo) ∧
      ((∀ s id, env.ptrace_set s ptrace_request.PT_RESUME id 0 0 ≠ none) →
        made.getLast? = some (Call.super_resume w.inferior_ptid step signo)) := by
  obtain ⟨request, sel, issued, tail, hreq, hsel, hcalls, _, htail, hprog⟩ :=
    fbsd_resume_run env filter step signo w
  simp only [hwild, Bool.false_eq_true, if_false] at hreq hsel htail hprog
  subst hreq hsel
  refine ⟨issued.map (request_of ptrace_request.PT_RESUME) ++ tail, ?_, ?_, ?_⟩
  · simpa [List.append_assoc] using hcalls
  · intro p st sg hmem
    rcases List.mem_append.mp hmem with h | h
    · simp [request_of] at h
    · rcases htail with ht | ht
      · simp [ht.1] at h
      · simpa [ht] using h
  · intro hall
    simp [hprog hall]

theorem fbsd_resume_wildcard_passes_inferior_ptid_witness :
    ptid_lwp_p minus_one_ptid = false ∧
    ∃ (made : List Call),
      (fbsd_resume sim_env minus_one_ptid 0 0 sim_world_threads).2.calls
        = sim_world_threads.calls ++ made ∧
      (∀ p st sg, Call.super_resume p st sg ∈ made →
        p = sim_world_threads.inferior_ptid ∧ st = (0 : Int) ∧ sg = (0 : Int)) ∧
      ((∀ s id, sim_env.ptrace_set s ptrace_request.PT_RESUME id 0 0 ≠ none) →
        made.getLast? = some (Call.super_resume sim_world_threads.inferior_ptid 0 0)) :=
  ⟨by decide,
    fbsd_resume_wildcard_passes_inferior_ptid sim_env sim_world_threads minus_one_ptid 0 0
      (by decide)⟩

/-! ## Wait: the claims -/

/-- C1: starting from an empty Pending-Fork Registry, when the wait primitive
delivers the child's fork-stop (`PL_FLAG_CHILD`, not `PL_FLAG_FORKED`) first and
the parent's fork-completion stop (`PL_FLAG_FORKED` naming that child) second,
one call of `fbsd_wait` (any bound of at least two iterations) returns one
event: the ptid is the parent's, the kind is `FORKED` or `VFORKED`, the related
pid is the child's, and the registry is empty at return.  The call consumed
both raw stops and made no other wait. -/
theorem fbsd_wait_child_first_reports_fork {σ : Type} (env : target_env σ) (w : World σ)
    (ptid : ptid_t) (opts : Int) (cptid pptid : ptid_t) (st1 st2 : target_waitstatus)
    (k1 k2 : σ) (pl1 pl2 : ptrace_lwpinfo) (kp : kinfo_proc)
    (hreg : w.fbsd_pending_children = [])
    (hw1 : env.super_wait w.kern ptid opts = some (cptid, st1, k1))
    (hst1 : st1.kind = target_waitkind.STOPPED)
    (hpl1 : env.ptrace_lwpinfo k1 cptid.pid = some pl1)
    (hnf : flag_set pl1.pl_flags PL_FLAG_FORKED = false)
    (hch : flag_set pl1.pl_flags PL_FLAG_CHILD = true)
    (hw2 : env.super_wait k1 ptid opts = some (pptid, st2, k2))
    (hst2 : st2.kind = target_waitkind.STOPPED)
    (hpl2 : env.ptrace_lwpinfo k2 pptid.pid = some pl2)
    (hf : flag_set pl2.pl_flags PL_FLAG_FORKED = true)
    (hchild : pl2.pl_child_pid = cptid.pid)
    (hkp : env.sysctl_kern_proc_pid k2 cptid.pid = some kp) (fuel : Nat) :
    ∃ st : target_waitstatus,
      (fbsd_wait env (fuel + 2) ptid opts w).1 = Outcome.ok (pptid, st) ∧
      (st.kind = target_waitkind.FORKED ∨ st.kind = target_waitkind.VFORKED) ∧
      st.value = waitstatus_value.related_pid (pid_to_ptid cptid.pid) ∧
      (fbsd_wait env (fuel + 2) ptid opts w).2.fbsd_pending_children = [] ∧
      (fbsd_wait env (fuel + 2) ptid opts w).2.calls
        = w.calls ++
            [Call.super_wait ptid opts,
             Call.ptrace ptrace_request.PT_LWPINFO cptid.pid 0 0,
             Call.super_wait ptid opts,
             Call.ptrace ptrace_request.PT_LWPINFO pptid.pid 0 0,
             Call.sysctl_kern_proc_pid cptid.pid] := by
  rw [fbsd_wait_child_first_run env w ptid opts cptid pptid st1 st2 k1 k2 pl1 pl2 kp
    hw1 hst1 hpl1 hnf hch hw2 hst2 hpl2 hf hchild hkp fuel]
  refine ⟨fork_status kp cptid.pid, rfl, ?_, rfl, hreg, rfl⟩
  cases hv : flag_set kp.ki_flag P_PPWAIT <;> simp [fork_status, hv]

theorem fbsd_wait_child_first_reports_fork_witness :
    ∃ st : target_waitstatus,
      (fbsd_wait sim_env (0 + 2) minus_one_ptid 0 sim_world_child_first).1
        = Outcome.ok (⟨10, 0, 0⟩, st) ∧
      (st.kind = target_waitkind.FORKED ∨ st.kind = target_waitkind.VFORKED) ∧
      st.value = waitstatus_value.related_pid (pid_to_ptid 20) ∧
      (fbsd_wait sim_env (0 + 2) minus_one_ptid 0 sim_world_child_first).2.fbsd_pending_children
        = [] ∧
      (fbsd_wait sim_env (0 + 2) minus_one_ptid 0 sim_world_child_first).2.calls
        = sim_world_child_first.calls ++
            [Call.super_wait minus_one_ptid 0,
             Call.ptrace ptrace_request.PT_LWPINFO 20 0 0,
             Call.super_wait minus_one_ptid 0,
             Call.ptrace ptrace_request.PT_LWPINFO 10 0 0,
             Call.sysctl_kern_proc_pid 20] :=
  fbsd_wait_child_first_reports_fork sim_env sim_world_child_first minus_one_ptid 0
    ⟨20, 0, 0⟩ ⟨10, 0, 0⟩ sim_stopped sim_stopped
    ⟨[sim_parent_stop], [sim_child_stop], [], []⟩
    ⟨[], [sim_parent_stop, sim_child_stop], [], []⟩
    sim_child_stop.pl sim_parent_stop.pl ⟨0⟩
    (by decide) (by decide) (by decide) (by decide) (by decide) (by decide) (by decide)
    (by decide) (by decide) (by decide) (by decide) (by decide) 0

/-- C2: for one fork, with a registry that has no entry for the child, the
outcome of `fbsd_wait` (returned ptid, status kind, related child pid) and the
registry at return are the same whether the child's stop is delivered before
the parent's (first world) or the parent's before the child's (second world). -/
theorem fbsd_wait_fork_order_independent {σ : Type} (env : target_env σ)
    (wa wb : World σ) (ptid : ptid_t) (opts : Int) (cptid pptid : ptid_t)
    (st1 st2 st : target_waitstatus) (k1 k2 j1 j2 : σ) (pl1 pl2 pl plc : ptrace_lwpinfo)
    (kpa kpb : kinfo_proc)
    (hreg : wa.fbsd_pending_children = wb.fbsd_pending_children)
    (hnot : cptid.pid ∉ wb.fbsd_pending_children)
    (hne : cptid.pid ≠ -1)
    (hw1 : env.super_wait wa.kern ptid opts = some (cptid, st1, k1))
    (hst1 : st1.kind = target_waitkind.STOPPED)
    (hpl1 : env.ptrace_lwpinfo k1 cptid.pid = some pl1)
    (hnf : flag_set pl1.pl_flags PL_FLAG_FORKED = false)
    (hch : flag_set pl1.pl_flags PL_FLAG_CHILD = true)
    (hw2 : env.super_wait k1 ptid opts = some (pptid, st2, k2))
    (hst2 : st2.kind = target_waitkind.STOPPED)
    (hpl2 : env.ptrace_lwpinfo k2 pptid.pid = some pl2)
    (hf : flag_set pl2.pl_flags PL_FLAG_FORKED = true)
    (hchild : pl2.pl_child_pid = cptid.pid)
    (hkpa : env.sysctl_kern_proc_pid k2 cptid.pid = some kpa)
    (hv1 : env.super_wait wb.kern ptid opts = some (pptid, st, j1))
    (hst : st.kind = target_waitkind.STOPPED)
    (hpl : env.ptrace_lwpinfo j1 pptid.pid = some pl)
    (hfb : flag_set pl.pl_flags PL_FLAG_FORKED = true)
    (hchildb : pl.pl_child_pid = cptid.pid)
    (hwp : env.waitpid j1 cptid.pid 0 = some (cptid.pid, j2))
    (hplc : env.ptrace_lwpinfo j2 cptid.pid = some plc)
    (hchb : flag_set plc.pl_flags PL_FLAG_CHILD = true)
    (hkpb : env.sysctl_kern_proc_pid j2 cptid.pid = some kpb)
    (hsame : flag_set kpa.ki_flag P_PPWAIT = flag_set kpb.ki_flag P_PPWAIT)
    (fa fb : Nat) :
    (fbsd_wait env (fa + 2) ptid opts wa).1 = (fbsd_wait env (fb + 1) ptid opts wb).1 ∧
    (fbsd_wait env (fb + 1) ptid opts wb).1
      = Outcome.ok (pptid,
          { kind := if flag_set kpb.ki_flag P_PPWAIT then target_waitkind.VFORKED
              else target_waitkind.FORKED,
            value := waitstatus_value.related_pid (pid_to_ptid cptid.pid) }) ∧
    (fbsd_wait env (fa + 2) ptid opts wa).2.fbsd_pending_children
      = (fbsd_wait env (fb + 1) ptid opts wb).2.fbsd_pending_children := by
  rw [fbsd_wait_child_first_run env wa ptid opts cptid pptid st1 st2 k1 k2 pl1 pl2 kpa
    hw1 hst1 hpl1 hnf hch hw2 hst2 hpl2 hf hchild hkpa fa]
  rw [← hchildb] at hnot hne hwp hplc hkpb
  rw [fbsd_wait_parent_first_run env wb ptid opts pptid st j1 j2 pl plc kpb
    hv1 hst hpl hfb hnot hne hwp hplc hchb hkpb fb]
  simp [fork_status, hsame, hchildb, hreg]

theorem fbsd_wait_fork_order_independent_witness :
    (fbsd_wait sim_env (0 + 2) minus_one_ptid 0 sim_world_child_first).1
      = (fbsd_wait sim_env (0 + 1) minus_one_ptid 0 sim_world_parent_first).1 ∧
    (fbsd_wait sim_env (0 + 1) minus_one_ptid 0 sim_world_parent_first).1
      = Outcome.ok ((⟨10, 0, 0⟩ : ptid_t),
          { kind := if flag_set (0 : Nat) P_PPWAIT then target_waitkind.VFORKED
              else target_waitkind.FORKED,
            value := waitstatus_value.related_pid (pid_to_ptid 20) }) ∧
    (fbsd_wait sim_env (0 + 2) minus_one_ptid 0 sim_world_child_first).2.fbsd_pending_children
      = (fbsd_wait sim_env (0 + 1) minus_one_ptid 0
          sim_world_parent_first).2.fbsd_pending_children :=
  fbsd_wait_fork_order_independent sim_env sim_world_child_first sim_world_parent_first
    minus_one_ptid 0 ⟨20, 0, 0⟩ ⟨10, 0, 0⟩ sim_stopped sim_stopped sim_stopped
    ⟨[sim_parent_stop], [sim_child_stop], [], []⟩
    ⟨[], [sim_parent_stop, sim_child_stop], [], []⟩
    ⟨[sim_child_stop], [sim_parent_stop], [], []⟩
    ⟨[], [sim_child_stop, sim_parent_stop], [], []⟩
    sim_child_stop.pl sim_parent_stop.pl sim_parent_stop.pl sim_child_stop.pl ⟨0⟩ ⟨0⟩
    (by decide) (by decide) (by decide) (by decide) (by decide) (by decide) (by decide)
    (by decide) (by decide) (by decide) (by decide) (by decide) (by decide) (by decide)
    (by decide) (by decide) (by decide) (by decide) (by decide) (by decide) (by decide)
    (by decide) (by decide) (by decide) 0 0

/-- The nested wait of `fbsd_wait`: the `waitpid` never returns. -/
theorem fbsd_wait_nested_blocked {σ : Type} (env : target_env σ) (w : World σ)
    (ptid : ptid_t) (opts : Int) (pptid : ptid_t) (st : target_waitstatus)
    (k1 : σ) (pl : ptrace_lwpinfo) (fuel : Nat)
    (hw1 : env.super_wait w.kern ptid opts = some (pptid, st, k1))
    (hst : st.kind = target_waitkind.STOPPED)
    (hpl : env.ptrace_lwpinfo k1 pptid.pid = some pl)
    (hf : flag_set pl.pl_flags PL_FLAG_FORKED = true)
    (hnot : pl.pl_child_pid ∉ w.fbsd_pending_children)
    (hwp : env.waitpid k1 pl.pl_child_pid 0 = none) :
    fbsd_wait env (fuel + 1) ptid opts w
      = (Outcome.blocked,
          { w with
            kern := k1,
            calls := w.calls ++
              [Call.super_wait ptid opts,
               Call.ptrace ptrace_request.PT_LWPINFO pptid.pid 0 0,
               Call.waitpid pl.pl_child_pid 0] }) := by
  simp [fbsd_wait, bind_run, M.bind, super_wait, hw1, hst, ptrace_lwpinfo_call, hpl, ptid_get_pid,
    hf, fbsd_is_child_pending, unlink_child_not_mem _ _ hnot, waitpid, hwp]

/-- The nested wait of `fbsd_wait`: the `waitpid` fails. -/
theorem fbsd_wait_nested_error {σ : Type} (env : target_env σ) (w : World σ)
    (ptid : ptid_t) (opts : Int) (pptid : ptid_t) (st : target_waitstatus)
    (k1 : σ) (pl : ptrace_lwpinfo) (fuel : Nat)
    (hw1 : env.super_wait w.kern ptid opts = some (pptid, st, k1))
    (hst : st.kind = target_waitkind.STOPPED)
    (hpl : env.ptrace_lwpinfo k1 pptid.pid = some pl)
    (hf : flag_set pl.pl_flags PL_FLAG_FORKED = true)
    (hnot : pl.pl_child_pid ∉ w.fbsd_pending_children)
    (k2 : σ) (hwp : env.waitpid k1 pl.pl_child_pid 0 = some (-1, k2)) :
    fbsd_wait env (fuel + 1) ptid opts w
      = (Outcome.error failed_call.waitpid,
          { w with
            kern := k2,
            calls := w.calls ++
              [Call.super_wait ptid opts,
               Call.ptrace ptrace_request.PT_LWPINFO pptid.pid 0 0,
               Call.waitpid pl.pl_child_pid 0] }) := by
  simp [fbsd_wait, bind_run, M.bind, super_wait, hw1, hst, ptrace_lwpinfo_call, hpl, ptid_get_pid,
    hf, fbsd_is_child_pending, unlink_child_not_mem _ _ hnot, waitpid, hwp, perror_with_name]

/-- The nested wait of `fbsd_wait`: the `waitpid` reports another pid. -/
theorem fbsd_wait_nested_other_pid {σ : Type} (env : target_env σ) (w : World σ)
    (ptid : ptid_t) (opts : Int) (pptid : ptid_t) (st : target_waitstatus)
    (k1 : σ) (pl : ptrace_lwpinfo) (fuel : Nat)
    (hw1 : env.super_wait w.kern ptid opts = some (pptid, st, k1))
    (hst : st.kind = target_waitkind.STOPPED)
    (hpl : env.ptrace_lwpinfo k1 pptid.pid = some pl)
    (hf : flag_set pl.pl_flags PL_FLAG_FORKED = true)
    (hnot : pl.pl_child_pid ∉ w.fbsd_pending_children)
    (p : Int) (k2 : σ) (hwp : env.waitpid k1 pl.pl_child_pid 0 = some (p, k2))
    (h1 : p ≠ -1) (h2 : p ≠ pl.pl_child_pid) :
    fbsd_wait env (fuel + 1) ptid opts w
      = (Outcome.assert_fail,
          { w with
            kern := k2,
            calls := w.calls ++
              [Call.super_wait ptid opts,
               Call.ptrace ptrace_request.PT_LWPINFO pptid.pid 0 0,
               Call.waitpid pl.pl_child_pid 0] }) := by
  simp [fbsd_wait, bind_run, M.bind, super_wait, hw1, hst, ptrace_lwpinfo_call, hpl, ptid_get_pid,
    hf, fbsd_is_child_pending, unlink_child_not_mem _ _ hnot, waitpid, hwp, h1, h2, gdb_assert]

/-- The nested wait of `fbsd_wait`: the trace information of the child cannot be read. -/
theorem fbsd_wait_nested_no_lwpinfo {σ : Type} (env : target_env σ) (w : World σ)
    (ptid : ptid_t) (opts : Int) (pptid : ptid_t) (st : target_waitstatus)
    (k1 : σ) (pl : ptrace_lwpinfo) (fuel : Nat)
    (hw1 : env.super_wait w.kern ptid opts = some (pptid, st, k1))
    (hst : st.kind = target_waitkind.STOPPED)
    (hpl : env.ptrace_lwpinfo k1 pptid.pid = some pl)
    (hf : flag_set pl.pl_flags PL_FLAG_FORKED = true)
    (hnot : pl.pl_child_pid ∉ w.fbsd_pending_children)
    (k2 : σ) (hwp : env.waitpid k1 pl.pl_child_pid 0 = some (pl.pl_child_pid, k2))
    (h1 : pl.pl_child_pid ≠ -1)
    (hplc : env.ptrace_lwpinfo k2 pl.pl_child_pid = none) :
    fbsd_wait env (fuel + 1) ptid opts w
      = (Outcome.error failed_call.ptrace,
          { w with
            kern := k2,
            calls := w.calls ++
              [Call.super_wait ptid opts,
               Call.ptrace ptrace_request.PT_LWPINFO pptid.pid 0 0,
               Call.waitpid pl.pl_child_pid 0,
               Call.ptrace ptrace_request.PT_LWPINFO pl.pl_child_pid 0 0] }) := by
  simp [fbsd_wait, bind_run, M.bind, super_wait, hw1, hst, ptrace_lwpinfo_call, hpl, ptid_get_pid,
    hf, fbsd_is_child_pending, unlink_child_not_mem _ _ hnot, waitpid, hwp, h1, gdb_assert, hplc,
      perror_with_name]

/-- The nested wait of `fbsd_wait`: the child has no `PL_FLAG_CHILD`. -/
theorem fbsd_wait_nested_no_flag {σ : Type} (env : target_env σ) (w : World σ)
    (ptid : ptid_t) (opts : Int) (pptid : ptid_t) (st : target_waitstatus)
    (k1 : σ) (pl : ptrace_lwpinfo) (fuel : Nat)
    (hw1 : env.super_wait w.kern ptid opts = some (pptid, st, k1))
    (hst : st.kind = target_waitkind.STOPPED)
    (hpl : env.ptrace_lwpinfo k1 pptid.pid = some pl)
    (hf : flag_set pl.pl_flags PL_FLAG_FORKED = true)
    (hnot : pl.pl_child_pid ∉ w.fbsd_pending_children)
    (k2 : σ) (hwp : env.waitpid k1 pl.pl_child_pid 0 = some (pl.pl_child_pid, k2))
    (h1 : pl.pl_child_pid ≠ -1)
    (plc : ptrace_lwpinfo) (hplc : env.ptrace_lwpinfo k2 pl.pl_child_pid = some plc)
    (hc : flag_set plc.pl_flags PL_FLAG_CHILD = false) :
    fbsd_wait env (fuel + 1) ptid opts w
      = (Outcome.assert_fail,
          { w with
            kern := k2,
            calls := w.calls ++
              [Call.super_wait ptid opts,
               Call.ptrace ptrace_request.PT_LWPINFO pptid.pid 0 0,
               Call.waitpid pl.pl_child_pid 0,
               Call.ptrace ptrace_request.PT_LWPINFO pl.pl_child_pid 0 0] }) := by
  simp [fbsd_wait, bind_run, M.bind, super_wait, hw1, hst, ptrace_lwpinfo_call, hpl, ptid_get_pid,
    hf, fbsd_is_child_pending, unlink_child_not_mem _ _ hnot, waitpid, hwp, h1, gdb_assert, hplc,
      hc]

/-- The nested wait of `fbsd_wait`: the process information of the child cannot be read. -/
theorem fbsd_wait_nested_no_kinfo {σ : Type} (env : target_env σ) (w : World σ)
    (ptid : ptid_t) (opts : Int) (pptid : ptid_t) (st : target_waitstatus)
    (k1 : σ) (pl : ptrace_lwpinfo) (fuel : Nat)
    (hw1 : env.super_wait w.kern ptid opts = some (pptid, st, k1))
    (hst : st.kind = target_waitkind.STOPPED)
    (hpl : env.ptrace_lwpinfo k1 pptid.pid = some pl)
    (hf : flag_set pl.pl_flags PL_FLAG_FORKED = true)
    (hnot : pl.pl_child_pid ∉ w.fbsd_pending_children)
    (k2 : σ) (hwp : env.waitpid k1 pl.pl_child_pid 0 = some (pl.pl_child_pid, k2))
    (h1 : pl.pl_child_pid ≠ -1)
    (plc : ptrace_lwpinfo) (hplc : env.ptrace_lwpinfo k2 pl.pl_child_pid = some plc)
    (hc : flag_set plc.pl_flags PL_FLAG_CHILD = true)
    (hkp : env.sysctl_kern_proc_pid k2 pl.pl_child_pid = none) :
    fbsd_wait env (fuel + 1) ptid opts w
      = (Outcome.error failed_call.sysctl,
          { w with
            kern := k2,
            calls := w.calls ++
              [Call.super_wait ptid opts,
               Call.ptrace ptrace_request.PT_LWPINFO pptid.pid 0 0,
               Call.waitpid pl.pl_child_pid 0,
               Call.ptrace ptrace_request.PT_LWPINFO pl.pl_child_pid 0 0,
               Call.sysctl_kern_proc_pid pl.pl_child_pid] }) := by
  simp [fbsd_wait, bind_run, M.bind, super_wait, hw1, hst, ptrace_lwpinfo_call, hpl, ptid_get_pid,
    hf, fbsd_is_child_pending, unlink_child_not_mem _ _ hnot, waitpid, hwp, h1, gdb_assert, hplc,
      hc, fbsd_fetch_kinfo_proc, hkp]

/-- C3: when the parent's fork-completion stop arrives and the registry has no
entry for the child, `fbsd_wait` performs a blocking `waitpid` on exactly the
child's pid (its only `waitpid` call, right after reading the parent's trace
information) and leaves the registry unchanged.  It returns an event only if
that wait reported the child itself and the child's trace information has
`PL_FLAG_CHILD`; the event is then the fork event of the parent.  A nested wait
that reports a different pid, or a child without `PL_FLAG_CHILD`, ends in an
assertion failure.  When the wait reports the child with the flag set and the
child's process information can be read, the fork event is returned. -/
theorem fbsd_wait_parent_first_nested_wait {σ : Type} (env : target_env σ) (w : World σ)
    (ptid : ptid_t) (opts : Int) (pptid : ptid_t) (st : target_waitstatus)
    (k1 : σ) (pl : ptrace_lwpinfo) (fuel : Nat)
    (hw1 : env.super_wait w.kern ptid opts = some (pptid, st, k1))
    (hst : st.kind = target_waitkind.STOPPED)
    (hpl : env.ptrace_lwpinfo k1 pptid.pid = some pl)
    (hf : flag_set pl.pl_flags PL_FLAG_FORKED = true)
    (hnot : pl.pl_child_pid ∉ w.fbsd_pending_children) :
    (∃ rest : List Call,
      (fbsd_wait env (fuel + 1) ptid opts w).2.calls
        = w.calls ++
            [Call.super_wait ptid opts,
             Call.ptrace ptrace_request.PT_LWPINFO pptid.pid 0 0,
             Call.waitpid pl.pl_child_pid 0] ++ rest ∧
      (∀ p o, Call.waitpid p o ∉ rest) ∧ (∀ p o, Call.super_wait p o ∉ rest)) ∧
    (fbsd_wait env (fuel + 1) ptid opts w).2.fbsd_pending_children
      = w.fbsd_pending_children ∧
    (∀ wp s, (fbsd_wait env (fuel + 1) ptid opts w).1 = Outcome.ok (wp, s) →
      ∃ k2 plc,
        env.waitpid k1 pl.pl_child_pid 0 = some (pl.pl_child_pid, k2) ∧
        env.ptrace_lwpinfo k2 pl.pl_child_pid = some plc ∧
        flag_set plc.pl_flags PL_FLAG_CHILD = true ∧
        wp = pptid ∧
        (s.kind = target_waitkind.FORKED ∨ s.kind = target_waitkind.VFORKED) ∧
        s.value = waitstatus_value.related_pid (pid_to_ptid pl.pl_child_pid)) ∧
    (∀ p k2, env.waitpid k1 pl.pl_child_pid 0 = some (p, k2) → p ≠ -1 →
      p ≠ pl.pl_child_pid →
      (fbsd_wait env (fuel + 1) ptid opts w).1 = Outcome.assert_fail) ∧
    (∀ k2 plc, env.waitpid k1 pl.pl_child_pid 0 = some (pl.pl_child_pid, k2) →
      pl.pl_child_pid ≠ -1 →
      env.ptrace_lwpinfo k2 pl.pl_child_pid = some plc →
      flag_set plc.pl_flags PL_FLAG_CHILD = false →
      (fbsd_wait env (fuel + 1) ptid opts w).1 = Outcome.assert_fail) ∧
    (∀ k2 plc kp, env.waitpid k1 pl.pl_child_pid 0 = some (pl.pl_child_pid, k2) →
      pl.pl_child_pid ≠ -1 →
      env.ptrace_lwpinfo k2 pl.pl_child_pid = some plc →
      flag_set plc.pl_flags PL_FLAG_CHILD = true →
      env.sysctl_kern_proc_pid k2 pl.pl_child_pid = some kp →
      (fbsd_wait env (fuel + 1) ptid opts w).1
        = Outcome.ok (pptid, fork_status kp pl.pl_child_pid)) := by
  cases hwp : env.waitpid k1 pl.pl_child_pid 0 with
  | none =>
      have hrun := fbsd_wait_nested_blocked env w ptid opts pptid st k1 pl fuel hw1 hst hpl hf
        hnot hwp
      rw [hrun]
      refine ⟨⟨[], by simp, by simp, by simp⟩, rfl, ?_, ?_, ?_, ?_⟩ <;>
        intros <;> simp_all
  | some r =>
    obtain ⟨p, k2⟩ := r
    by_cases h1 : p = -1
    · subst h1
      have hrun := fbsd_wait_nested_error env w ptid opts pptid st k1 pl fuel hw1 hst hpl hf
        hnot k2 hwp
      rw [hrun]
      refine ⟨⟨[], by simp, by simp, by simp⟩, rfl, ?_, ?_, ?_, ?_⟩ <;>
        intros <;> simp_all
    · by_cases h2 : p = pl.pl_child_pid
      · subst h2
        cases hplc : env.ptrace_lwpinfo k2 pl.pl_child_pid with
        | none =>
            have hrun := fbsd_wait_nested_no_lwpinfo env w ptid opts pptid st k1 pl fuel hw1 hst
              hpl hf hnot k2 hwp h1 hplc
            rw [hrun]
            refine ⟨⟨[Call.ptrace ptrace_request.PT_LWPINFO pl.pl_child_pid 0 0], by simp,
              by simp, by simp⟩, rfl, ?_, ?_, ?_, ?_⟩ <;>
              intros <;> simp_all
        | some plc =>
            cases hc : flag_set plc.pl_flags PL_FLAG_CHILD with
            | false =>
                have hrun := fbsd_wait_nested_no_flag env w ptid opts pptid st k1 pl fuel hw1
                  hst hpl hf hnot k2 hwp h1 plc hplc hc
                rw [hrun]
                refine ⟨⟨[Call.ptrace ptrace_request.PT_LWPINFO pl.pl_child_pid 0 0], by simp,
                  by simp, by simp⟩, rfl, ?_, ?_, ?_, ?_⟩ <;>
                  intros <;> simp_all
            | true =>
                cases hkp : env.sysctl_kern_proc_pid k2 pl.pl_child_pid with
                | none =>
                    have hrun := fbsd_wait_nested_no_kinfo env w ptid opts pptid st k1 pl fuel
                      hw1 hst hpl hf hnot k2 hwp h1 plc hplc hc hkp
                    rw [hrun]
                    refine ⟨⟨[Call.ptrace ptrace_request.PT_LWPINFO pl.pl_child_pid 0 0,
                      Call.sysctl_kern_proc_pid pl.pl_child_pid], by simp, by simp, by simp⟩, rfl,
                      ?_, ?_, ?_, ?_⟩ <;>
                      intros <;> simp_all
                | some kp =>
                    have hrun := fbsd_wait_parent_first_run env w ptid opts pptid st k1 k2 pl
                      plc kp hw1 hst hpl hf hnot h1 hwp hplc hc hkp fuel
                    rw [hrun]
                    refine ⟨⟨[Call.ptrace ptrace_request.PT_LWPINFO pl.pl_child_pid 0 0,
                      Call.sysctl_kern_proc_pid pl.pl_child_pid], by simp, by simp, by simp⟩, rfl,
                      ?_, ?_, ?_, ?_⟩
                    · intro wp s hok
                      simp only [Outcome.ok.injEq, Prod.mk.injEq] at hok
                      obtain ⟨rfl, rfl⟩ := hok
                      refine ⟨k2, plc, rfl, hplc, hc, rfl, ?_, rfl⟩
                      cases hv : flag_set kp.ki_flag P_PPWAIT <;> simp [fork_status, hv]
                    · intros; simp_all
                    · intros; simp_all
                    · intros; simp_all
      · have hrun := fbsd_wait_nested_other_pid env w ptid opts pptid st k1 pl fuel hw1 hst hpl
          hf hnot p k2 hwp h1 h2
        rw [hrun]
        refine ⟨⟨[], by simp, by simp, by simp⟩, rfl, ?_, ?_, ?_, ?_⟩ <;>
          intros <;> simp_all

theorem fbsd_wait_parent_first_nested_wait_witness :
    (∃ rest : List Call,
      (fbsd_wait sim_env (0 + 1) minus_one_ptid 0 sim_world_parent_first).2.calls
        = sim_world_parent_first.calls ++
            [Call.super_wait minus_one_ptid 0,
             Call.ptrace ptrace_request.PT_LWPINFO 10 0 0,
             Call.waitpid 20 0] ++ rest ∧
      (∀ p o, Call.waitpid p o ∉ rest) ∧ (∀ p o, Call.super_wait p o ∉ rest)) ∧
    (fbsd_wait sim_env (0 + 1) minus_one_ptid 0 sim_world_parent_first).2.fbsd_pending_children
      = sim_world_parent_first.fbsd_pending_children :=
  have h := fbsd_wait_parent_first_nested_wait sim_env sim_world_parent_first
    minus_one_ptid 0 ⟨10, 0, 0⟩ sim_stopped
    ⟨[sim_child_stop], [sim_parent_stop], [], []⟩ sim_parent_stop.pl 0
    (by decide) (by decide) (by decide) (by decide) (by decide)
  ⟨h.1, h.2.1⟩

/-- C4, as stated, fails: the simulated kernel delivers the child's stop and
then the parent's; `fbsd_wait` surfaces the single `FORKED` event for child 20;
a second wait targeting pid 20 does not return the child's stop, it blocks:
the stop was consumed by the first call. -/
theorem fbsd_wait_child_stop_consumed :
    (fbsd_wait sim_env 2 minus_one_ptid 0 sim_world_child_first).1
      = Outcome.ok (⟨10, 0, 0⟩,
          ⟨target_waitkind.FORKED, waitstatus_value.related_pid ⟨20, 0, 0⟩⟩) ∧
    (fbsd_wait sim_env 2 (pid_to_ptid 20) 0
      (fbsd_wait sim_env 2 minus_one_ptid 0 sim_world_child_first).2).1 = Outcome.blocked ∧
    (fbsd_wait sim_env 2 (pid_to_ptid 20) 0
      (fbsd_wait sim_env 2 minus_one_ptid 0 sim_world_child_first).2).1
      ≠ Outcome.ok (sim_child_stop.wptid, sim_child_stop.status) := by
  decide

/-- C4, amended: after `fbsd_wait` has surfaced the fork event for a fork whose
stops arrived child first, the engine holds nothing of the child's stop (the
environment is in the state left by the two deliveries and the registry is as
before the call), and a subsequent wait targeting the child's pid goes to the
wait primitive: it blocks when the primitive has nothing more to deliver for
the child, and returns a plain stop of the child only when the primitive
delivers one. -/
theorem fbsd_wait_child_stop_not_redelivered {σ : Type} (env : target_env σ) (w : World σ)
    (ptid : ptid_t) (opts opts2 : Int) (cptid pptid : ptid_t)
    (st1 st2 : target_waitstatus) (k1 k2 : σ) (pl1 pl2 : ptrace_lwpinfo) (kp : kinfo_proc)
    (hw1 : env.super_wait w.kern ptid opts = some (cptid, st1, k1))
    (hst1 : st1.kind = target_waitkind.STOPPED)
    (hpl1 : env.ptrace_lwpinfo k1 cptid.pid = some pl1)
    (hnf : flag_set pl1.pl_flags PL_FLAG_FORKED = false)
    (hch : flag_set pl1.pl_flags PL_FLAG_CHILD = true)
    (hw2 : env.super_wait k1 ptid opts = some (pptid, st2, k2))
    (hst2 : st2.kind = target_waitkind.STOPPED)
    (hpl2 : env.ptrace_lwpinfo k2 pptid.pid = some pl2)
    (hf : flag_set pl2.pl_flags PL_FLAG_FORKED = true)
    (hchild : pl2.pl_child_pid = cptid.pid)
    (hkp : env.sysctl_kern_proc_pid k2 cptid.pid = some kp) (fuel fuel2 : Nat) :
    (fbsd_wait env (fuel + 2) ptid opts w).2.kern = k2 ∧
    (fbsd_wait env (fuel + 2) ptid opts w).2.fbsd_pending_children
      = w.fbsd_pending_children ∧
    (env.super_wait k2 (pid_to_ptid cptid.pid) opts2 = none →
      (fbsd_wait env (fuel2 + 1) (pid_to_ptid cptid.pid) opts2
        (fbsd_wait env (fuel + 2) ptid opts w).2).1 = Outcome.blocked) ∧
    (∀ wp s k3 plx, env.super_wait k2 (pid_to_ptid cptid.pid) opts2 = some (wp, s, k3) →
      s.kind = target_waitkind.STOPPED →
      env.ptrace_lwpinfo k3 wp.pid = some plx →
      flag_set plx.pl_flags PL_FLAG_FORKED = false →
      flag_set plx.pl_flags PL_FLAG_CHILD = false →
      flag_set plx.pl_flags PL_FLAG_EXEC = false →
      flag_set plx.pl_flags PL_FLAG_BORN = false →
      flag_set plx.pl_flags PL_FLAG_EXITED = false →
      (fbsd_wait env (fuel2 + 1) (pid_to_ptid cptid.pid) opts2
        (fbsd_wait env (fuel + 2) ptid opts w).2).1 = Outcome.ok (wp, s)) := by
  rw [fbsd_wait_child_first_run env w ptid opts cptid pptid st1 st2 k1 k2 pl1 pl2 kp
    hw1 hst1 hpl1 hnf hch hw2 hst2 hpl2 hf hchild hkp fuel]
  refine ⟨rfl, rfl, ?_, ?_⟩
  · intro hnone
    simp [fbsd_wait, bind_run, M.bind, super_wait, hnone]
  · intro wp s k3 plx hw3 hs hplx h1 h2 h3 h4 h5
    simp [fbsd_wait, bind_run, M.bind, super_wait, hw3, hs, ptrace_lwpinfo_call, hplx,
      ptid_get_pid, h1, h2, h3, h4, h5, pure_run]

theorem fbsd_wait_child_stop_not_redelivered_witness :
    (fbsd_wait sim_env (0 + 2) minus_one_ptid 0 sim_world_child_first).2.kern
      = ⟨[], [sim_parent_stop, sim_child_stop], [], []⟩ ∧
    (sim_env.super_wait ⟨[], [sim_parent_stop, sim_child_stop], [], []⟩
        (pid_to_ptid 20) 0 = none →
      (fbsd_wait sim_env (0 + 1) (pid_to_ptid 20) 0
        (fbsd_wait sim_env (0 + 2) minus_one_ptid 0 sim_world_child_first).2).1
        = Outcome.blocked) :=
  have h := fbsd_wait_child_stop_not_redelivered sim_env sim_world_child_first
    minus_one_ptid 0 0 ⟨20, 0, 0⟩ ⟨10, 0, 0⟩ sim_stopped sim_stopped
    ⟨[sim_parent_stop], [sim_child_stop], [], []⟩
    ⟨[], [sim_parent_stop, sim_child_stop], [], []⟩
    sim_child_stop.pl sim_parent_stop.pl ⟨0⟩
    (by decide) (by decide) (by decide) (by decide) (by decide) (by decide) (by decide)
    (by decide) (by decide) (by decide) (by decide) 0 0
  ⟨h.1, h.2.2.1⟩

/-! ## Wait: thread events -/

theorem quiet_of_calls_eq {σ α : Type} (m : M σ α)
    (h1 : ∀ w, (m w).1 ≠ Outcome.out_of_fuel) (h2 : ∀ w, (m w).2.calls = w.calls) :
    quiet m := fun w => ⟨h1 w, [], by simp [h2 w], by simp⟩

theorem quiet_pure {σ α : Type} (a : α) : quiet (pure a : M σ α) :=
  quiet_of_calls_eq _ (fun _ => by simp [pure_run]) (fun _ => rfl)

theorem quiet_bind {σ α β : Type} (m : M σ α) (f : α → M σ β)
    (hm : quiet m) (hf : ∀ a, quiet (f a)) : quiet (m >>= f) := by
  intro w
  obtain ⟨hm1, made, hm2, hm3⟩ := hm w
  rw [bind_run]
  unfold M.bind
  cases hmw : m w with
  | mk o w1 =>
    rw [hmw] at hm1 hm2
    cases o with
    | ok a =>
        obtain ⟨hf1, made1, hf2, hf3⟩ := hf a w1
        refine ⟨hf1, made ++ made1, ?_, ?_⟩
        · simp only at hm2
          simp [hf2, hm2]
        · intro p o hmem
          rcases List.mem_append.mp hmem with h | h
          · exact hm3 p o h
          · exact hf3 p o h
    | error e => exact ⟨by simp, made, hm2, hm3⟩
    | assert_fail => exact ⟨by simp, made, hm2, hm3⟩
    | blocked => exact ⟨by simp, made, hm2, hm3⟩
    | null_deref => exact ⟨by simp, made, hm2, hm3⟩
    | out_of_fuel => exact absurd rfl hm1

theorem quiet_perror {σ α : Type} (c : failed_call) :
    quiet (perror_with_name c : M σ α) :=
  quiet_of_calls_eq _ (fun _ => by simp [perror_with_name]) (fun _ => rfl)

theorem quiet_gdb_assert {σ : Type} (b : Bool) : quiet (gdb_assert b : M σ Unit) :=
  quiet_of_calls_eq _ (fun _ => by cases b <;> simp [gdb_assert])
    (fun _ => by cases b <;> simp [gdb_assert])

theorem quiet_get_world {σ : Type} : quiet (get_world : M σ (World σ)) :=
  quiet_of_calls_eq _ (fun _ => by simp [get_world]) (fun _ => rfl)

theorem quiet_in_thread_list {σ : Type} (ptid : ptid_t) :
    quiet (in_thread_list ptid : M σ Bool) :=
  quiet_of_calls_eq _ (fun _ => by simp [in_thread_list]) (fun _ => rfl)

theorem quiet_add_thread {σ : Type} (ptid : ptid_t) : quiet (add_thread ptid : M σ Unit) :=
  quiet_of_calls_eq _ (fun _ => by simp [add_thread]) (fun _ => rfl)

theorem quiet_delete_thread {σ : Type} (ptid : ptid_t) :
    quiet (delete_thread ptid : M σ Unit) :=
  quiet_of_calls_eq _ (fun _ => by simp [delete_thread]) (fun _ => rfl)

theorem quiet_thread_change_ptid {σ : Type} (a b : ptid_t) :
    quiet (thread_change_ptid a b : M σ Unit) :=
  quiet_of_calls_eq _
    (fun w => by unfold thread_change_ptid; split <;> simp)
    (fun w => by unfold thread_change_ptid; split <;> simp)

theorem quiet_ptrace_lwpinfo_call {σ : Type} (env : target_env σ) (id : Int) :
    quiet (ptrace_lwpinfo_call env id) := fun w =>
  ⟨by simp [ptrace_lwpinfo_call], [Call.ptrace ptrace_request.PT_LWPINFO id 0 0],
    by simp [ptrace_lwpinfo_call], by simp⟩

theorem quiet_ptrace_getnumlwps_call {σ : Type} (env : target_env σ) (pid : Int) :
    quiet (ptrace_getnumlwps_call env pid) := fun w =>
  ⟨by simp [ptrace_getnumlwps_call], [Call.ptrace ptrace_request.PT_GETNUMLWPS pid 0 0],
    by simp [ptrace_getnumlwps_call], by simp⟩

theorem quiet_ptrace_getlwplist_call {σ : Type} (env : target_env σ) (pid : Int) (n : Nat) :
    quiet (ptrace_getlwplist_call env pid n) := fun w =>
  ⟨by simp [ptrace_getlwplist_call], [Call.ptrace ptrace_request.PT_GETLWPLIST pid 0 n],
    by simp [ptrace_getlwplist_call], by simp⟩

theorem quiet_fetch_lwpinfos {σ : Type} (env : target_env σ) (lwps : List Int) :
    quiet (fetch_lwpinfos env lwps) := by
  induction lwps with
  | nil => exact quiet_pure _
  | cons lwp rest ih =>
      unfold fetch_lwpinfos
      refine quiet_bind _ _ (quiet_ptrace_lwpinfo_call env lwp) ?_
      intro r
      cases r with
      | none => exact quiet_perror _
      | some pl => exact quiet_bind _ _ ih (fun _ => quiet_pure _)

theorem quiet_switch_candidate_loop {σ : Type} (pid : Int)
    (l : List (Int × ptrace_lwpinfo)) : quiet (switch_candidate_loop pid l : M σ Unit) := by
  induction l with
  | nil => exact quiet_pure _
  | cons a rest ih =>
      obtain ⟨lwp, pl⟩ := a
      unfold switch_candidate_loop
      simp only
      split
      · exact ih
      · refine quiet_bind _ _ (quiet_in_thread_list _) (fun b => ?_)
        refine quiet_bind _ _ (quiet_gdb_assert _) (fun _ => ?_)
        exact quiet_bind _ _ quiet_get_world (fun _ => quiet_thread_change_ptid _ _)

theorem quiet_switch_add_loop {σ : Type} (pid : Int)
    (l : List (Int × ptrace_lwpinfo)) : quiet (switch_add_loop pid l : M σ Unit) := by
  induction l with
  | nil => exact quiet_pure _
  | cons a rest ih =>
      obtain ⟨lwp, pl⟩ := a
      unfold switch_add_loop
      simp only
      split
      · exact ih
      · refine quiet_bind _ _ quiet_get_world (fun w1 => ?_)
        split
        · refine quiet_bind _ _ (quiet_in_thread_list _) (fun b => ?_)
          refine quiet_bind _ _ (quiet_gdb_assert _) (fun _ => ?_)
          exact quiet_bind _ _ (quiet_thread_change_ptid _ _) (fun _ => ih)
        · refine quiet_bind _ _ (quiet_in_thread_list _) (fun b => ?_)
          split
          · exact quiet_bind _ _ (quiet_add_thread _) (fun _ => ih)
          · exact quiet_bind _ _ (quiet_pure _) (fun _ => ih)

theorem quiet_fbsd_switch_to_threaded {σ : Type} (env : target_env σ) (pid : Int) :
    quiet (fbsd_switch_to_threaded env pid) := by
  unfold fbsd_switch_to_threaded
  refine quiet_bind _ _ (quiet_ptrace_getnumlwps_call env pid) (fun nlwps => ?_)
  cases nlwps with
  | none => exact quiet_perror _
  | some n =>
      refine quiet_bind _ _ (quiet_ptrace_getlwplist_call env pid n) (fun r => ?_)
      cases r with
      | none => exact quiet_perror _
      | some lwps =>
          refine quiet_bind _ _ (quiet_fetch_lwpinfos env lwps) (fun pl => ?_)
          exact quiet_bind _ _ (quiet_switch_candidate_loop pid _)
            (fun _ => quiet_switch_add_loop pid _)

theorem quiet_thread_event_update {σ : Type} (env : target_env σ) (pid : Int)
    (pl : ptrace_lwpinfo) : quiet (thread_event_update env pid pl) := by
  unfold thread_event_update
  split
  · refine quiet_bind _ _ quiet_get_world (fun w1 => ?_)
    split
    · refine quiet_bind _ _ (quiet_in_thread_list _) (fun b => ?_)
      exact quiet_bind _ _ (quiet_gdb_assert _) (fun _ => quiet_add_thread _)
    · exact quiet_fbsd_switch_to_threaded env pid
  · refine quiet_bind _ _ (quiet_in_thread_list _) (fun b => ?_)
    exact quiet_bind _ _ (quiet_gdb_assert _) (fun _ => quiet_delete_thread _)

/-- The run of `fbsd_wait` on a stop it classifies as thread-created or
thread-exited: the thread-table update, then the return of the raw ptid with
the kind set to `IGNORE`. -/
theorem fbsd_wait_thread_event_run {σ : Type} (env : target_env σ) (w : World σ)
    (ptid : ptid_t) (opts : Int) (wptid : ptid_t) (st : target_waitstatus) (k1 : σ)
    (pl : ptrace_lwpinfo) (fuel : Nat)
    (hw1 : env.super_wait w.kern ptid opts = some (wptid, st, k1))
    (hst : st.kind = target_waitkind.STOPPED)
    (hpl : env.ptrace_lwpinfo k1 wptid.pid = some pl)
    (h1 : flag_set pl.pl_flags PL_FLAG_FORKED = false)
    (h2 : flag_set pl.pl_flags PL_FLAG_CHILD = false)
    (h3 : flag_set pl.pl_flags PL_FLAG_EXEC = false)
    (hev : flag_set pl.pl_flags PL_FLAG_BORN = true
      ∨ flag_set pl.pl_flags PL_FLAG_EXITED = true) :
    fbsd_wait env (fuel + 1) ptid opts w
      = (thread_event_update env wptid.pid pl >>= fun _ =>
          pure (wptid, { st with kind := target_waitkind.IGNORE }))
        { w with
          kern := k1,
          calls := w.calls ++
            [Call.super_wait ptid opts,
             Call.ptrace ptrace_request.PT_LWPINFO wptid.pid 0 0] } := by
  cases hb : flag_set pl.pl_flags PL_FLAG_BORN with
  | true =>
      cases hl : ptid_lwp_p w.inferior_ptid with
      | false =>
          simp [fbsd_wait, thread_event_update, bind_run, M.bind, super_wait, hw1, hst,
            ptrace_lwpinfo_call, hpl, ptid_get_pid, h1, h2, h3, hb, hl, get_world, pure_run]
      | true =>
          cases hany : w.thread_list.any
              (fun tp => tp.ptid = ptid_build wptid.pid pl.pl_lwpid 0) <;>
            simp [fbsd_wait, thread_event_update, bind_run, M.bind, super_wait, hw1, hst,
              ptrace_lwpinfo_call, hpl, ptid_get_pid, h1, h2, h3, hb, hl, get_world, pure_run,
              in_thread_list, gdb_assert, add_thread, hany, -List.any_eq_false,
              -List.any_eq_true]
  | false =>
      have he : flag_set pl.pl_flags PL_FLAG_EXITED = true := by
        rcases hev with h | h
        · rw [hb] at h; cases h
        · exact h
      cases hany : w.thread_list.any
          (fun tp => tp.ptid = ptid_build wptid.pid pl.pl_lwpid 0) <;>
        simp [fbsd_wait, thread_event_update, bind_run, M.bind, super_wait, hw1, hst,
          ptrace_lwpinfo_call, hpl, ptid_get_pid, h1, h2, h3, hb, he, pure_run,
          in_thread_list, gdb_assert, delete_thread, hany, -List.any_eq_false,
          -List.any_eq_true]

/-- C10, as stated, fails: on a thread-created stop `fbsd_wait` returns to its
caller with status kind `IGNORE`, after a single call of the wait primitive. -/
theorem fbsd_wait_returns_ignore :
    (fbsd_wait sim_env 3 minus_one_ptid 0 sim_world_born).1
      = Outcome.ok (⟨10, 100, 0⟩, ⟨target_waitkind.IGNORE, waitstatus_value.sig 5⟩) ∧
    (fbsd_wait sim_env 3 minus_one_ptid 0 sim_world_born).2.calls
      = [Call.super_wait minus_one_ptid 0, Call.ptrace ptrace_request.PT_LWPINFO 10 0 0] ∧
    (fbsd_wait sim_env 3 minus_one_ptid 0 sim_world_born).2.thread_list
      = [⟨⟨10, 101, 0⟩⟩, ⟨⟨10, 100, 0⟩⟩] := by
  decide

/-- C10, amended: for every raw stop that `fbsd_wait` classifies as
thread-created or thread-exited, `fbsd_wait` does not go back to the wait
primitive: the call of `super_wait` that delivered the stop is the only one, the
iteration bound is never reached, and whenever `fbsd_wait` returns it returns
the raw ptid with the raw status whose kind is set to `IGNORE`.  It does return
for a thread-created stop of a threaded process whose new thread is not yet in
the table, and for a thread-exited stop of a thread that is in the table. -/
theorem fbsd_wait_thread_event_ignore {σ : Type} (env : target_env σ) (w : World σ)
    (ptid : ptid_t) (opts : Int) (wptid : ptid_t) (st : target_waitstatus) (k1 : σ)
    (pl : ptrace_lwpinfo) (fuel : Nat)
    (hw1 : env.super_wait w.kern ptid opts = some (wptid, st, k1))
    (hst : st.kind = target_waitkind.STOPPED)
    (hpl : env.ptrace_lwpinfo k1 wptid.pid = some pl)
    (h1 : flag_set pl.pl_flags PL_FLAG_FORKED = false)
    (h2 : flag_set pl.pl_flags PL_FLAG_CHILD = false)
    (h3 : flag_set pl.pl_flags PL_FLAG_EXEC = false)
    (hev : flag_set pl.pl_flags PL_FLAG_BORN = true
      ∨ flag_set pl.pl_flags PL_FLAG_EXITED = true) :
    (∃ rest : List Call,
      (fbsd_wait env (fuel + 1) ptid opts w).2.calls
        = w.calls ++ Call.super_wait ptid opts :: rest ∧
      ∀ p o, Call.super_wait p o ∉ rest) ∧
    (fbsd_wait env (fuel + 1) ptid opts w).1 ≠ Outcome.out_of_fuel ∧
    (∀ wp s, (fbsd_wait env (fuel + 1) ptid opts w).1 = Outcome.ok (wp, s) →
      wp = wptid ∧ s = { st with kind := target_waitkind.IGNORE }) ∧
    (flag_set pl.pl_flags PL_FLAG_BORN = true → ptid_lwp_p w.inferior_ptid = true →
      (w.thread_list.any (fun tp => tp.ptid = ptid_build wptid.pid pl.pl_lwpid 0)) = false →
      (fbsd_wait env (fuel + 1) ptid opts w).1
        = Outcome.ok (wptid, { st with kind := target_waitkind.IGNORE })) ∧
    (flag_set pl.pl_flags PL_FLAG_BORN = false →
      (w.thread_list.any (fun tp => tp.ptid = ptid_build wptid.pid pl.pl_lwpid 0)) = true →
      (fbsd_wait env (fuel + 1) ptid opts w).1
        = Outcome.ok (wptid, { st with kind := target_waitkind.IGNORE })) := by
  have hrun := fbsd_wait_thread_event_run env w ptid opts wptid st k1 pl fuel
    hw1 hst hpl h1 h2 h3 hev
  have hq := quiet_bind _ _ (quiet_thread_event_update env wptid.pid pl)
    (fun _ => quiet_pure (wptid, { st with kind := target_waitkind.IGNORE }))
    { w with
      kern := k1,
      calls := w.calls ++
        [Call.super_wait ptid opts, Call.ptrace ptrace_request.PT_LWPINFO wptid.pid 0 0] }
  rw [← hrun] at hq
  obtain ⟨hq1, made, hq2, hq3⟩ := hq
  refine ⟨⟨Call.ptrace ptrace_request.PT_LWPINFO wptid.pid 0 0 :: made, ?_, ?_⟩, hq1,
    ?_, ?_, ?_⟩
  · simpa using hq2
  · intro p o hmem
    rcases List.mem_cons.mp hmem with h | h
    · cases h
    · exact hq3 p o h
  · intro wp s hok
    rw [hrun, bind_run] at hok
    unfold M.bind at hok
    revert hok
    cases thread_event_update env wptid.pid pl
      { w with
        kern := k1,
        calls := w.calls ++
          [Call.super_wait ptid opts,
           Call.ptrace ptrace_request.PT_LWPINFO wptid.pid 0 0] } with
    | mk o w2 =>
      cases o <;> simp [pure_run]
      intro ha hb
      exact ⟨ha.symm, hb.symm⟩
  · intro hb hl hnot
    rw [hrun]
    simp [thread_event_update, bind_run, M.bind, hb, hl, get_world, in_thread_list, hnot,
      gdb_assert, add_thread, pure_run, -List.any_eq_false]
  · intro hb hin
    rw [hrun]
    simp [thread_event_update, bind_run, M.bind, hb, in_thread_list, hin, gdb_assert,
      delete_thread, pure_run, -List.any_eq_true]

theorem fbsd_wait_thread_event_ignore_witness :
    (fbsd_wait sim_env (0 + 1) minus_one_ptid 0 sim_world_born).1 ≠ Outcome.out_of_fuel ∧
    (flag_set PL_FLAG_BORN PL_FLAG_BORN = true →
      ptid_lwp_p sim_world_born.inferior_ptid = true →
      (sim_world_born.thread_list.any (fun tp => tp.ptid = ptid_build 10 101 0)) = false →
      (fbsd_wait sim_env (0 + 1) minus_one_ptid 0 sim_world_born).1
        = Outcome.ok (⟨10, 100, 0⟩, { sim_stopped with kind := target_waitkind.IGNORE })) :=
  have h := fbsd_wait_thread_event_ignore sim_env sim_world_born minus_one_ptid 0
    ⟨10, 100, 0⟩ sim_stopped ⟨[], [sim_born_stop], [], [100, 101]⟩ sim_born_stop.pl 0
    (by decide) (by decide) (by decide) (by decide) (by decide) (by decide)
    (Or.inl (by decide))
  ⟨h.2.1, h.2.2.2.1⟩

/-! ## Wait: the other branches -/

/-- C12: for every thread-exited stop (a stop with `PL_FLAG_EXITED` and none
of the fork, child, exec and born flags) for (pid, lwp): when the ptid is in
the thread table, `fbsd_wait` returns the raw ptid with the kind set to
`IGNORE`, and the table is the old one without the entries of that ptid, every
other entry staying in place; when the ptid is not in the table, the outcome is
an assertion failure and the table is not modified. -/
theorem fbsd_wait_thread_exited {σ : Type} (env : target_env σ) (w : World σ)
    (ptid : ptid_t) (opts : Int) (wptid : ptid_t) (st : target_waitstatus) (k1 : σ)
    (pl : ptrace_lwpinfo) (fuel : Nat)
    (hw1 : env.super_wait w.kern ptid opts = some (wptid, st, k1))
    (hst : st.kind = target_waitkind.STOPPED)
    (hpl : env.ptrace_lwpinfo k1 wptid.pid = some pl)
    (h1 : flag_set pl.pl_flags PL_FLAG_FORKED = false)
    (h2 : flag_set pl.pl_flags PL_FLAG_CHILD = false)
    (h3 : flag_set pl.pl_flags PL_FLAG_EXEC = false)
    (hb : flag_set pl.pl_flags PL_FLAG_BORN = false)
    (he : flag_set pl.pl_flags PL_FLAG_EXITED = true) :
    ((w.thread_list.any (fun tp => tp.ptid = ptid_build wptid.pid pl.pl_lwpid 0)) = true →
      (fbsd_wait env (fuel + 1) ptid opts w).1
        = Outcome.ok (wptid, { st with kind := target_waitkind.IGNORE }) ∧
      (fbsd_wait env (fuel + 1) ptid opts w).2.thread_list
        = w.thread_list.filter (fun tp => tp.ptid ≠ ptid_build wptid.pid pl.pl_lwpid 0) ∧
      (∀ tp, tp ∈ (fbsd_wait env (fuel + 1) ptid opts w).2.thread_list ↔
        (tp ∈ w.thread_list ∧ tp.ptid ≠ ptid_build wptid.pid pl.pl_lwpid 0))) ∧
    ((w.thread_list.any (fun tp => tp.ptid = ptid_build wptid.pid pl.pl_lwpid 0)) = false →
      (fbsd_wait env (fuel + 1) ptid opts w).1 = Outcome.assert_fail ∧
      (fbsd_wait env (fuel + 1) ptid opts w).2.thread_list = w.thread_list) := by
  rw [fbsd_wait_thread_event_run env w ptid opts wptid st k1 pl fuel hw1 hst hpl h1 h2 h3
    (Or.inr he)]
  constructor
  · intro hin
    have hrun : (thread_event_update env wptid.pid pl >>= fun _ =>
        (pure (wptid, { st with kind := target_waitkind.IGNORE }) :
          M σ (ptid_t × target_waitstatus)))
        { w with
          kern := k1,
          calls := w.calls ++
            [Call.super_wait ptid opts,
             Call.ptrace ptrace_request.PT_LWPINFO wptid.pid 0 0] }
        = (Outcome.ok (wptid, { st with kind := target_waitkind.IGNORE }),
            { w with
              kern := k1,
              calls := w.calls ++
                [Call.super_wait ptid opts,
                 Call.ptrace ptrace_request.PT_LWPINFO wptid.pid 0 0],
              thread_list := w.thread_list.filter
                (fun tp => tp.ptid ≠ ptid_build wptid.pid pl.pl_lwpid 0) }) := by
      simp [thread_event_update, bind_run, M.bind, hb, in_thread_list, hin, gdb_assert,
        delete_thread, pure_run, -List.any_eq_true]
    rw [hrun]
    refine ⟨rfl, rfl, ?_⟩
    intro tp
    simp [List.mem_filter]
  · intro hnot
    have hrun : (thread_event_update env wptid.pid pl >>= fun _ =>
        (pure (wptid, { st with kind := target_waitkind.IGNORE }) :
          M σ (ptid_t × target_waitstatus)))
        { w with
          kern := k1,
          calls := w.calls ++
            [Call.super_wait ptid opts,
             Call.ptrace ptrace_request.PT_LWPINFO wptid.pid 0 0] }
        = (Outcome.assert_fail,
            { w with
              kern := k1,
              calls := w.calls ++
                [Call.super_wait ptid opts,
                 Call.ptrace ptrace_request.PT_LWPINFO wptid.pid 0 0] }) := by
      simp [thread_event_update, bind_run, M.bind, hb, in_thread_list, hnot, gdb_assert,
        -List.any_eq_false]
    rw [hrun]
    exact ⟨rfl, rfl⟩

theorem fbsd_wait_thread_exited_witness :
    (fbsd_wait sim_env (0 + 1) minus_one_ptid 0 sim_world_exited).1
      = Outcome.ok (⟨10, 100, 0⟩, { sim_stopped with kind := target_waitkind.IGNORE }) ∧
    (fbsd_wait sim_env (0 + 1) minus_one_ptid 0 sim_world_exited).2.thread_list
      = sim_world_exited.thread_list.filter (fun tp => tp.ptid ≠ ptid_build 10 101 0) :=
  have h := (fbsd_wait_thread_exited sim_env sim_world_exited minus_one_ptid 0
    ⟨10, 100, 0⟩ sim_stopped ⟨[], [sim_exited_stop], [], [100]⟩ sim_exited_stop.pl 0
    (by decide) (by decide) (by decide) (by decide) (by decide) (by decide) (by decide)
    (by decide)).1 (by decide)
  ⟨h.1, h.2.1⟩

/-- C13: for every raw notification of the wait primitive that is not of kind
`STOPPED`, or is a `STOPPED` whose trace information carries none of the fork,
child, exec, born and exited flags, `fbsd_wait` returns the ptid and the status
exactly as the primitive produced them, and leaves the Pending-Fork Registry,
the thread table and `inferior_ptid` unchanged. -/
theorem fbsd_wait_plain_passthrough {σ : Type} (env : target_env σ) (w : World σ)
    (ptid : ptid_t) (opts : Int) (wptid : ptid_t) (st : target_waitstatus) (k1 : σ)
    (fuel : Nat)
    (hw1 : env.super_wait w.kern ptid opts = some (wptid, st, k1))
    (hplain : st.kind ≠ target_waitkind.STOPPED ∨
      ∃ pl, env.ptrace_lwpinfo k1 wptid.pid = some pl ∧
        flag_set pl.pl_flags PL_FLAG_FORKED = false ∧
        flag_set pl.pl_flags PL_FLAG_CHILD = false ∧
        flag_set pl.pl_flags PL_FLAG_EXEC = false ∧
        flag_set pl.pl_flags PL_FLAG_BORN = false ∧
        flag_set pl.pl_flags PL_FLAG_EXITED = false) :
    (fbsd_wait env (fuel + 1) ptid opts w).1 = Outcome.ok (wptid, st) ∧
    (fbsd_wait env (fuel + 1) ptid opts w).2.fbsd_pending_children
      = w.fbsd_pending_children ∧
    (fbsd_wait env (fuel + 1) ptid opts w).2.thread_list = w.thread_list ∧
    (fbsd_wait env (fuel + 1) ptid opts w).2.inferior_ptid = w.inferior_ptid := by
  by_cases hst : st.kind = target_waitkind.STOPPED
  · rcases hplain with h | ⟨pl, hpl, h1, h2, h3, h4, h5⟩
    · exact absurd hst h
    · simp [fbsd_wait, bind_run, M.bind, super_wait, hw1, hst, ptrace_lwpinfo_call, hpl,
        ptid_get_pid, h1, h2, h3, h4, h5, pure_run]
  · simp [fbsd_wait, bind_run, M.bind, super_wait, hw1, hst, pure_run]

theorem fbsd_wait_plain_passthrough_witness :
    (fbsd_wait sim_env (0 + 1) minus_one_ptid 0 (sim_world_of [sim_plain_stop])).1
      = Outcome.ok (⟨10, 0, 0⟩, sim_stopped) ∧
    (fbsd_wait sim_env (0 + 1) minus_one_ptid 0
      (sim_world_of [sim_plain_stop])).2.fbsd_pending_children
      = (sim_world_of [sim_plain_stop]).fbsd_pending_children ∧
    (fbsd_wait sim_env (0 + 1) minus_one_ptid 0 (sim_world_of [sim_plain_stop])).2.thread_list
      = (sim_world_of [sim_plain_stop]).thread_list ∧
    (fbsd_wait sim_env (0 + 1) minus_one_ptid 0
      (sim_world_of [sim_plain_stop])).2.inferior_ptid
      = (sim_world_of [sim_plain_stop]).inferior_ptid :=
  fbsd_wait_plain_passthrough sim_env (sim_world_of [sim_plain_stop]) minus_one_ptid 0
    ⟨10, 0, 0⟩ sim_stopped ⟨[], [sim_plain_stop], [], []⟩ 0 (by decide)
    (Or.inr ⟨sim_plain_stop.pl, by decide, by decide, by decide, by decide, by decide,
      by decide⟩)

/-- C14: an exec stop of process 10 for which the executable-path query
yields no path: `fbsd_pid_to_exec_file` returns `NULL`, `xstrdup` dereferences
it, and `fbsd_wait` does not return an `EXECD` status.  With a path, the
status `EXECD` carrying that path is returned. -/
theorem fbsd_wait_exec_without_path :
    (fbsd_pid_to_exec_file sim_env 10 (sim_world_of [])).1 = Outcome.ok none ∧
    (fbsd_wait sim_env 1 minus_one_ptid 0 (sim_world_of [sim_exec_stop])).1
      = Outcome.null_deref ∧
    (fbsd_wait (sim_env_exec "/bin/ls") 1 minus_one_ptid 0
      (sim_world_of [sim_exec_stop])).1
      = Outcome.ok (⟨10, 0, 0⟩,
          ⟨target_waitkind.EXECD, waitstatus_value.execd_pathname "/bin/ls"⟩) := by
  refine ⟨rfl, rfl, rfl⟩

/-- C15: for every fork-completion stop, whether the child's stop was
delivered before it (first world) or is fetched by the nested wait (second
world), the returned kind is `VFORKED` exactly when the child's process flags
have `P_PPWAIT` and `FORKED` exactly when they have not, and the related pid
is the child's. -/
theorem fbsd_wait_fork_kind {σ : Type} (env : target_env σ)
    (wa wb : World σ) (ptid : ptid_t) (opts : Int) (cptid pptid : ptid_t)
    (st1 st2 st : target_waitstatus) (k1 k2 j1 j2 : σ) (pl1 pl2 pl plc : ptrace_lwpinfo)
    (kpa kpb : kinfo_proc)
    (hnot : cptid.pid ∉ wb.fbsd_pending_children)
    (hne : cptid.pid ≠ -1)
    (hw1 : env.super_wait wa.kern ptid opts = some (cptid, st1, k1))
    (hst1 : st1.kind = target_waitkind.STOPPED)
    (hpl1 : env.ptrace_lwpinfo k1 cptid.pid = some pl1)
    (hnf : flag_set pl1.pl_flags PL_FLAG_FORKED = false)
    (hch : flag_set pl1.pl_flags PL_FLAG_CHILD = true)
    (hw2 : env.super_wait k1 ptid opts = some (pptid, st2, k2))
    (hst2 : st2.kind = target_waitkind.STOPPED)
    (hpl2 : env.ptrace_lwpinfo k2 pptid.pid = some pl2)
    (hf : flag_set pl2.pl_flags PL_FLAG_FORKED = true)
    (hchild : pl2.pl_child_pid = cptid.pid)
    (hkpa : env.sysctl_kern_proc_pid k2 cptid.pid = some kpa)
    (hv1 : env.super_wait wb.kern ptid opts = some (pptid, st, j1))
    (hst : st.kind = target_waitkind.STOPPED)
    (hpl : env.ptrace_lwpinfo j1 pptid.pid = some pl)
    (hfb : flag_set pl.pl_flags PL_FLAG_FORKED = true)
    (hchildb : pl.pl_child_pid = cptid.pid)
    (hwp : env.waitpid j1 cptid.pid 0 = some (cptid.pid, j2))
    (hplc : env.ptrace_lwpinfo j2 cptid.pid = some plc)
    (hchb : flag_set plc.pl_flags PL_FLAG_CHILD = true)
    (hkpb : env.sysctl_kern_proc_pid j2 cptid.pid = some kpb)
    (fa fb : Nat) :
    ∃ sa sb : target_waitstatus,
      (fbsd_wait env (fa + 2) ptid opts wa).1 = Outcome.ok (pptid, sa) ∧
      (fbsd_wait env (fb + 1) ptid opts wb).1 = Outcome.ok (pptid, sb) ∧
      (sa.kind = target_waitkind.VFORKED ↔ flag_set kpa.ki_flag P_PPWAIT = true) ∧
      (sa.kind = target_waitkind.FORKED ↔ flag_set kpa.ki_flag P_PPWAIT = false) ∧
      sa.value = waitstatus_value.related_pid (pid_to_ptid cptid.pid) ∧
      (sb.kind = target_waitkind.VFORKED ↔ flag_set kpb.ki_flag P_PPWAIT = true) ∧
      (sb.kind = target_waitkind.FORKED ↔ flag_set kpb.ki_flag P_PPWAIT = false) ∧
      sb.value = waitstatus_value.related_pid (pid_to_ptid cptid.pid) := by
  rw [fbsd_wait_child_first_run env wa ptid opts cptid pptid st1 st2 k1 k2 pl1 pl2 kpa
    hw1 hst1 hpl1 hnf hch hw2 hst2 hpl2 hf hchild hkpa fa]
  rw [← hchildb] at hnot hne hwp hplc hkpb
  rw [fbsd_wait_parent_first_run env wb ptid opts pptid st j1 j2 pl plc kpb
    hv1 hst hpl hfb hnot hne hwp hplc hchb hkpb fb]
  refine ⟨fork_status kpa cptid.pid, fork_status kpb pl.pl_child_pid, rfl, rfl, ?_⟩
  cases ha : flag_set kpa.ki_flag P_PPWAIT <;> cases hb : flag_set kpb.ki_flag P_PPWAIT <;>
    simp [fork_status, ha, hb, hchildb]

theorem fbsd_wait_fork_kind_witness :
    ∃ sa sb : target_waitstatus,
      (fbsd_wait sim_env (0 + 2) minus_one_ptid 0
        (sim_world_vfork [sim_child_stop, sim_parent_stop])).1
        = Outcome.ok (⟨10, 0, 0⟩, sa) ∧
      (fbsd_wait sim_env (0 + 1) minus_one_ptid 0 sim_world_parent_first).1
        = Outcome.ok (⟨10, 0, 0⟩, sb) ∧
      (sa.kind = target_waitkind.VFORKED ↔ flag_set P_PPWAIT P_PPWAIT = true) ∧
      (sa.kind = target_waitkind.FORKED ↔ flag_set P_PPWAIT P_PPWAIT = false) ∧
      sa.value = waitstatus_value.related_pid (pid_to_ptid 20) ∧
      (sb.kind = target_waitkind.VFORKED ↔ flag_set 0 P_PPWAIT = true) ∧
      (sb.kind = target_waitkind.FORKED ↔ flag_set 0 P_PPWAIT = false) ∧
      sb.value = waitstatus_value.related_pid (pid_to_ptid 20) :=
  fbsd_wait_fork_kind sim_env (sim_world_vfork [sim_child_stop, sim_parent_stop])
    sim_world_parent_first minus_one_ptid 0 ⟨20, 0, 0⟩ ⟨10, 0, 0⟩
    sim_stopped sim_stopped sim_stopped
    ⟨[sim_parent_stop], [sim_child_stop], [20], []⟩
    ⟨[], [sim_parent_stop, sim_child_stop], [20], []⟩
    ⟨[sim_child_stop], [sim_parent_stop], [], []⟩
    ⟨[], [sim_child_stop, sim_parent_stop], [], []⟩
    sim_child_stop.pl sim_parent_stop.pl sim_parent_stop.pl sim_child_stop.pl
    ⟨P_PPWAIT⟩ ⟨0⟩
    (by decide) (by decide) (by decide) (by decide) (by decide) (by decide) (by decide)
    (by decide) (by decide) (by decide) (by decide) (by decide) (by decide) (by decide)
    (by decide) (by decide) (by decide) (by decide) (by decide) (by decide) (by decide)
    (by decide) 0 0

/-! ## Thread liveness -/

/-- C16, as stated, fails: for the process-only identifier of process 10, the
trace-information lookup fails (by thread id 0 as by process id), and
`fbsd_thread_alive` answers alive, without any kernel call. -/
theorem fbsd_thread_alive_process_only_alive :
    ptid_lwp_p (pid_to_ptid 10) = false ∧
    sim_env.ptrace_lwpinfo sim_idle (ptid_get_lwp (pid_to_ptid 10)) = none ∧
    sim_env.ptrace_lwpinfo sim_idle (ptid_get_pid (pid_to_ptid 10)) = none ∧
    fbsd_thread_alive sim_env (pid_to_ptid 10) (sim_world_of [])
      = (Outcome.ok 1, sim_world_of []) := by
  decide

/-- C16, amended: for every LWP-qualified tid, `fbsd_thread_alive` queries the
trace information of the LWP once and returns not-alive (0) exactly when the
lookup fails or reports the exited flag, and alive (1) otherwise; for every
process-only tid (thread id 0) it returns alive without querying the kernel. -/
theorem fbsd_thread_alive_spec {σ : Type} (env : target_env σ) (w : World σ)
    (ptid : ptid_t) :
    (ptid_lwp_p ptid = true →
      (fbsd_thread_alive env ptid w).1
        = Outcome.ok
            (match env.ptrace_lwpinfo w.kern ptid.lwp with
             | none => 0
             | some pl => if flag_set pl.pl_flags PL_FLAG_EXITED then 0 else 1) ∧
      ((fbsd_thread_alive env ptid w).1 = Outcome.ok 0 ↔
        (env.ptrace_lwpinfo w.kern ptid.lwp = none ∨
          ∃ pl, env.ptrace_lwpinfo w.kern ptid.lwp = some pl ∧
            flag_set pl.pl_flags PL_FLAG_EXITED = true)) ∧
      (fbsd_thread_alive env ptid w).2
        = { w with calls := w.calls ++ [Call.ptrace ptrace_request.PT_LWPINFO ptid.lwp 0 0] }) ∧
    (ptid_lwp_p ptid = false → fbsd_thread_alive env ptid w = (Outcome.ok 1, w)) := by
  constructor
  · intro hl
    cases hr : env.ptrace_lwpinfo w.kern ptid.lwp with
    | none =>
        simp [fbsd_thread_alive, hl, bind_run, M.bind, ptrace_lwpinfo_call, ptid_get_lwp, hr,
          pure_run]
    | some pl =>
        cases he : flag_set pl.pl_flags PL_FLAG_EXITED <;>
          simp [fbsd_thread_alive, hl, bind_run, M.bind, ptrace_lwpinfo_call, ptid_get_lwp,
            hr, he, pure_run]
  · intro hl
    simp [fbsd_thread_alive, hl, pure_run]

theorem fbsd_thread_alive_spec_witness :
    (fbsd_thread_alive (sim_env_lwp [⟨101, PL_FLAG_EXITED, 0⟩]) ⟨10, 101, 0⟩
      (sim_world_of [])).1 = Outcome.ok 0 ∧
    fbsd_thread_alive (sim_env_lwp [⟨101, PL_FLAG_EXITED, 0⟩]) (pid_to_ptid 10)
      (sim_world_of []) = (Outcome.ok 1, sim_world_of []) :=
  have h := fbsd_thread_alive_spec (sim_env_lwp [⟨101, PL_FLAG_EXITED, 0⟩])
    (sim_world_of []) ⟨10, 101, 0⟩
  have h0 := fbsd_thread_alive_spec (sim_env_lwp [⟨101, PL_FLAG_EXITED, 0⟩])
    (sim_world_of []) (pid_to_ptid 10)
  ⟨(h.1 (by decide)).1, h0.2 (by decide)⟩

/-! ## Fork following and attach -/

/-- C20: with the current thread in the thread table, `fbsd_follow_fork`
makes exactly one kernel call when `follow_child` is false (0), the request
`PT_DETACH` for the pid of the pending fork child, and ends with an error when
that request fails; it makes no call and changes nothing when `follow_child` is
true; the argument `detach_fork` has no influence; a returned value is 0. -/
theorem fbsd_follow_fork_spec {σ : Type} (env : target_env σ)
    (pending_related_pid : thread_info → ptid_t) (w : World σ)
    (follow_child detach_fork : Int) (tp : thread_info)
    (hcur : w.thread_list.find? (fun tp => tp.ptid = w.inferior_ptid) = some tp) :
    (follow_child = 0 →
      (fbsd_follow_fork env pending_related_pid follow_child detach_fork w).2.calls
        = w.calls ++ [Call.ptrace ptrace_request.PT_DETACH (pending_related_pid tp).pid 1 0] ∧
      (env.ptrace_set w.kern ptrace_request.PT_DETACH (pending_related_pid tp).pid 1 0 ≠ none →
        (fbsd_follow_fork env pending_related_pid follow_child detach_fork w).1
          = Outcome.ok 0) ∧
      (env.ptrace_set w.kern ptrace_request.PT_DETACH (pending_related_pid tp).pid 1 0 = none →
        (fbsd_follow_fork env pending_related_pid follow_child detach_fork w).1
          = Outcome.error failed_call.ptrace)) ∧
    (follow_child ≠ 0 →
      fbsd_follow_fork env pending_related_pid follow_child detach_fork w
        = (Outcome.ok 0, w)) ∧
    (∀ other : Int,
      fbsd_follow_fork env pending_related_pid follow_child other w
        = fbsd_follow_fork env pending_related_pid follow_child detach_fork w) ∧
    (∀ v, (fbsd_follow_fork env pending_related_pid follow_child detach_fork w).1
        = Outcome.ok v → v = 0) := by
  refine ⟨?_, ?_, ?_, ?_⟩
  · intro hf
    cases hd : env.ptrace_set w.kern ptrace_request.PT_DETACH (pending_related_pid tp).pid 1 0
      <;> simp [fbsd_follow_fork, hf, bind_run, M.bind, inferior_thread, hcur, ptrace,
        ptid_get_pid, hd, perror_with_name, pure_run]
  · intro hf
    simp [fbsd_follow_fork, hf, pure_run]
  · intro other
    rfl
  · intro v
    by_cases hf : follow_child = 0
    · cases hd : env.ptrace_set w.kern ptrace_request.PT_DETACH
          (pending_related_pid tp).pid 1 0
        <;> simp [fbsd_follow_fork, hf, bind_run, M.bind, inferior_thread, hcur, ptrace,
          ptid_get_pid, hd, perror_with_name, pure_run]
      intro h
      exact h.symm
    · simp [fbsd_follow_fork, hf, pure_run]
      intro h
      exact h.symm

theorem fbsd_follow_fork_spec_witness :
    (fbsd_follow_fork sim_env (fun _ => pid_to_ptid 20) 0 1 (sim_world_of [])).2.calls
      = (sim_world_of []).calls ++ [Call.ptrace ptrace_request.PT_DETACH 20 1 0] ∧
    fbsd_follow_fork sim_env (fun _ => pid_to_ptid 20) 1 1 (sim_world_of [])
      = (Outcome.ok 0, sim_world_of []) :=
  have h := fbsd_follow_fork_spec sim_env (fun _ => pid_to_ptid 20) (sim_world_of []) 0 1
    ⟨⟨10, 0, 0⟩⟩ (by decide)
  have h1 := fbsd_follow_fork_spec sim_env (fun _ => pid_to_ptid 20) (sim_world_of []) 1 1
    ⟨⟨10, 0, 0⟩⟩ (by decide)
  ⟨(h.1 rfl).1, h1.2.1 (by decide)⟩

theorem fbsd_thread_alive_run {σ : Type} (env : target_env σ) (ptid : ptid_t)
    (w : World σ) :
    ∃ made : List Call,
      (∀ c ∈ made, ∃ id, c = Call.ptrace ptrace_request.PT_LWPINFO id 0 0) ∧
      fbsd_thread_alive env ptid w
        = (Outcome.ok (if alive_test env w.kern ptid then 1 else 0),
            { w with calls := w.calls ++ made }) := by
  cases hl : ptid_lwp_p ptid with
  | false =>
      refine ⟨[], by simp, ?_⟩
      simp [fbsd_thread_alive, alive_test, hl, pure_run]
  | true =>
      refine ⟨[Call.ptrace ptrace_request.PT_LWPINFO ptid.lwp 0 0], by simp, ?_⟩
      cases hr : env.ptrace_lwpinfo w.kern ptid.lwp with
      | none =>
          simp [fbsd_thread_alive, alive_test, hl, bind_run, M.bind, ptrace_lwpinfo_call,
            ptid_get_lwp, hr, pure_run]
      | some pl =>
          cases he : flag_set pl.pl_flags PL_FLAG_EXITED <;>
            simp [fbsd_thread_alive, alive_test, hl, bind_run, M.bind, ptrace_lwpinfo_call,
              ptid_get_lwp, hr, he, pure_run]

/-- The walk of `prune_threads` over a list of entries deletes from the table
the entries whose identifier is that of a dead entry of the list. -/
theorem prune_threads_from_run {σ : Type} (env : target_env σ) (l : List thread_info)
    (w : World σ) :
    ∃ made : List Call,
      (∀ c ∈ made, ∃ id, c = Call.ptrace ptrace_request.PT_LWPINFO id 0 0) ∧
      prune_threads_from env l w
        = (Outcome.ok (),
            { w with
              calls := w.calls ++ made,
              thread_list := w.thread_list.filter (fun tp =>
                !(l.any (fun x => decide (x.ptid = tp.ptid)
                    && !alive_test env w.kern x.ptid))) }) := by
  induction l generalizing w with
  | nil =>
      refine ⟨[], by simp, ?_⟩
      simp [prune_threads_from, pure_run]
  | cons x rest ih =>
      obtain ⟨m1, hm1, h1⟩ := fbsd_thread_alive_run env x.ptid w
      have hmem : ∀ m2 : List Call,
          (∀ c ∈ m2, ∃ id, c = Call.ptrace ptrace_request.PT_LWPINFO id 0 0) →
          ∀ c ∈ m1 ++ m2, ∃ id, c = Call.ptrace ptrace_request.PT_LWPINFO id 0 0 := by
        intro m2 hm2 c hc
        rcases List.mem_append.mp hc with h | h
        · exact hm1 c h
        · exact hm2 c h
      cases ha : alive_test env w.kern x.ptid with
      | true =>
          obtain ⟨m2, hm2, h2⟩ := ih { w with calls := w.calls ++ m1 }
          refine ⟨m1 ++ m2, hmem m2 hm2, ?_⟩
          rw [prune_threads_from, bind_ok _ _ w _ _ h1]
          simp only [ha, if_true]
          rw [if_neg (by decide), h2]
          simp [ha]
      | false =>
          obtain ⟨m2, hm2, h2⟩ := ih
            { w with
              calls := w.calls ++ m1,
              thread_list := w.thread_list.filter (fun tp => tp.ptid ≠ x.ptid) }
          refine ⟨m1 ++ m2, hmem m2 hm2, ?_⟩
          rw [prune_threads_from, bind_ok _ _ w _ _ h1]
          simp only [ha, Bool.false_eq_true, if_false, if_true]
          rw [bind_ok _ _ _ _ () (rfl : delete_thread x.ptid { w with calls := w.calls ++ m1 }
            = (Outcome.ok (), _)), h2]
          simp [ha, List.filter_filter, Bool.and_comm, eq_comm]

/-- The run of `prune_threads`: the entries that `fbsd_thread_alive` reports
dead are deleted; nothing else is written. -/
theorem prune_threads_run {σ : Type} (env : target_env σ) (w : World σ) :
    ∃ made : List Call,
      (∀ c ∈ made, ∃ id, c = Call.ptrace ptrace_request.PT_LWPINFO id 0 0) ∧
      prune_threads env w
        = (Outcome.ok (),
            { w with
              calls := w.calls ++ made,
              thread_list := w.thread_list.filter
                (fun tp => alive_test env w.kern tp.ptid) }) := by
  obtain ⟨made, hmade, h⟩ := prune_threads_from_run env w.thread_list w
  refine ⟨made, hmade, ?_⟩
  rw [prune_threads, h]
  congr 2
  apply List.filter_congr
  intro tp htp
  cases ha : alive_test env w.kern tp.ptid with
  | true =>
      simp only [Bool.not_eq_true', List.any_eq_false]
      intro x _
      by_cases hx : x.ptid = tp.ptid
      · simp [hx, ha]
      · simp [hx]
  | false =>
      simp only [Bool.not_eq_false', List.any_eq_true]
      exact ⟨tp, htp, by simp [ha]⟩

theorem fbsd_update_thread_list_polling_has_execution {σ : Type} (env : target_env σ)
    (w : World σ) :
    fbsd_update_thread_list_polling env true w = (Outcome.assert_fail, w) := by
  simp [fbsd_update_thread_list_polling, bind_run, M.bind, get_world, gdb_assert]

/-- The run of the polling `fbsd_update_thread_list` on a process of one LWP
whose `inferior_ptid` is process-only: the prune, the count, and the return. -/
theorem fbsd_update_thread_list_polling_single_run {σ : Type} (env : target_env σ)
    (w : World σ)
    (hn : env.ptrace_getnumlwps w.kern (ptid_get_pid w.inferior_ptid) = some 1)
    (hp : ptid_lwp_p w.inferior_ptid = false) :
    ∃ m1 : List Call,
      (∀ c ∈ m1, ∃ id, c = Call.ptrace ptrace_request.PT_LWPINFO id 0 0) ∧
      fbsd_update_thread_list_polling env false w
        = (Outcome.ok (),
            { w with
              calls := w.calls ++
                (m1 ++ [Call.ptrace ptrace_request.PT_GETNUMLWPS w.inferior_ptid.pid 0 0]),
              thread_list :=
                w.thread_list.filter (fun tp => alive_test env w.kern tp.ptid) }) := by
  obtain ⟨m1, hm1, hpr⟩ := prune_threads_run env w
  have hn1 : env.ptrace_getnumlwps w.kern w.inferior_ptid.pid = some 1 := hn
  refine ⟨m1, hm1, ?_⟩
  simp [fbsd_update_thread_list_polling, bind_run, M.bind, get_world, gdb_assert, hpr,
    ptrace_getnumlwps_call, ptid_get_pid, hn1, hp, pure_run]

/-- C18: in the polling `fbsd_update_thread_list`, when the kernel reports
exactly one LWP and `inferior_ptid` is process-only, the call adds no thread,
does not reassign `inferior_ptid` and makes no enumeration: the table is the old
one (when the assertion on `target_has_execution` fails) or the old one
without the LWP-qualified entries that `fbsd_thread_alive` reports dead.  No
process-only entry is removed, so the entries of a process that has only
process-only entries are exactly those before the call. -/
theorem fbsd_update_thread_list_polling_single {σ : Type} (env : target_env σ)
    (target_has_execution : Bool) (w : World σ)
    (hn : env.ptrace_getnumlwps w.kern (ptid_get_pid w.inferior_ptid) = some 1)
    (hp : ptid_lwp_p w.inferior_ptid = false) :
    (fbsd_update_thread_list_polling env target_has_execution w).2.inferior_ptid
      = w.inferior_ptid ∧
    (fbsd_update_thread_list_polling env target_has_execution w).2.thread_list
      = (if target_has_execution then w.thread_list
         else w.thread_list.filter (fun tp => alive_test env w.kern tp.ptid)) ∧
    (fbsd_update_thread_list_polling env target_has_execution w).1
      = (if target_has_execution then Outcome.assert_fail else Outcome.ok ()) ∧
    (∀ tp, tp ∈ (fbsd_update_thread_list_polling env target_has_execution w).2.thread_list →
      tp ∈ w.thread_list) ∧
    (∀ tp ∈ w.thread_list, ptid_lwp_p tp.ptid = false →
      tp ∈ (fbsd_update_thread_list_polling env target_has_execution w).2.thread_list) ∧
    ((∀ tp ∈ w.thread_list,
        tp.ptid.pid = w.inferior_ptid.pid → ptid_lwp_p tp.ptid = false) →
      (fbsd_update_thread_list_polling env target_has_execution w).2.thread_list.filter
          (fun tp => tp.ptid.pid = w.inferior_ptid.pid)
        = w.thread_list.filter (fun tp => tp.ptid.pid = w.inferior_ptid.pid)) ∧
    (∀ pid a d, Call.ptrace ptrace_request.PT_GETLWPLIST pid a d ∉ w.calls →
      Call.ptrace ptrace_request.PT_GETLWPLIST pid a d
        ∉ (fbsd_update_thread_list_polling env target_has_execution w).2.calls) := by
  cases target_has_execution with
  | true =>
      rw [fbsd_update_thread_list_polling_has_execution]
      refine ⟨rfl, rfl, rfl, fun _ h => h, fun _ h _ => h, fun _ => rfl, fun _ _ _ h => h⟩
  | false =>
      obtain ⟨m1, hm1, hrun⟩ := fbsd_update_thread_list_polling_single_run env w hn hp
      have halive : ∀ tp : thread_info, ptid_lwp_p tp.ptid = false →
          alive_test env w.kern tp.ptid = true := by
        intro tp h
        simp [alive_test, h]
      rw [hrun]
      refine ⟨rfl, rfl, rfl, ?_, ?_, ?_, ?_⟩
      · intro tp h
        exact (List.mem_filter.mp h).1
      · intro tp h hl
        exact List.mem_filter.mpr ⟨h, halive tp hl⟩
      · intro hall
        simp only [List.filter_filter]
        apply List.filter_congr
        intro tp htp
        by_cases hpid : tp.ptid.pid = w.inferior_ptid.pid
        · simp [hpid, halive tp (hall tp htp hpid)]
        · simp [hpid]
      · intro pid a d hnot hmem
        simp only [List.mem_append] at hmem
        rcases hmem with h | h | h
        · exact hnot h
        · obtain ⟨id, hid⟩ := hm1 _ h
          cases hid
        · simp at h

theorem fbsd_update_thread_list_polling_single_witness :
    (fbsd_update_thread_list_polling sim_env false sim_world_single).2.inferior_ptid
      = sim_world_single.inferior_ptid ∧
    (fbsd_update_thread_list_polling sim_env false sim_world_single).2.thread_list
      = sim_world_single.thread_list ∧
    (fbsd_update_thread_list_polling sim_env false sim_world_single).1 = Outcome.ok () :=
  have h := fbsd_update_thread_list_polling_single sim_env false sim_world_single
    (by decide) (by decide)
  ⟨h.1, h.2.1, h.2.2.1⟩

/-- The table that `add_missing` builds is the old table below the new
entries. -/
theorem add_missing_append (ps : List ptid_t) (t : List thread_info) :
    ∃ added : List thread_info, add_missing ps t = added ++ t ∧
      ∀ tp ∈ added, tp.ptid ∈ ps := by
  induction ps generalizing t with
  | nil => exact ⟨[], rfl, by simp⟩
  | cons q rest ih =>
      unfold add_missing
      split
      · obtain ⟨added, h1, h2⟩ := ih t
        exact ⟨added, h1, fun tp h => List.mem_cons_of_mem _ (h2 tp h)⟩
      · obtain ⟨added, h1, h2⟩ := ih (⟨q⟩ :: t)
        refine ⟨added ++ [⟨q⟩], by simp [h1], ?_⟩
        intro tp h
        rcases List.mem_append.mp h with h | h
        · exact List.mem_cons_of_mem _ (h2 tp h)
        · simp at h
          simp [h]

theorem fetch_lwpinfos_run {σ : Type} (env : target_env σ) (lwps : List Int)
    (pls : List ptrace_lwpinfo) (w : World σ) (h : lwpinfos env w.kern lwps = some pls) :
    fetch_lwpinfos env lwps w
      = (Outcome.ok pls,
          { w with calls := w.calls
              ++ lwps.map (fun lwp => Call.ptrace ptrace_request.PT_LWPINFO lwp 0 0) }) := by
  induction lwps generalizing w pls with
  | nil =>
      simp only [lwpinfos, Option.some.injEq] at h
      subst h
      simp [fetch_lwpinfos, pure_run]
  | cons lwp rest ih =>
      cases h1 : env.ptrace_lwpinfo w.kern lwp with
      | none => simp [lwpinfos, h1] at h
      | some pl =>
          cases h2 : lwpinfos env w.kern rest with
          | none => simp [lwpinfos, h1, h2] at h
          | some pls1 =>
              simp only [lwpinfos, h1, h2, Option.some.injEq] at h
              subst h
              have ih1 := ih pls1
                { w with calls := w.calls ++ [Call.ptrace ptrace_request.PT_LWPINFO lwp 0 0] }
                h2
              simp [fetch_lwpinfos, bind_run, M.bind, ptrace_lwpinfo_call, h1, ih1, pure_run]

/-- The candidate loop of `fbsd_switch_to_threaded` reassigns `inferior_ptid`
once, to the first LWP its test does not skip. -/
theorem switch_candidate_loop_run {σ : Type} (pid : Int) (l : List (Int × ptrace_lwpinfo))
    (c : Int) (w : World σ) (hcand : first_candidate l = some c)
    (hnew : w.thread_list.any (fun tp => tp.ptid = ptid_build pid c 0) = false)
    (hin : w.thread_list.any (fun tp => tp.ptid = w.inferior_ptid) = true) :
    (switch_candidate_loop pid l : M σ Unit) w
      = (Outcome.ok (),
          { w with
            thread_list := w.thread_list.map (fun tp =>
              if tp.ptid = w.inferior_ptid then ⟨ptid_build pid c 0⟩ else tp),
            inferior_ptid := ptid_build pid c 0 }) := by
  induction l with
  | nil => simp [first_candidate] at hcand
  | cons a rest ih =>
      obtain ⟨lwp, pl⟩ := a
      by_cases hskip : (and_of_ne pl.pl_flags (PL_FLAG_BORN ||| PL_FLAG_EXITED) != 0) = true
      · have hc1 : first_candidate rest = some c := by
          simpa [first_candidate, hskip] using hcand
        simp only [switch_candidate_loop, hskip, if_true]
        exact ih hc1
      · have hc1 : lwp = c := by
          simpa [first_candidate, hskip] using hcand
        subst hc1
        simp [switch_candidate_loop, hskip, bind_run, M.bind, in_thread_list, hnew,
          gdb_assert, get_world, thread_change_ptid, hin, -List.any_eq_true,
          -List.any_eq_false]

/-- With a thread-qualified `inferior_ptid` the last loop of
`fbsd_switch_to_threaded` only enters the LWPs it does not skip and that have
no entry yet. -/
theorem switch_add_loop_run {σ : Type} (pid : Int) (l : List (Int × ptrace_lwpinfo))
    (w : World σ) (hl : ptid_lwp_p w.inferior_ptid = true) :
    (switch_add_loop pid l : M σ Unit) w
      = (Outcome.ok (),
          { w with thread_list := add_missing (switch_kept pid l) w.thread_list }) := by
  induction l generalizing w with
  | nil => simp [switch_add_loop, switch_kept, add_missing, pure_run]
  | cons a rest ih =>
      obtain ⟨lwp, pl⟩ := a
      by_cases hskip : (and_of_ne pl.pl_flags PL_FLAG_EXITED != 0) = true
      · simp only [switch_add_loop, switch_kept, hskip, if_true]
        exact ih w hl
      · cases hin : w.thread_list.any (fun tp => tp.ptid = ptid_build pid lwp 0) with
        | true =>
            simp [switch_add_loop, switch_kept, hskip, bind_run, M.bind, get_world, hl,
              in_thread_list, hin, pure_run, add_missing, ih w hl, -List.any_eq_true]
        | false =>
            have ih1 := ih { w with thread_list := ⟨ptid_build pid lwp 0⟩ :: w.thread_list } hl
            simp [switch_add_loop, switch_kept, hskip, bind_run, M.bind, get_world, hl,
              in_thread_list, hin, add_thread, add_missing, ih1, -List.any_eq_false]

theorem switch_kept_listed (pid : Int) (lwps : List Int) (pls : List ptrace_lwpinfo) :
    ∀ p ∈ switch_kept pid (lwps.zip pls), ∃ lwp ∈ lwps, p = ptid_build pid lwp 0 := by
  induction lwps generalizing pls with
  | nil => intro p h; simp [switch_kept] at h
  | cons lwp rest ih =>
      cases pls with
      | nil => intro p h; simp [switch_kept] at h
      | cons pl pls1 =>
          intro p h
          simp only [List.zip_cons_cons, switch_kept] at h
          split at h
          · obtain ⟨x, hx, he⟩ := ih pls1 p h
            exact ⟨x, List.mem_cons_of_mem _ hx, he⟩
          · rcases List.mem_cons.mp h with rfl | h
            · exact ⟨lwp, List.mem_cons_self _ _, rfl⟩
            · obtain ⟨x, hx, he⟩ := ih pls1 p h
              exact ⟨x, List.mem_cons_of_mem _ hx, he⟩

/-- The run of `fbsd_switch_to_threaded` on a process whose `inferior_ptid` is
process-only, when the enumeration succeeds and has a candidate. -/
theorem fbsd_switch_to_threaded_run {σ : Type} (env : target_env σ) (pid : Int)
    (w : World σ) (n : Nat) (lwps : List Int) (pls : List ptrace_lwpinfo) (c : Int)
    (hn : env.ptrace_getnumlwps w.kern pid = some n)
    (hg : env.ptrace_getlwplist w.kern pid n = some lwps)
    (hinfos : lwpinfos env w.kern lwps = some pls)
    (hcand : first_candidate (lwps.zip pls) = some c) (hc0 : c ≠ 0)
    (hnew : w.thread_list.any (fun tp => tp.ptid = ptid_build pid c 0) = false)
    (hin : w.thread_list.any (fun tp => tp.ptid = w.inferior_ptid) = true) :
    fbsd_switch_to_threaded env pid w
      = (Outcome.ok (),
          { w with
            calls := w.calls ++
              ([Call.ptrace ptrace_request.PT_GETNUMLWPS pid 0 0,
                Call.ptrace ptrace_request.PT_GETLWPLIST pid 0 n]
                ++ lwps.map (fun lwp => Call.ptrace ptrace_request.PT_LWPINFO lwp 0 0)),
            thread_list := add_missing (switch_kept pid (lwps.zip pls))
              (w.thread_list.map (fun tp =>
                if tp.ptid = w.inferior_ptid then ⟨ptid_build pid c 0⟩ else tp)),
            inferior_ptid := ptid_build pid c 0 }) := by
  have hf := fetch_lwpinfos_run env lwps pls
    { w with calls := w.calls ++
        [Call.ptrace ptrace_request.PT_GETNUMLWPS pid 0 0,
         Call.ptrace ptrace_request.PT_GETLWPLIST pid 0 n] } hinfos
  have hc := switch_candidate_loop_run pid (lwps.zip pls) c
    { w with calls := w.calls ++
        ([Call.ptrace ptrace_request.PT_GETNUMLWPS pid 0 0,
          Call.ptrace ptrace_request.PT_GETLWPLIST pid 0 n]
          ++ lwps.map (fun lwp => Call.ptrace ptrace_request.PT_LWPINFO lwp 0 0)) }
    hcand hnew hin
  have hl0 : ptid_lwp_p (ptid_build pid c 0) = true := by
    simp [ptid_lwp_p, ptid_build, hc0]
  have ha := switch_add_loop_run pid (lwps.zip pls)
    { w with
      calls := w.calls ++
        ([Call.ptrace ptrace_request.PT_GETNUMLWPS pid 0 0,
          Call.ptrace ptrace_request.PT_GETLWPLIST pid 0 n]
          ++ lwps.map (fun lwp => Call.ptrace ptrace_request.PT_LWPINFO lwp 0 0)),
      thread_list := w.thread_list.map (fun tp =>
        if tp.ptid = w.inferior_ptid then ⟨ptid_build pid c 0⟩ else tp),
      inferior_ptid := ptid_build pid c 0 } hl0
  simp only [List.append_assoc, List.cons_append, List.nil_append] at hf hc ha
  simp [fbsd_switch_to_threaded, bind_run, M.bind, ptrace_getnumlwps_call, hn,
    ptrace_getlwplist_call, hg, hf, hc, ha]

/-- The run of `fbsd_wait` on the first thread-created stop of a process whose
`inferior_ptid` is process-only, when the enumeration succeeds and has a
candidate. -/
theorem fbsd_wait_first_thread_created_run {σ : Type} (env : target_env σ)
    (wa : World σ) (ptid : ptid_t) (opts : Int) (wptid : ptid_t)
    (st : target_waitstatus) (k1 : σ) (pl : ptrace_lwpinfo) (n : Nat)
    (lwps : List Int) (pls : List ptrace_lwpinfo) (c : Int) (fuel : Nat)
    (hw1 : env.super_wait wa.kern ptid opts = some (wptid, st, k1))
    (hst : st.kind = target_waitkind.STOPPED)
    (hpl : env.ptrace_lwpinfo k1 wptid.pid = some pl)
    (h1 : flag_set pl.pl_flags PL_FLAG_FORKED = false)
    (h2 : flag_set pl.pl_flags PL_FLAG_CHILD = false)
    (h3 : flag_set pl.pl_flags PL_FLAG_EXEC = false)
    (hb : flag_set pl.pl_flags PL_FLAG_BORN = true)
    (hproc : ptid_lwp_p wa.inferior_ptid = false)
    (hin : wa.thread_list.any (fun tp => tp.ptid = wa.inferior_ptid) = true)
    (hn : env.ptrace_getnumlwps k1 wptid.pid = some n)
    (hg : env.ptrace_getlwplist k1 wptid.pid n = some lwps)
    (hinfos : lwpinfos env k1 lwps = some pls)
    (hcand : first_candidate (lwps.zip pls) = some c) (hc0 : c ≠ 0)
    (hnew : wa.thread_list.any (fun tp => tp.ptid = ptid_build wptid.pid c 0) = false) :
    fbsd_wait env (fuel + 1) ptid opts wa
      = (Outcome.ok (wptid, { st with kind := target_waitkind.IGNORE }),
          { wa with
            kern := k1,
            calls := wa.calls ++
              ([Call.super_wait ptid opts,
                Call.ptrace ptrace_request.PT_LWPINFO wptid.pid 0 0,
                Call.ptrace ptrace_request.PT_GETNUMLWPS wptid.pid 0 0,
                Call.ptrace ptrace_request.PT_GETLWPLIST wptid.pid 0 n]
                ++ lwps.map (fun lwp => Call.ptrace ptrace_request.PT_LWPINFO lwp 0 0)),
            thread_list := add_missing (switch_kept wptid.pid (lwps.zip pls))
              (wa.thread_list.map (fun tp =>
                if tp.ptid = wa.inferior_ptid then ⟨ptid_build wptid.pid c 0⟩ else tp)),
            inferior_ptid := ptid_build wptid.pid c 0 }) := by
  rw [fbsd_wait_thread_event_run env wa ptid opts wptid st k1 pl fuel hw1 hst hpl h1 h2 h3
    (Or.inl hb)]
  have hsw := fbsd_switch_to_threaded_run env wptid.pid
    { wa with
      kern := k1,
      calls := wa.calls ++
        [Call.super_wait ptid opts, Call.ptrace ptrace_request.PT_LWPINFO wptid.pid 0 0] }
    n lwps pls c hn hg hinfos hcand hc0 hnew hin
  simp [thread_event_update, bind_run, M.bind, hb, get_world, hproc, hsw, pure_run]

/-- C11: process 10 has a process-only main ptid and the kernel lists the
LWPs 100, 101 and 102.  The first thread-created stop (LWP 101) reassigns the
main ptid to LWP 100 and enters 101 and 102; the second thread-created stop
(LWP 102) then finds its thread in the table: `gdb_assert (!in_thread_list
(ptid))` fails, and no entry is added. -/
theorem fbsd_wait_thread_created_already_listed :
    (fbsd_wait (sim_env_lwp sim_infos_born) 1 minus_one_ptid 0 sim_world_first_born).1
      = Outcome.ok (⟨10, 0, 0⟩, ⟨target_waitkind.IGNORE, waitstatus_value.sig 5⟩) ∧
    (fbsd_wait (sim_env_lwp sim_infos_born) 1 minus_one_ptid 0
      sim_world_first_born).2.thread_list
      = [⟨⟨10, 102, 0⟩⟩, ⟨⟨10, 101, 0⟩⟩, ⟨⟨10, 100, 0⟩⟩] ∧
    (fbsd_wait (sim_env_lwp sim_infos_born) 1 minus_one_ptid 0
      sim_world_first_born).2.inferior_ptid = ⟨10, 100, 0⟩ ∧
    (fbsd_wait (sim_env_lwp sim_infos_born) 1 minus_one_ptid 0
      (fbsd_wait (sim_env_lwp sim_infos_born) 1 minus_one_ptid 0
        sim_world_first_born).2).1 = Outcome.assert_fail ∧
    (fbsd_wait (sim_env_lwp sim_infos_born) 1 minus_one_ptid 0
      (fbsd_wait (sim_env_lwp sim_infos_born) 1 minus_one_ptid 0
        sim_world_first_born).2).2.thread_list
      = [⟨⟨10, 102, 0⟩⟩, ⟨⟨10, 101, 0⟩⟩, ⟨⟨10, 100, 0⟩⟩] := by
  rw [fbsd_wait_first_thread_created_run (sim_env_lwp sim_infos_born) sim_world_first_born
    minus_one_ptid 0 ⟨10, 0, 0⟩ sim_stopped
    ⟨[sim_born_stop_of 102], [sim_born_stop_of 101], [], [100, 101, 102]⟩
    (sim_born_stop_of 101).pl 3 [100, 101, 102] sim_infos_born 100 0
    (by decide) (by decide) (by decide) (by decide) (by decide) (by decide) (by decide)
    (by decide) (by decide) (by decide) (by decide) (by decide) (by decide) (by decide)
    (by decide)]
  decide


/-! ## The Pending-Fork Registry: the claims -/

/-- The loop of `fbsd_is_child_pending` finds an entry exactly when there is
one, and unlinks the one nearest the head. -/
theorem unlink_child_split (pid : Int) (l : List Int) (h : pid ∈ l) :
    ∃ before after, l = before ++ pid :: after ∧ pid ∉ before ∧
      unlink_child pid l = some (before ++ after) := by
  induction l with
  | nil => cases h
  | cons child next ih =>
      by_cases hc : child = pid
      · subst hc
        exact ⟨[], next, rfl, by simp, by simp [unlink_child]⟩
      · have hin : pid ∈ next := by
          rcases List.mem_cons.mp h with h1 | h1
          · exact absurd h1.symm hc
          · exact h1
        obtain ⟨before, after, h1, h2, h3⟩ := ih hin
        refine ⟨child :: before, after, by simp [h1], ?_, ?_⟩
        · simp only [List.mem_cons, not_or]
          exact ⟨fun e => hc e.symm, h2⟩
        · simp [unlink_child, hc, h3]

/-- C28: for every registry state and pid, `fbsd_is_child_pending (pid)`
returns 1 or 0, and 1 exactly when the registry has an entry for pid.  When it
returns 1, the entry for pid nearest the head is the one removed, and the other
entries keep their order; when it returns 0, nothing is changed.  And
`fbsd_remember_child (p)` followed by `fbsd_is_child_pending (p)` returns 1 and
gives back the state before the two calls. -/
theorem fbsd_is_child_pending_spec {σ : Type} (w : World σ) (pid : Int) :
    ((fbsd_is_child_pending pid w).1 = Outcome.ok 1 ∨
      (fbsd_is_child_pending pid w).1 = Outcome.ok 0) ∧
    ((fbsd_is_child_pending pid w).1 = Outcome.ok 1 ↔ pid ∈ w.fbsd_pending_children) ∧
    (pid ∈ w.fbsd_pending_children →
      ∃ before after, w.fbsd_pending_children = before ++ pid :: after ∧ pid ∉ before ∧
        fbsd_is_child_pending pid w
          = (Outcome.ok 1, { w with fbsd_pending_children := before ++ after })) ∧
    (pid ∉ w.fbsd_pending_children → fbsd_is_child_pending pid w = (Outcome.ok 0, w)) ∧
    (fbsd_remember_child pid >>= fun _ => fbsd_is_child_pending pid) w = (Outcome.ok 1, w) := by
  have hmem : pid ∈ w.fbsd_pending_children →
      ∃ before after, w.fbsd_pending_children = before ++ pid :: after ∧ pid ∉ before ∧
        fbsd_is_child_pending pid w
          = (Outcome.ok 1, { w with fbsd_pending_children := before ++ after }) := by
    intro h
    obtain ⟨before, after, h1, h2, h3⟩ := unlink_child_split pid _ h
    exact ⟨before, after, h1, h2, by simp [fbsd_is_child_pending, h3]⟩
  have hnot : pid ∉ w.fbsd_pending_children →
      fbsd_is_child_pending pid w = (Outcome.ok 0, w) := by
    intro h
    simp [fbsd_is_child_pending, unlink_child_not_mem pid _ h]
  refine ⟨?_, ?_, hmem, hnot, ?_⟩
  · by_cases h : pid ∈ w.fbsd_pending_children
    · obtain ⟨_, _, _, _, h3⟩ := hmem h
      exact Or.inl (by rw [h3])
    · exact Or.inr (by rw [hnot h])
  · constructor
    · intro h1
      by_contra h
      rw [hnot h] at h1
      simp at h1
    · intro h
      obtain ⟨_, _, _, _, h3⟩ := hmem h
      rw [h3]
  · simp [bind_run, M.bind, fbsd_remember_child, fbsd_is_child_pending, unlink_child]
theorem fbsd_is_child_pending_spec_witness :
    fbsd_is_child_pending 5 (sim_world_of []) = (Outcome.ok 0, sim_world_of []) ∧
    (fbsd_remember_child 5 >>= fun _ => fbsd_is_child_pending 5) (sim_world_of [])
      = (Outcome.ok 1, sim_world_of []) :=
  ⟨(fbsd_is_child_pending_spec (sim_world_of []) 5).2.2.2.1 (by decide),
    (fbsd_is_child_pending_spec (sim_world_of []) 5).2.2.2.2⟩

/-- C29, as stated, fails: the same pid remembered twice and then tested
twice.  The list of the code holds two entries and answers 1 and 1; the
mapping of the spec holds one and answers 1 and 0. -/
theorem registry_not_a_mapping :
    registry_answers
        [registry_op.remember 5, registry_op.remember 5,
         registry_op.is_pending 5, registry_op.is_pending 5] (sim_world_of [])
      = [1, 1] ∧
    spec_mapping_answers
        [registry_op.remember 5, registry_op.remember 5,
         registry_op.is_pending 5, registry_op.is_pending 5] spec_mapping_empty
      = [1, 0] := by
  decide

theorem unlink_child_nodup (pid : Int) (l l1 : List Int) (hnd : l.Nodup)
    (h : unlink_child pid l = some l1) :
    l1.Nodup ∧ ∀ q, q ∈ l1 ↔ (q ∈ l ∧ q ≠ pid) := by
  have hmem : pid ∈ l := by
    by_contra hc
    rw [unlink_child_not_mem pid l hc] at h
    cases h
  obtain ⟨before, after, h1, _, h3⟩ := unlink_child_split pid l hmem
  rw [h3] at h
  cases h
  subst h1
  have hnd1 := hnd
  rw [List.nodup_append] at hnd1
  obtain ⟨hb, ha, hdis⟩ := hnd1
  have ha1 := List.nodup_cons.mp ha
  refine ⟨?_, ?_⟩
  · rw [List.nodup_append]
    refine ⟨hb, ha1.2, ?_⟩
    intro x hx hx1
    exact hdis hx (List.mem_cons_of_mem _ hx1)
  · intro q
    simp only [List.mem_append, List.mem_cons]
    constructor
    · rintro (hq | hq)
      · refine ⟨Or.inl hq, ?_⟩
        intro e
        subst e
        exact hdis hq (List.mem_cons_self _ _)
      · refine ⟨Or.inr (Or.inr hq), ?_⟩
        intro e
        subst e
        exact ha1.1 hq
    · rintro ⟨hq | hq | hq, hne⟩
      · exact Or.inl hq
      · exact absurd hq hne
      · exact Or.inr hq

/-- C29, amended: for every sequence of calls in which no pid is remembered
while the registry still holds it, started from a registry without repeated
entries and a mapping that holds the same pids, the list of the code returns
the same answers as the mapping of the spec. -/
theorem registry_refines_mapping {σ : Type} (ops : List registry_op) (w : World σ)
    (m : Int → Bool) (hnd : w.fbsd_pending_children.Nodup)
    (hm : ∀ q, m q = true ↔ q ∈ w.fbsd_pending_children)
    (hfresh : remembers_fresh ops w.fbsd_pending_children = true) :
    registry_answers ops w = spec_mapping_answers ops m := by
  induction ops generalizing w m with
  | nil => rfl
  | cons op rest ih =>
      cases op with
      | remember pid =>
          simp only [remembers_fresh, Bool.and_eq_true, Bool.not_eq_true'] at hfresh
          have hnotin : pid ∉ w.fbsd_pending_children := by
            simpa using hfresh.1
          simp only [registry_answers, spec_mapping_answers]
          apply ih
          · simp only [fbsd_remember_child]
            exact List.nodup_cons.mpr ⟨hnotin, hnd⟩
          · intro q
            simp only [fbsd_remember_child, spec_mapping_insert, List.mem_cons]
            by_cases hq : q = pid
            · simp [hq]
            · simp [hq, hm q]
          · exact hfresh.2
      | is_pending pid =>
          cases hu : unlink_child pid w.fbsd_pending_children with
          | none =>
              have hnotin : pid ∉ w.fbsd_pending_children := by
                intro hc
                obtain ⟨_, _, _, _, h3⟩ := unlink_child_split pid _ hc
                rw [h3] at hu
                cases hu
              have hmp : m pid = false := by
                cases hmp : m pid with
                | false => rfl
                | true => exact absurd ((hm pid).mp hmp) hnotin
              simp only [remembers_fresh, hu] at hfresh
              simp only [registry_answers, spec_mapping_answers, fbsd_is_child_pending, hu,
                spec_mapping_test_and_remove, hmp]
              simp only [Bool.false_eq_true, if_false, List.cons.injEq, true_and]
              apply ih w _ hnd _ hfresh
              intro q
              by_cases hq : q = pid
              · subst hq
                simp [hnotin]
              · simp [hq, hm q]
          | some l1 =>
              have hmem : pid ∈ w.fbsd_pending_children := by
                by_contra hc
                rw [unlink_child_not_mem pid _ hc] at hu
                cases hu
              have hmp : m pid = true := (hm pid).mpr hmem
              obtain ⟨hnd1, hl1⟩ := unlink_child_nodup pid _ l1 hnd hu
              simp only [remembers_fresh, hu] at hfresh
              simp only [registry_answers, spec_mapping_answers, fbsd_is_child_pending, hu,
                spec_mapping_test_and_remove, hmp]
              simp only [if_true, List.cons.injEq, true_and]
              apply ih { w with fbsd_pending_children := l1 } _ hnd1 _ hfresh
              intro q
              rw [hl1 q]
              by_cases hq : q = pid
              · simp [hq]
              · simp [hq, hm q]

theorem registry_refines_mapping_witness :
    registry_answers
        [registry_op.remember 5, registry_op.remember 7, registry_op.is_pending 5,
         registry_op.is_pending 5, registry_op.remember 5, registry_op.is_pending 5]
        (sim_world_of [])
      = spec_mapping_answers
          [registry_op.remember 5, registry_op.remember 7, registry_op.is_pending 5,
           registry_op.is_pending 5, registry_op.remember 5, registry_op.is_pending 5]
          spec_mapping_empty :=
  registry_refines_mapping _ (sim_world_of []) spec_mapping_empty (by decide)
    (by intro q; simp [spec_mapping_empty, sim_world_of]) (by decide)

/-! ## Resume: a failing per-thread request -/

/-- A walk over the thread table with a per-thread request callback, along a
first part of the list whose requests all succeed. -/
theorem iterate_request_cb_initial {σ : Type} (env : target_env σ) (request : ptrace_request)
    (sel : thread_info → Bool) (pre l : List thread_info) (w : World σ) (k : σ)
    (hok : requests_ok env request sel pre w.kern = some k) :
    iterate_threads_from (request_cb env request sel) (pre ++ l) w
      = iterate_threads_from (request_cb env request sel) l
          { w with
            kern := k,
            calls := w.calls ++ (pre.filter sel).map (request_of request) } := by
  induction pre generalizing w with
  | nil =>
      simp only [requests_ok, Option.some.injEq] at hok
      subst hok
      simp
  | cons tp next ih =>
      cases hs : sel tp with
      | false =>
          simp only [requests_ok, hs, Bool.false_eq_true, if_false] at hok
          have h1 := ih w hok
          rw [List.cons_append]
          simp only [iterate_threads_from, bind_run, M.bind,
            request_cb_skip env request sel tp w hs]
          simp only [ne_eq, not_true_eq_false, if_false]
          rw [h1]
          simp [List.filter_cons, hs]
      | true =>
          simp only [requests_ok, hs, if_true] at hok
          cases hk : env.ptrace_set w.kern request tp.ptid.lwp 0 0 with
          | none =>
              rw [hk] at hok
              cases hok
          | some k1 =>
              rw [hk] at hok
              have h1 := ih { w with kern := k1, calls := w.calls ++ [request_of request tp] }
                hok
              rw [List.cons_append]
              simp only [iterate_threads_from, bind_run, M.bind,
                request_cb_ok env request sel tp w k1 hs hk]
              simp only [ne_eq, not_true_eq_false, if_false]
              rw [h1]
              simp [List.filter_cons, hs]

/-- The run of `fbsd_resume` when the request for the thread `tp` of the table
is the first one to fail. -/
theorem fbsd_resume_fail_run {σ : Type} (env : target_env σ) (ptid : ptid_t)
    (step signo : Int) (w : World σ) (request : ptrace_request)
    (sel : thread_info → Bool) (pre post : List thread_info) (tp : thread_info) (k : σ)
    (hreq : request = (if ptid_lwp_p ptid then ptrace_request.PT_SUSPEND
      else ptrace_request.PT_RESUME))
    (hsel : sel = (if ptid_lwp_p ptid then (fun tp : thread_info => tp.ptid.pid == ptid.pid)
      else (fun tp : thread_info => env.ptid_match tp.ptid ptid && ptid_lwp_p tp.ptid)))
    (hlist : w.thread_list = pre ++ tp :: post)
    (hpre : requests_ok env request sel pre w.kern = some k)
    (htp : sel tp = true)
    (hfail : env.ptrace_set k request tp.ptid.lwp 0 0 = none) :
    fbsd_resume env ptid step signo w
      = (Outcome.error failed_call.ptrace,
          { w with
            kern := k,
            calls := w.calls ++ ((pre.filter sel).map (request_of request)
              ++ [request_of request tp]) }) := by
  have hwalk : iterate_threads_from (request_cb env request sel) w.thread_list w
      = (Outcome.error failed_call.ptrace,
          { w with
            kern := k,
            calls := w.calls ++ ((pre.filter sel).map (request_of request)
              ++ [request_of request tp]) }) := by
    conv_lhs => rw [hlist]
    rw [iterate_request_cb_initial env request sel pre (tp :: post) w k hpre]
    simp only [iterate_threads_from, bind_run, M.bind]
    rw [request_cb_fail env request sel tp _ htp hfail]
    simp
  cases hl : ptid_lwp_p ptid with
  | true =>
      simp only [hl, if_true] at hreq hsel
      subst hreq
      subst hsel
      simp only [fbsd_resume, hl, if_true, bind_run, M.bind, iterate_over_threads,
        resume_one_thread_cb_eq, hwalk]
  | false =>
      simp only [hl, Bool.false_eq_true, if_false] at hreq hsel
      subst hreq
      subst hsel
      simp only [fbsd_resume, hl, Bool.false_eq_true, if_false, bind_run, M.bind,
        iterate_over_threads, resume_all_threads_cb_eq, hwalk]

/-- C27: when a per-thread request of `fbsd_resume` fails (the request for the
thread `tp` of the table, the requests for the selected threads before it
having succeeded), the operation ends with the error naming `ptrace`; the log
ends with the failed request, so that no request is issued for a thread after
`tp` and `super_resume` is not invoked; the debugger's globals are as before. -/
theorem fbsd_resume_request_failure {σ : Type} (env : target_env σ) (ptid : ptid_t)
    (step signo : Int) (w : World σ) (pre post : List thread_info) (tp : thread_info)
    (k : σ)
    (hlist : w.thread_list = pre ++ tp :: post)
    (hpre : requests_ok env (resume_request ptid) (resume_selected env ptid) pre w.kern
      = some k)
    (htp : resume_selected env ptid tp = true)
    (hfail : env.ptrace_set k (resume_request ptid) tp.ptid.lwp 0 0 = none) :
    (fbsd_resume env ptid step signo w).1 = Outcome.error failed_call.ptrace ∧
    (∃ made : List Call,
      (fbsd_resume env ptid step signo w).2.calls = w.calls ++ made ∧
      made = (pre.filter (resume_selected env ptid)).map (request_of (resume_request ptid))
        ++ [request_of (resume_request ptid) tp] ∧
      (∀ p st sg, Call.super_resume p st sg ∉ made) ∧
      (∀ c ∈ made,
        ∃ tq, c = request_of (resume_request ptid) tq ∧ (tq ∈ pre ∨ tq = tp))) ∧
    (fbsd_resume env ptid step signo w).2.kern = k ∧
    (fbsd_resume env ptid step signo w).2.thread_list = w.thread_list ∧
    (fbsd_resume env ptid step signo w).2.inferior_ptid = w.inferior_ptid := by
  rw [fbsd_resume_fail_run env ptid step signo w (resume_request ptid)
    (resume_selected env ptid) pre post tp k rfl rfl hlist hpre htp hfail]
  refine ⟨rfl, ⟨_, rfl, rfl, ?_, ?_⟩, rfl, rfl, rfl⟩
  · intro p st sg hmem
    simp [request_of] at hmem
  · intro c hc
    simp only [List.mem_append, List.mem_map, List.mem_filter, List.mem_singleton] at hc
    rcases hc with ⟨tq, ⟨htq, _⟩, he⟩ | he
    · exact ⟨tq, he.symm, Or.inl htq⟩
    · exact ⟨tp, he, Or.inr rfl⟩

theorem fbsd_resume_request_failure_witness :
    (fbsd_resume (sim_env_failing [101]) ⟨1, 100, 0⟩ 0 0 sim_world_threads).1
      = Outcome.error failed_call.ptrace ∧
    (fbsd_resume (sim_env_failing [101]) ⟨1, 100, 0⟩ 0 0 sim_world_threads).2.thread_list
      = sim_world_threads.thread_list :=
  have h := fbsd_resume_request_failure (sim_env_failing [101]) ⟨1, 100, 0⟩ 0 0
    sim_world_threads [⟨⟨1, 100, 0⟩⟩] [⟨⟨2, 0, 0⟩⟩] ⟨⟨1, 101, 0⟩⟩ sim_idle
    (by decide) (by decide) (by decide) (by decide)
  ⟨h.1, h.2.2.2.1⟩

/-! ## The switch to thread-qualified identifiers: the choice of the threads -/

/-- C25: the kernel lists the LWPs 100 (flag `EXITED`), 101 (flag `BORN`) and
102 (no flag) of process 10, whose main ptid is process-only.  The first LWP
with neither flag is 102; `fbsd_switch_to_threaded` reassigns the main ptid to
LWP 100, the one with the flag `EXITED`: its test `pl_flags & (PL_FLAG_BORN |
PL_FLAG_EXITED) != 0` masks the flags with 1. -/
theorem fbsd_switch_to_threaded_picks_exited :
    enumerate_lwps (sim_env_lwp [⟨100, PL_FLAG_EXITED, 0⟩, ⟨101, PL_FLAG_BORN, 0⟩,
        ⟨102, 0, 0⟩]) sim_world_attached.kern 10
      = some ([100, 101, 102],
          [⟨100, PL_FLAG_EXITED, 0⟩, ⟨101, PL_FLAG_BORN, 0⟩, ⟨102, 0, 0⟩]) ∧
    (([⟨100, PL_FLAG_EXITED, 0⟩, ⟨101, PL_FLAG_BORN, 0⟩, ⟨102, 0, 0⟩] :
        List ptrace_lwpinfo).find?
      (fun pl => !flag_set pl.pl_flags PL_FLAG_BORN && !flag_set pl.pl_flags PL_FLAG_EXITED))
      = some ⟨102, 0, 0⟩ ∧
    and_of_ne PL_FLAG_EXITED (PL_FLAG_BORN ||| PL_FLAG_EXITED) = 0 ∧
    (fbsd_switch_to_threaded (sim_env_lwp [⟨100, PL_FLAG_EXITED, 0⟩,
        ⟨101, PL_FLAG_BORN, 0⟩, ⟨102, 0, 0⟩]) 10 sim_world_attached).1 = Outcome.ok () ∧
    (fbsd_switch_to_threaded (sim_env_lwp [⟨100, PL_FLAG_EXITED, 0⟩,
        ⟨101, PL_FLAG_BORN, 0⟩, ⟨102, 0, 0⟩]) 10 sim_world_attached).2.inferior_ptid
      = ⟨10, 100, 0⟩ ∧
    (fbsd_switch_to_threaded (sim_env_lwp [⟨100, PL_FLAG_EXITED, 0⟩,
        ⟨101, PL_FLAG_BORN, 0⟩, ⟨102, 0, 0⟩]) 10 sim_world_attached).2.thread_list
      = [⟨⟨10, 102, 0⟩⟩, ⟨⟨10, 101, 0⟩⟩, ⟨⟨10, 100, 0⟩⟩] := by
  decide

/-- C26: the kernel lists the LWPs 100 (no flag), 101 (flag `EXITED`) and 102
(no flag) of process 10, whose table holds the process-only main ptid.  After
`fbsd_switch_to_threaded` the table has an entry for LWP 101, the one with the
flag `EXITED`: the test `pl_flags & (PL_FLAG_EXITED) != 0` of the last loop
masks the flags with 1. -/
theorem fbsd_switch_to_threaded_enters_exited :
    enumerate_lwps (sim_env_lwp [⟨100, 0, 0⟩, ⟨101, PL_FLAG_EXITED, 0⟩, ⟨102, 0, 0⟩])
        sim_world_attached.kern 10
      = some ([100, 101, 102], [⟨100, 0, 0⟩, ⟨101, PL_FLAG_EXITED, 0⟩, ⟨102, 0, 0⟩]) ∧
    and_of_ne PL_FLAG_EXITED PL_FLAG_EXITED = 0 ∧
    sim_world_attached.thread_list = [⟨⟨10, 0, 0⟩⟩] ∧
    (fbsd_switch_to_threaded (sim_env_lwp [⟨100, 0, 0⟩, ⟨101, PL_FLAG_EXITED, 0⟩,
        ⟨102, 0, 0⟩]) 10 sim_world_attached).1 = Outcome.ok () ∧
    (fbsd_switch_to_threaded (sim_env_lwp [⟨100, 0, 0⟩, ⟨101, PL_FLAG_EXITED, 0⟩,
        ⟨102, 0, 0⟩]) 10 sim_world_attached).2.thread_list
      = [⟨⟨10, 102, 0⟩⟩, ⟨⟨10, 101, 0⟩⟩, ⟨⟨10, 100, 0⟩⟩] ∧
    (fbsd_switch_to_threaded (sim_env_lwp [⟨100, 0, 0⟩, ⟨101, PL_FLAG_EXITED, 0⟩,
        ⟨102, 0, 0⟩]) 10 sim_world_attached).2.inferior_ptid = ⟨10, 100, 0⟩ := by
  decide

/-! ## Failing kernel calls and the thread table -/

/-- The loop of `fbsd_find_memory_regions` calls the callback on the entries
that pass its test, in order, and on no other. -/
theorem find_memory_regions_loop_run {β : Type} (info_verbose : Bool)
    (func : memory_region → β → Int × β) (vmentl : List kinfo_vmentry) (obfd : β)
    (out : List kinfo_vmentry) :
    find_memory_regions_loop info_verbose func vmentl (obfd, out)
      = ((vmentl.filter region_saved).foldl (fun s kve => (func (region_of kve) s).2) obfd,
          if info_verbose then out ++ vmentl.filter region_saved else out) := by
  induction vmentl generalizing obfd out with
  | nil => cases info_verbose <;> simp [find_memory_regions_loop]
  | cons kve rest ih =>
      by_cases h1 : flag_set kve.kve_protection KVME_PROT_READ = true
      · by_cases h2 : flag_set kve.kve_flags KVME_FLAG_NOCOREDUMP = true
        · have hs : region_saved kve = false := by simp [region_saved, h2]
          simp [find_memory_regions_loop, h2, ih, List.filter_cons, hs]
        · by_cases h3 : kve.kve_type ≠ KVME_TYPE_DEFAULT ∧ kve.kve_type ≠ KVME_TYPE_VNODE
              ∧ kve.kve_type ≠ KVME_TYPE_SWAP ∧ kve.kve_type ≠ KVME_TYPE_PHYS
          · have hs : region_saved kve = false := by
              simp [region_saved, h3.1, h3.2.1, h3.2.2.1, h3.2.2.2]
            simp [find_memory_regions_loop, h1, h2, h3, ih, List.filter_cons, hs]
          · have hs : region_saved kve = true := by
              simp only [region_saved, h1, h2, Bool.not_false, Bool.and_true, Bool.true_and,
                Bool.or_eq_true, beq_iff_eq]
              by_contra hc
              apply h3
              simp only [not_or] at hc
              exact ⟨hc.1.1.1, hc.1.1.2, hc.1.2, hc.2⟩
            rw [find_memory_regions_loop]
            simp only [h1, h2, Bool.not_true, Bool.false_or, Bool.false_eq_true, if_false, h3]
            rw [ih]
            cases info_verbose <;> simp [List.filter_cons, hs, region_of]
      · have hs : region_saved kve = false := by simp [region_saved, h1]
        simp [find_memory_regions_loop, h1, ih, List.filter_cons, hs]

theorem record_region_foldl (l : List kinfo_vmentry) (acc : List memory_region) :
    l.foldl (fun s kve => (record_region (region_of kve) s).2) acc
      = acc ++ l.map region_of := by
  induction l generalizing acc with
  | nil => simp
  | cons kve rest ih =>
      rw [List.foldl_cons, ih]
      simp [record_region]

/-- C23: when the kernel hands over the VM map `vmentl` of the process,
`fbsd_find_memory_regions` returns 0, and the callback has been called once for
each entry that is readable, not flagged no-core-dump and of type default,
vnode, swap or physical, in the kernel's order, and for no other entry: the
object `obfd` is the one the calls for these entries leave, and a callback that
records its calls has recorded exactly their regions.  The region of an entry
has the entry's start, the length end minus start, the entry's read, write and
execute permission bits, and the modified mark 1.  Nothing but the log of calls
is written. -/
theorem fbsd_find_memory_regions_spec {σ β : Type}
    (kinfo_getvmmap : σ → Int → Option (List kinfo_vmentry)) (info_verbose : Bool)
    (func : memory_region → β → Int × β) (obfd : β) (w : World σ)
    (vmentl : List kinfo_vmentry)
    (hmap : kinfo_getvmmap w.kern (ptid_get_pid w.inferior_ptid) = some vmentl) :
    fbsd_find_memory_regions kinfo_getvmmap info_verbose func obfd w
      = (Outcome.ok (0,
            (vmentl.filter region_saved).foldl (fun s kve => (func (region_of kve) s).2) obfd,
            if info_verbose then vmentl.filter region_saved else []),
          { w with calls := w.calls ++ [Call.kinfo_getvmmap (ptid_get_pid w.inferior_ptid)] }) ∧
    (fbsd_find_memory_regions kinfo_getvmmap info_verbose record_region [] w).1
      = Outcome.ok (0, (vmentl.filter region_saved).map region_of,
          if info_verbose then vmentl.filter region_saved else []) ∧
    (∀ kve, region_saved kve = true ↔
      (kve.kve_protection &&& KVME_PROT_READ ≠ 0 ∧
        kve.kve_flags &&& KVME_FLAG_NOCOREDUMP = 0 ∧
        (kve.kve_type = KVME_TYPE_DEFAULT ∨ kve.kve_type = KVME_TYPE_VNODE ∨
          kve.kve_type = KVME_TYPE_SWAP ∨ kve.kve_type = KVME_TYPE_PHYS))) ∧
    (∀ kve, (region_of kve).start = kve.kve_start ∧
      (kve.kve_start ≤ kve.kve_end → kve.kve_end < 2 ^ 64 →
        (region_of kve).size = kve.kve_end - kve.kve_start) ∧
      (region_of kve).read = kve.kve_protection &&& KVME_PROT_READ ∧
      (region_of kve).write = kve.kve_protection &&& KVME_PROT_WRITE ∧
      (region_of kve).exec = kve.kve_protection &&& KVME_PROT_EXEC ∧
      (region_of kve).modified = 1) := by
  refine ⟨?_, ?_, ?_, ?_⟩
  · simp only [fbsd_find_memory_regions, hmap, find_memory_regions_loop_run]
    cases info_verbose <;> simp
  · simp only [fbsd_find_memory_regions, hmap, find_memory_regions_loop_run,
      record_region_foldl]
    cases info_verbose <;> simp
  · intro kve
    simp only [region_saved, flag_set, Bool.and_eq_true, bne_iff_ne, ne_eq,
      Bool.not_eq_true', Bool.or_eq_true, beq_iff_eq]
    constructor
    · rintro ⟨⟨h1, h2⟩, h3⟩
      refine ⟨h1, ?_, ?_⟩
      · simpa using h2
      · rcases h3 with ((h | h) | h) | h
        · exact Or.inl h
        · exact Or.inr (Or.inl h)
        · exact Or.inr (Or.inr (Or.inl h))
        · exact Or.inr (Or.inr (Or.inr h))
    · rintro ⟨h1, h2, h3⟩
      refine ⟨⟨h1, ?_⟩, ?_⟩
      · simpa using h2
      · rcases h3 with h | h | h | h
        · exact Or.inl (Or.inl (Or.inl h))
        · exact Or.inl (Or.inl (Or.inr h))
        · exact Or.inl (Or.inr h)
        · exact Or.inr h
  · intro kve
    refine ⟨rfl, ?_, rfl, rfl, rfl, rfl⟩
    intro hle hlt
    have hs : kve.kve_start < 2 ^ 64 := lt_of_le_of_lt hle hlt
    simp only [region_of, uint64_sub, Nat.mod_eq_of_lt hs, Nat.mod_eq_of_lt hlt]
    have : kve.kve_end + 2 ^ 64 - kve.kve_start = (kve.kve_end - kve.kve_start) + 2 ^ 64 := by
      omega
    rw [this, Nat.add_mod_right]
    exact Nat.mod_eq_of_lt (by omega)

theorem fbsd_find_memory_regions_spec_witness :
    (fbsd_find_memory_regions sim_getvmmap false record_region [] (sim_world_of [])).1
      = Outcome.ok
          (0, [⟨0x10000, 0x10000, 1, 0, 4, 1⟩, ⟨0x50000, 0x8000, 1, 2, 0, 1⟩], []) :=
  (fbsd_find_memory_regions_spec sim_getvmmap false record_region [] (sim_world_of [])
    sim_vmmap rfl).2.1

/-! ## ARM registers: the claim -/

/-- Outside the 26-bit program counter, `armbsd_collect_gregset` with a
specific register number writes the slot of that register and no other: an
integer register, the stack pointer, the link register, the program counter
in 32-bit mode, the status register in 32-bit mode; in 26-bit mode the status
register goes to the non-address bits of `r_pc`, and a register number without
a slot writes nothing. -/
theorem armbsd_collect_gregset_slot (arm_apcs_32 : Bool) (addr_bits_remove : Nat → Nat)
    (regcache : Int → Nat) (gregset : gregset_t) (regnum : Int) :
    (0 ≤ regnum → regnum < 13 →
      armbsd_collect_gregset arm_apcs_32 addr_bits_remove regcache gregset regnum
        = { gregset with r := gregset.r.set regnum.toNat (regcache regnum) }) ∧
    (regnum = ARM_SP_REGNUM →
      armbsd_collect_gregset arm_apcs_32 addr_bits_remove regcache gregset regnum
        = { gregset with r_sp := regcache ARM_SP_REGNUM }) ∧
    (regnum = ARM_LR_REGNUM →
      armbsd_collect_gregset arm_apcs_32 addr_bits_remove regcache gregset regnum
        = { gregset with r_lr := regcache ARM_LR_REGNUM }) ∧
    (regnum = ARM_PC_REGNUM →
      armbsd_collect_gregset arm_apcs_32 addr_bits_remove regcache gregset regnum
        = { gregset with r_pc := regcache ARM_PC_REGNUM }) ∧
    (regnum = ARM_PS_REGNUM → arm_apcs_32 = true →
      armbsd_collect_gregset arm_apcs_32 addr_bits_remove regcache gregset regnum
        = { gregset with r_cpsr := regcache ARM_PS_REGNUM }) ∧
    (regnum = ARM_PS_REGNUM → arm_apcs_32 = false →
      armbsd_collect_gregset arm_apcs_32 addr_bits_remove regcache gregset regnum
        = { gregset with
            r_pc := addr_bits_remove gregset.r_pc % 2 ^ 32 |||
              (regcache ARM_PS_REGNUM ^^^ addr_bits_remove (regcache ARM_PS_REGNUM))
                % 2 ^ 32 }) ∧
    ((regnum < -1 ∨ (15 < regnum ∧ regnum ≠ 25)) →
      armbsd_collect_gregset arm_apcs_32 addr_bits_remove regcache gregset regnum
        = gregset) := by
  refine ⟨?_, ?_, ?_, ?_, ?_, ?_, ?_⟩
  · intro h0 h13
    interval_cases regnum <;>
      simp [armbsd_collect_gregset, collect_integer_registers, ARM_A1_REGNUM, ARM_SP_REGNUM,
        ARM_LR_REGNUM, ARM_PC_REGNUM, ARM_PS_REGNUM]
  · intro h
    subst h
    simp [armbsd_collect_gregset, collect_integer_registers, ARM_A1_REGNUM, ARM_SP_REGNUM,
      ARM_LR_REGNUM, ARM_PC_REGNUM, ARM_PS_REGNUM]
  · intro h
    subst h
    simp [armbsd_collect_gregset, collect_integer_registers, ARM_A1_REGNUM, ARM_SP_REGNUM,
      ARM_LR_REGNUM, ARM_PC_REGNUM, ARM_PS_REGNUM]
  · intro h
    subst h
    simp [armbsd_collect_gregset, collect_integer_registers, ARM_A1_REGNUM, ARM_SP_REGNUM,
      ARM_LR_REGNUM, ARM_PC_REGNUM, ARM_PS_REGNUM]
  · intro h ha
    subst h
    simp [armbsd_collect_gregset, collect_integer_registers, ARM_A1_REGNUM, ARM_SP_REGNUM,
      ARM_LR_REGNUM, ARM_PC_REGNUM, ARM_PS_REGNUM, ha]
  · intro h ha
    subst h
    simp [armbsd_collect_gregset, collect_integer_registers, ARM_A1_REGNUM, ARM_SP_REGNUM,
      ARM_LR_REGNUM, ARM_PC_REGNUM, ARM_PS_REGNUM, ha]
  · intro h
    have h1 : regnum ≠ -1 := by omega
    have e0 : ¬ regnum = 0 := by omega
    have e1 : ¬ regnum = 1 := by omega
    have e2 : ¬ regnum = 2 := by omega
    have e3 : ¬ regnum = 3 := by omega
    have e4 : ¬ regnum = 4 := by omega
    have e5 : ¬ regnum = 5 := by omega
    have e6 : ¬ regnum = 6 := by omega
    have e7 : ¬ regnum = 7 := by omega
    have e8 : ¬ regnum = 8 := by omega
    have e9 : ¬ regnum = 9 := by omega
    have e10 : ¬ regnum = 10 := by omega
    have e11 : ¬ regnum = 11 := by omega
    have e12 : ¬ regnum = 12 := by omega
    have e13 : ¬ regnum = 13 := by omega
    have e14 : ¬ regnum = 14 := by omega
    have e15 : ¬ regnum = 15 := by omega
    have e25 : ¬ regnum = 25 := by omega
    simp [armbsd_collect_gregset, collect_integer_registers, ARM_A1_REGNUM, ARM_SP_REGNUM,
      ARM_LR_REGNUM, ARM_PC_REGNUM, ARM_PS_REGNUM, h1, e0, e1, e2, e3, e4, e5, e6, e7, e8, e9,
      e10, e11, e12, e13, e14, e15, e25]

/-- C30: in 26-bit mode the kernel block holds the address `0x8000`, the flag
N and the mode bits 3 in the word `r_pc`.  The registers are fetched, and the
program counter alone is stored back, unchanged: the block written differs
from the block just fetched in the status bits of `r_pc`, which are cleared.
Storing the status register alone keeps the address bits. -/
theorem armfbsd_store_pc_clears_status :
    sim_regs_26.r_pc = 0x80008003 ∧
    arm_supply_gregset false addr_bits_26 (fun _ => 0) sim_regs_26 (-1) ARM_PC_REGNUM
      = 0x8000 ∧
    arm_supply_gregset false addr_bits_26 (fun _ => 0) sim_regs_26 (-1) ARM_PS_REGNUM
      = 0x80008003 ∧
    armfbsd_store_inferior_registers sim_getregs sim_setregs false addr_bits_26
        (arm_supply_gregset false addr_bits_26 (fun _ => 0) sim_regs_26 (-1))
        ARM_PC_REGNUM (sim_world_regs sim_regs_26)
      = (Outcome.ok (),
          { sim_world_regs sim_regs_26 with
            kern := { sim_regs_26 with r_pc := 0x8000 },
            calls := [Call.ptrace ptrace_request.PT_GETREGS 100 0 0,
                      Call.ptrace ptrace_request.PT_SETREGS 100 0 0] }) ∧
    armbsd_collect_gregset false addr_bits_26
        (arm_supply_gregset false addr_bits_26 (fun _ => 0) sim_regs_26 (-1))
        sim_regs_26 ARM_PS_REGNUM = sim_regs_26 := by
  decide

/-! ## The Target Stack: structural errors -/

/-- C24: `push_target` of a node whose stratum is occupied fails with
`DuplicateStratumError`, and `unpush_target` of a node that is not on the stack
fails with `NotPushedError`; in both cases the stack, nodes and `beneath`
references, is the one before the call.  Neither case is tolerated: a push
succeeds only onto a free stratum, a pop only for a node on the stack. -/
theorem target_stack_structural_errors (node : target_node) (stack : List target_node) :
    ((∃ n ∈ stack, n.stratum = node.stratum) →
      push_target node stack = (Except.error stack_error.DuplicateStratumError, stack)) ∧
    ((∀ n ∈ stack, n.name ≠ node.name) →
      unpush_target node stack = (Except.error stack_error.NotPushedError, stack)) ∧
    ((push_target node stack).1 = Except.ok () ↔ ∀ n ∈ stack, n.stratum ≠ node.stratum) ∧
    ((unpush_target node stack).1 = Except.ok () ↔ ∃ n ∈ stack, n.name = node.name) := by
  refine ⟨?_, ?_, ?_, ?_⟩
  · rintro ⟨n, hn, hs⟩
    have hany : stack.any (fun n => decide (n.stratum = node.stratum)) = true :=
      List.any_eq_true.mpr ⟨n, hn, by simp [hs]⟩
    simp only [push_target, hany, if_true]
  · intro h
    have hany : stack.any (fun n => decide (n.name = node.name)) = false := by
      rw [List.any_eq_false]
      intro n hn
      simp [h n hn]
    simp [unpush_target, hany]
  · cases hany : stack.any (fun n => decide (n.stratum = node.stratum)) with
    | true =>
        obtain ⟨n, hn, hs⟩ := List.any_eq_true.mp hany
        have hs1 : n.stratum = node.stratum := by simpa using hs
        simp only [push_target, hany, if_true]
        constructor
        · intro h
          cases h
        · intro h
          exact absurd hs1 (h n hn)
    | false =>
        rw [List.any_eq_false] at hany
        simp only [push_target]
        constructor
        · intro _ n hn
          simpa using hany n hn
        · intro h
          have hany1 : stack.any (fun n => decide (n.stratum = node.stratum)) = false := by
            rw [List.any_eq_false]
            intro n hn
            simp [h n hn]
          simp [hany1]
  · cases hany : stack.any (fun n => decide (n.name = node.name)) with
    | true =>
        obtain ⟨n, hn, hs⟩ := List.any_eq_true.mp hany
        have hs1 : n.name = node.name := by simpa using hs
        simp only [unpush_target, hany, if_true]
        exact ⟨fun _ => ⟨n, hn, hs1⟩, fun _ => trivial⟩
    | false =>
        have hany0 := hany
        rw [List.any_eq_false] at hany
        simp only [unpush_target, hany0]
        constructor
        · intro h
          simp at h
        · rintro ⟨n, hn, hs⟩
          have := hany n hn
          simp [hs] at this

theorem target_stack_structural_errors_witness :
    push_target ⟨"core", stratum.Process, none⟩ sim_stack
      = (Except.error stack_error.DuplicateStratumError, sim_stack) ∧
    unpush_target ⟨"record", stratum.Record, none⟩ sim_stack
      = (Except.error stack_error.NotPushedError, sim_stack) :=
  ⟨(target_stack_structural_errors ⟨"core", stratum.Process, none⟩ sim_stack).1
      ⟨⟨"native", stratum.Process, some "exec"⟩, by decide, rfl⟩,
    (target_stack_structural_errors ⟨"record", stratum.Record, none⟩ sim_stack).2.1
      (by decide)⟩

/-! ## Installation: the claim -/

/-- The run of `fbsd_resume` when every per-thread request succeeds: the
requests, then the call through `super_resume`, last, with `step` and `signo`
as given. -/
theorem fbsd_resume_ok_run {σ : Type} (env : target_env σ) (ptid : ptid_t)
    (step signo : Int) (w : World σ) (k : σ)
    (hok : requests_ok env (resume_request ptid) (resume_selected env ptid) w.thread_list
      w.kern = some k) :
    fbsd_resume env ptid step signo w
      = super_resume env (if ptid_lwp_p ptid then ptid else w.inferior_ptid) step signo
          { w with
            kern := k,
            calls := w.calls ++ (w.thread_list.filter (resume_selected env ptid)).map
              (request_of (resume_request ptid)) } := by
  have hwalk := iterate_request_cb_initial env (resume_request ptid)
    (resume_selected env ptid) w.thread_list [] w k hok
  rw [List.append_nil] at hwalk
  simp only [iterate_threads_from, pure_run] at hwalk
  cases hl : ptid_lwp_p ptid with
  | true =>
      simp only [resume_request, resume_selected, hl, if_true] at hwalk
      simp only [fbsd_resume, hl, if_true, bind_run, M.bind, iterate_over_threads,
        resume_one_thread_cb_eq, hwalk, pure_run, resume_request, resume_selected]
  | false =>
      simp only [resume_request, resume_selected, hl, Bool.false_eq_true, if_false] at hwalk
      simp only [fbsd_resume, hl, Bool.false_eq_true, if_false, bind_run, M.bind,
        iterate_over_threads, resume_all_threads_cb_eq, hwalk, pure_run, get_world,
        resume_request, resume_selected]

/-- The success of the per-thread requests depends on the kernel requests of
the environment only. -/
theorem requests_ok_congr {σ : Type} (env1 env2 : target_env σ) (request : ptrace_request)
    (sel : thread_info → Bool) (h : env1.ptrace_set = env2.ptrace_set)
    (l : List thread_info) (k : σ) :
    requests_ok env1 request sel l k = requests_ok env2 request sel l k := by
  induction l generalizing k with
  | nil => rfl
  | cons tp next ih =>
      simp only [requests_ok, h]
      cases sel tp with
      | false => simpa using ih k
      | true =>
          cases env2.ptrace_set k request tp.ptid.lwp 0 0 with
          | none => rfl
          | some k1 => simpa using ih k1

/-- C22: after `fbsd_nat_add_target (t)` the members `to_resume` and `to_wait`
of `t` hold `fbsd_resume` and `fbsd_wait`, and the pointers `super_resume` and
`super_wait` hold what these members held before; every member that the
function does not assign, such as `to_fetch_registers` and
`to_store_registers`, holds what it held in `t`.  With these pointers,
`fbsd_resume` calls the former `to_resume` at most once and as its last call,
with `step` and `signo` unchanged, and exactly once when no per-thread request
fails; `fbsd_wait` starts with a call of the former `to_wait`, blocks when it
does not return and returns what it returned when that is not a stop. -/
theorem fbsd_nat_add_target_spec {σ : Type} (t : target_ops) (g : nat_globals)
    (env : target_env σ)
    (resume_of : target_method → σ → ptid_t → Int → Int → Option σ)
    (wait_of :
      target_method → σ → ptid_t → Int → Option (ptid_t × target_waitstatus × σ))
    (ptid : ptid_t) (step signo opts : Int) (fuel : Nat) (w : World σ) :
    (fbsd_nat_add_target t g).1 "to_resume" = target_method.fbsd_resume ∧
    (fbsd_nat_add_target t g).1 "to_wait" = target_method.fbsd_wait ∧
    (fbsd_nat_add_target t g).2.super_resume = t "to_resume" ∧
    (fbsd_nat_add_target t g).2.super_wait = t "to_wait" ∧
    (∀ member : String,
      member ∉ ["to_pid_to_exec_file", "to_find_memory_regions", "to_thread_alive",
        "to_pid_to_str", "to_update_thread_list", "to_resume", "to_wait",
        "to_post_startup_inferior", "to_post_attach", "to_follow_fork",
        "to_insert_fork_catchpoint", "to_remove_fork_catchpoint",
        "to_insert_vfork_catchpoint", "to_remove_vfork_catchpoint",
        "to_insert_exec_catchpoint", "to_remove_exec_catchpoint"] →
      (fbsd_nat_add_target t g).1 member = t member) ∧
    (fbsd_nat_add_target t g).1 "to_fetch_registers" = t "to_fetch_registers" ∧
    (fbsd_nat_add_target t g).1 "to_store_registers" = t "to_store_registers" ∧
    (fbsd_nat_add_target t g).2.targets = (fbsd_nat_add_target t g).1 :: g.targets ∧
    (env_of_globals env resume_of wait_of (fbsd_nat_add_target t g).2).super_resume
      = resume_of (t "to_resume") ∧
    (env_of_globals env resume_of wait_of (fbsd_nat_add_target t g).2).super_wait
      = wait_of (t "to_wait") ∧
    (∃ made tail : List Call,
      (fbsd_resume (env_of_globals env resume_of wait_of (fbsd_nat_add_target t g).2)
          ptid step signo w).2.calls = w.calls ++ made ++ tail ∧
      (∀ p st sg, Call.super_resume p st sg ∉ made) ∧
      ((tail = [] ∧
          (fbsd_resume (env_of_globals env resume_of wait_of (fbsd_nat_add_target t g).2)
            ptid step signo w).1 = Outcome.error failed_call.ptrace)
        ∨ tail = [Call.super_resume (if ptid_lwp_p ptid then ptid else w.inferior_ptid)
            step signo])) ∧
    (∀ k, requests_ok env (resume_request ptid) (resume_selected env ptid) w.thread_list
        w.kern = some k →
      fbsd_resume (env_of_globals env resume_of wait_of (fbsd_nat_add_target t g).2)
          ptid step signo w
        = (match resume_of (t "to_resume") k
              (if ptid_lwp_p ptid then ptid else w.inferior_ptid) step signo with
           | some k1 =>
               (Outcome.ok (),
                 { w with
                   kern := k1,
                   calls := w.calls ++ (w.thread_list.filter (resume_selected env ptid)).map
                       (request_of (resume_request ptid))
                     ++ [Call.super_resume (if ptid_lwp_p ptid then ptid else w.inferior_ptid)
                           step signo] })
           | none =>
               (Outcome.error failed_call.super_resume,
                 { w with
                   kern := k,
                   calls := w.calls ++ (w.thread_list.filter (resume_selected env ptid)).map
                       (request_of (resume_request ptid))
                     ++ [Call.super_resume (if ptid_lwp_p ptid then ptid else w.inferior_ptid)
                           step signo] }))) ∧
    (wait_of (t "to_wait") w.kern ptid opts = none →
      fbsd_wait (env_of_globals env resume_of wait_of (fbsd_nat_add_target t g).2)
          (fuel + 1) ptid opts w
        = (Outcome.blocked, { w with calls := w.calls ++ [Call.super_wait ptid opts] })) ∧
    (∀ wptid st k1, wait_of (t "to_wait") w.kern ptid opts = some (wptid, st, k1) →
      st.kind ≠ target_waitkind.STOPPED →
      fbsd_wait (env_of_globals env resume_of wait_of (fbsd_nat_add_target t g).2)
          (fuel + 1) ptid opts w
        = (Outcome.ok (wptid, st),
            { w with kern := k1, calls := w.calls ++ [Call.super_wait ptid opts] })) := by
  refine ⟨rfl, rfl, rfl, rfl, ?_, rfl, rfl, rfl, rfl, rfl, ?_, ?_, ?_, ?_⟩
  · intro member hm
    simp only [List.mem_cons, List.mem_singleton, List.not_mem_nil, or_false, not_or] at hm
    obtain ⟨h1, h2, h3, h4, h5, h6, h7, h8, h9, h10, h11, h12, h13, h14, h15, h16⟩ := hm
    simp [fbsd_nat_add_target, target_ops.set, h1, h2, h3, h4, h5, h6, h7, h8, h9, h10, h11,
      h12, h13, h14, h15, h16]
  · obtain ⟨request, sel, issued, tail, _, _, hcalls, _, htail, _⟩ :=
      fbsd_resume_run (env_of_globals env resume_of wait_of (fbsd_nat_add_target t g).2)
        ptid step signo w
    refine ⟨issued.map (request_of request), tail, hcalls, ?_, htail⟩
    intro p st sg hmem
    simp [request_of] at hmem
  · intro k hok
    have hok1 : requests_ok (env_of_globals env resume_of wait_of (fbsd_nat_add_target t g).2)
        (resume_request ptid)
        (resume_selected (env_of_globals env resume_of wait_of (fbsd_nat_add_target t g).2)
          ptid) w.thread_list w.kern = some k := by
      rw [requests_ok_congr
        (env_of_globals env resume_of wait_of (fbsd_nat_add_target t g).2) env _ _ rfl]
      exact hok
    rw [fbsd_resume_ok_run _ ptid step signo w k hok1]
    have hsel : resume_selected
        (env_of_globals env resume_of wait_of (fbsd_nat_add_target t g).2) ptid
        = resume_selected env ptid := rfl
    have hres : (env_of_globals env resume_of wait_of (fbsd_nat_add_target t g).2).super_resume
        = resume_of (t "to_resume") := rfl
    rw [hsel]
    cases hr : resume_of (t "to_resume") k (if ptid_lwp_p ptid then ptid else w.inferior_ptid)
      step signo <;> simp [super_resume, hres, hr]
  · intro hnone
    have hw : (env_of_globals env resume_of wait_of (fbsd_nat_add_target t g).2).super_wait
        w.kern ptid opts = none := hnone
    simp [fbsd_wait, bind_run, M.bind, super_wait, hw]
  · intro wptid st k1 hsome hst
    have hw : (env_of_globals env resume_of wait_of (fbsd_nat_add_target t g).2).super_wait
        w.kern ptid opts = some (wptid, st, k1) := hsome
    simp [fbsd_wait, bind_run, M.bind, super_wait, hw, hst, pure_run]

theorem fbsd_nat_add_target_spec_witness :
    (fbsd_nat_add_target sim_beneath_target
        ⟨target_method.other "", target_method.other "", []⟩).1 "to_resume"
      = target_method.fbsd_resume ∧
    (fbsd_nat_add_target sim_beneath_target
        ⟨target_method.other "", target_method.other "", []⟩).2.super_resume
      = target_method.other "to_resume" ∧
    (fbsd_nat_add_target sim_beneath_target
        ⟨target_method.other "", target_method.other "", []⟩).1 "to_store_registers"
      = target_method.other "to_store_registers" ∧
    fbsd_resume (env_of_globals sim_env sim_resume_of sim_wait_of
        (fbsd_nat_add_target sim_beneath_target
          ⟨target_method.other "", target_method.other "", []⟩).2)
        ⟨1, 100, 0⟩ 1 0 sim_world_threads
      = (Outcome.ok (),
          { sim_world_threads with
            calls := [Call.ptrace ptrace_request.PT_SUSPEND 100 0 0,
                      Call.ptrace ptrace_request.PT_SUSPEND 101 0 0,
                      Call.super_resume ⟨1, 100, 0⟩ 1 0] }) :=
  have h := fbsd_nat_add_target_spec sim_beneath_target
    ⟨target_method.other "", target_method.other "", []⟩ sim_env sim_resume_of sim_wait_of
    ⟨1, 100, 0⟩ 1 0 0 0 sim_world_threads
  ⟨h.1, h.2.2.1, h.2.2.2.2.2.2.1,
    (h.2.2.2.2.2.2.2.2.2.2.2.1 sim_idle (by decide)).trans (by decide)⟩

end Gdb
